import Mathlib

/-!
# Replication server: deconfliction engine

A shallow embedding of `ReplServer::dbTimeSync2` and its helpers
(`src/src/ReplServer.cpp`), followed by theorems about them.

Conventions of the embedding:

* C++ `int` / `time_t` values are mathematical integers (`Int`); the engine only
  compares, copies, adds small constants to and subtracts 5 from them, and the
  statements below concern values far from the machine limits. Where timestamps leave
  the range of `int` (the locals `tDiff` and `largestTime` are `int`) the code narrows
  them and the embedding does not; the embedding is the code for timestamps from 0 up to
  `2 ^ 31`.
* `unsigned int` identifiers are natural numbers.
* Latitude and longitude are only ever compared with `==`; they are represented by
  integers standing for the (non-NaN) coordinate values.
* The plot database is a list of records; an iterator obtained from
  `getDBIterator` is an index into that list.
-/

/-- Modelled from the spec: the plot record `DronePlot` is declared in `DronePlotDB.h`,
which is not among the sources. The fields are the ones the spec lists (section 3) and
the ones `ReplServer.cpp` reads and writes: `drone_id`, `node_id`, `timestamp`,
`latitude`, `longitude`, a set of flags (kept as a bit mask) and the transient
`checked` marker. -/
structure DronePlot where
  drone_id : Nat
  node_id : Nat
  timestamp : Int
  latitude : Int
  longitude : Int
  flags : Nat
  checked : Bool
deriving DecidableEq, Repr

/-- Modelled from the spec: the flag `NEW` (locally produced, not yet replicated),
as bit 0 of the flag mask. -/
def DBFLAG_NEW : Nat := 1

/-- Modelled from the spec: `isFlagSet` tests whether a flag of the mask is set. -/
def DronePlot.isFlagSet (p : DronePlot) (flag : Nat) : Bool :=
  p.flags &&& flag != 0

/-- Modelled from the spec: `clrFlags` removes the given flags from the mask
(`_flags &= ~flags`) and leaves every other flag and field alone. -/
def DronePlot.clrFlags (p : DronePlot) (flag : Nat) : DronePlot :=
  { p with flags := p.flags ^^^ (p.flags &&& flag) }

/-- A byte of a `std::vector<uint8_t>`: a natural number (below 256 on the wire). -/
abbrev Byte : Type := Nat

/-- How a call of a C++ function ends: it returns a value, it throws, or it runs into
undefined behaviour (an invalid iterator range, a read past the end of a buffer), after
which nothing is known. `state` is the mutable state the call leaves behind. -/
inductive Outcome (σ α : Type) where
  | returned (state : σ) (value : α)
  | threw (state : σ) (what : String)
  | undefined
deriving DecidableEq, Repr

/-- Modelled from the spec: `DronePlot::serialize`, `DronePlot::deserialize` and
`DronePlot::getDataSize` are not among the sources. The spec treats the record format as
an opaque fixed-width serialization known to both ends; it is a parameter here.
`serialize p` is the byte string `p.serialize(buf)` appends to `buf`; it has the fixed
width `dataSize`, which is not zero. -/
structure PlotCodec where
  dataSize : Nat
  serialize : DronePlot → List Byte
  deserialize : List Byte → DronePlot
  dataSize_pos : 0 < dataSize
  serialize_length : ∀ p, (serialize p).length = dataSize

/-- The members of `ReplServer` that `dbTimeSync2` reads and writes: the plot database
`_plotdb` and the master-clock election state. -/
structure ReplServer where
  _plotdb : List DronePlot
  masterStartTime : Int
  masterClockNode : Nat
  startTimeWasSet : Bool
  node1StartTimeFlag : Bool
  node2StartTimeFlag : Bool
  node3StartTimeFlag : Bool
deriving DecidableEq, Repr

namespace ReplServer

/-- Modelled from the spec: the member initialisers of `masterStartTime` and of the three
candidacy flags are not in the header under `src/`; the spec gives the initial engine
state as `master_start_time = 0`, start time not set, all three candidacy flags true
(`masterClockNode = 0` and `startTimeWasSet = false` are in `ReplServer.h`). -/
def init (db : List DronePlot) : ReplServer :=
  { _plotdb := db, masterStartTime := 0, masterClockNode := 0, startTimeWasSet := false,
    node1StartTimeFlag := true, node2StartTimeFlag := true, node3StartTimeFlag := true }

/-- The loop `while (tempNum > 8) tempNum -= 5;` of `checkStartTimeRef`, run for at most
`fuel` iterations. -/
def checkStartTimeRefLoop : Nat → Int → Int
  | 0, tempNum => tempNum
  | fuel + 1, tempNum =>
    if tempNum > 8 then checkStartTimeRefLoop fuel (tempNum - 5) else tempNum

/-- `ReplServer::checkStartTimeRef` (lines 793-799). The loop is given `referenceTime`
iterations, which is more than it ever takes (`checkStartTimeRef_unfold`). -/
def checkStartTimeRef (referenceTime : Int) : Int :=
  checkStartTimeRefLoop referenceTime.toNat referenceTime

/-- `ReplServer::startTimeCalcErrorCheck` (lines 362-378). -/
def startTimeCalcErrorCheck (s : ReplServer) (nodeId : Nat) : Bool :=
  match nodeId with
  | 1 => s.node1StartTimeFlag
  | 2 => s.node2StartTimeFlag
  | _ => s.node3StartTimeFlag

/-- `ReplServer::setStartTimeErrorCheckFlag` (lines 380-395). -/
def setStartTimeErrorCheckFlag (s : ReplServer) (nodeId : Nat) : ReplServer :=
  match nodeId with
  | 1 => { s with node1StartTimeFlag := false }
  | 2 => { s with node2StartTimeFlag := false }
  | _ => { s with node3StartTimeFlag := false }

/-- `ReplServer::getDBIterator` (lines 733-744): the record at position `index`, or
`none` (the end iterator) when `index` is past the last record. -/
def getDBIterator (db : List DronePlot) (index : Nat) : Option DronePlot :=
  db[index]?

/-- Modelled from the spec: `DronePlotDB::sortByTime` is not among the sources; the spec
says the store is sorted by `timestamp` ascending. Records with equal timestamps keep
their relative order. -/
def sortByTime (db : List DronePlot) : List DronePlot :=
  db.insertionSort (fun a b => a.timestamp ≤ b.timestamp)

/-- The test the inner loop applies to the anchor `it` and a later record `it2`
(lines 267-274). The flag that is tested is the anchor's. The code keeps the difference in
`int tDiff`; the test here is the code's for timestamps from 0 up to `2 ^ 31`, whose
differences an `int` holds, and differs from it where the difference does not fit
(timestamps `2 ^ 32` apart pass the code's test). -/
def isDuplicate (it it2 : DronePlot) : Bool :=
  !it.isFlagSet DBFLAG_NEW
    && (it.drone_id == it2.drone_id && it.node_id != it2.node_id)
    && (it.latitude == it2.latitude && it.longitude == it2.longitude)
    && decide (|it.timestamp - it2.timestamp| < 11)

/-- The body of the inner loop (lines 265-284) for the later position `j`: a record that
passes the test is appended to `duplicatePts` and marked `checked`. -/
def collectStep (it : DronePlot) (acc : List Nat × List DronePlot) (j : Nat) :
    List Nat × List DronePlot :=
  match getDBIterator acc.2 j with
  | some it2 =>
    if isDuplicate it it2 then (acc.1 ++ [j], acc.2.set j { it2 with checked := true })
    else acc
  | none => acc

/-- The inner loop `for (j = i + 1; j < _plotdb.size(); j++)` (lines 263-285), started
from `duplicatePts = [i]`. -/
def collectDuplicates (it : DronePlot) (i : Nat) (db : List DronePlot) :
    List Nat × List DronePlot :=
  (List.range' (i + 1) (db.length - (i + 1))).foldl (collectStep it) ([i], db)

/-- The forming of a cluster around the anchor `it` at position `i` (lines 254-285): the
anchor is pushed to `duplicatePts` and marked `checked`, then the inner loop runs. -/
def formCluster (it : DronePlot) (i : Nat) (db : List DronePlot) :
    List Nat × List DronePlot :=
  collectDuplicates { it with checked := true } i (db.set i { it with checked := true })

/-- The loop that finds the largest timestamp of the cluster (lines 288-297);
`largestTime` starts at 0. The code keeps it in an `int`; the value here is the code's for
timestamps below `2 ^ 31`, which an `int` holds unchanged. -/
def findLargestTime (db : List DronePlot) (duplicatePts : List Nat) : Int :=
  duplicatePts.foldl
    (fun largestTime k =>
      match getDBIterator db k with
      | some p => if largestTime < p.timestamp then p.timestamp else largestTime
      | none => largestTime)
    0

/-- The loop that disqualifies the node of every member whose timestamp is not the
largest (lines 299-306). -/
def disqualifySmaller (largestTime : Int) (duplicatePts : List Nat) (s : ReplServer) :
    ReplServer :=
  duplicatePts.foldl
    (fun s k =>
      match getDBIterator s._plotdb k with
      | some p =>
        if largestTime != p.timestamp then setStartTimeErrorCheckFlag s p.node_id else s
      | none => s)
    s

/-- The loop that checks and sets the master start time (lines 308-320). -/
def electMasterClock (duplicatePts : List Nat) (s : ReplServer) : ReplServer :=
  duplicatePts.foldl
    (fun s k =>
      match getDBIterator s._plotdb k with
      | some p =>
        if startTimeCalcErrorCheck s p.node_id then
          let tempStartTime := checkStartTimeRef p.timestamp
          if s.masterStartTime < tempStartTime then
            { s with masterStartTime := tempStartTime, masterClockNode := p.node_id,
                     startTimeWasSet := true }
          else s
        else s
      | none => s)
    s

/-- The adjustment against the overall reference time (lines 322-334): the pair
`(largestTime, overallReferenceTime)` after the block. -/
def adjustToReference (refTimeSet : Bool) (largestTime overallReferenceTime : Int) :
    Int × Int :=
  if refTimeSet then
    if largestTime > overallReferenceTime + 13 then (largestTime, overallReferenceTime + 6)
    else if largestTime != overallReferenceTime then
      (overallReferenceTime, overallReferenceTime)
    else (largestTime, overallReferenceTime)
  else (largestTime, overallReferenceTime)

/-- The body of the last loop over the cluster (lines 338-341) for the member at
position `m`. -/
def assignStep (largestTime : Int) (db : List DronePlot) (m : Nat) : List DronePlot :=
  match getDBIterator db m with
  | some p =>
    if largestTime != p.timestamp then db.set m { p with timestamp := largestTime } else db
  | none => db

/-- The loop that writes the timestamp into every member of the cluster
(lines 336-342). -/
def assignTimestamps (largestTime : Int) (duplicatePts : List Nat) (db : List DronePlot) :
    List DronePlot :=
  duplicatePts.foldl (assignStep largestTime) db

/-- One iteration of the outer loop `for (i = 0; i < _plotdb.size(); i++)`
(lines 245-346). The state carried from one iteration to the next is the server and the
local `overallReferenceTime`; `refTimeSet` is fixed before the loop. -/
def syncStep (refTimeSet : Bool) (st : ReplServer × Int) (i : Nat) : ReplServer × Int :=
  match getDBIterator st.1._plotdb i with
  | none => st
  | some it =>
    if it.isFlagSet DBFLAG_NEW then st
    else if it.checked then st
    else
      let found := formCluster it i st.1._plotdb
      let duplicatePts := found.1
      let s1 : ReplServer := { st.1 with _plotdb := found.2 }
      let largestTime := findLargestTime s1._plotdb duplicatePts
      let s2 := disqualifySmaller largestTime duplicatePts s1
      let s3 := electMasterClock duplicatePts s2
      let adj := adjustToReference refTimeSet largestTime st.2
      let s4 : ReplServer :=
        { s3 with _plotdb := assignTimestamps adj.1 duplicatePts s3._plotdb }
      (s4, adj.2 + 5)

/-- The final loop that clears every `checked` marker (lines 348-352). -/
def clearChecked (db : List DronePlot) : List DronePlot :=
  db.map (fun p => { p with checked := false })

/-- `ReplServer::dbTimeSync2` (lines 232-353). -/
def dbTimeSync2 (s : ReplServer) : ReplServer :=
  let s0 : ReplServer := { s with _plotdb := sortByTime s._plotdb }
  let overallReferenceTime : Int := if s0.startTimeWasSet then s0.masterStartTime else 0
  let refTimeSet : Bool := s0.startTimeWasSet
  let st :=
    (List.range s0._plotdb.length).foldl (syncStep refTimeSet) (s0, overallReferenceTime)
  { st.1 with _plotdb := clearChecked st.1._plotdb }

/-- A plot as `addPlot` and the simulator store it: no transient marker set. -/
def mkPlot (drone_id node_id : Nat) (timestamp latitude longitude : Int) (flags : Nat) :
    DronePlot :=
  { drone_id := drone_id, node_id := node_id, timestamp := timestamp, latitude := latitude,
    longitude := longitude, flags := flags, checked := false }

/-- The store of end-to-end scenario 2: drone 42 at (10, 20), seen by nodes 1, 2 and 3 at
their local times 1005, 1003 and 1007; all three records replicated (not `NEW`). -/
def threeNodeStore : List DronePlot :=
  [mkPlot 42 1 1005 10 20 0, mkPlot 42 2 1003 10 20 0, mkPlot 42 3 1007 10 20 0]

/-- The six orders in which the three records of `threeNodeStore` can sit in a store. -/
def threeNodeOrders : List (List DronePlot) :=
  [[mkPlot 42 1 1005 10 20 0, mkPlot 42 2 1003 10 20 0, mkPlot 42 3 1007 10 20 0],
   [mkPlot 42 1 1005 10 20 0, mkPlot 42 3 1007 10 20 0, mkPlot 42 2 1003 10 20 0],
   [mkPlot 42 2 1003 10 20 0, mkPlot 42 1 1005 10 20 0, mkPlot 42 3 1007 10 20 0],
   [mkPlot 42 2 1003 10 20 0, mkPlot 42 3 1007 10 20 0, mkPlot 42 1 1005 10 20 0],
   [mkPlot 42 3 1007 10 20 0, mkPlot 42 1 1005 10 20 0, mkPlot 42 2 1003 10 20 0],
   [mkPlot 42 3 1007 10 20 0, mkPlot 42 2 1003 10 20 0, mkPlot 42 1 1005 10 20 0]]

/-- A store in which a `NEW` record of node 2 lies between two replicated records of
nodes 1 and 3 for the same drone and position. -/
def newMemberStore : List DronePlot :=
  [mkPlot 42 1 1000 10 20 0, mkPlot 42 2 1003 10 20 DBFLAG_NEW, mkPlot 42 3 1005 10 20 0]

/-- A store with three replicated records of one drone at one position whose timestamps
form a chain: node 1 at 1000, node 2 at 1010, node 3 at 1020. -/
def chainStore : List DronePlot :=
  [mkPlot 42 1 1000 10 20 0, mkPlot 42 2 1010 10 20 0, mkPlot 42 3 1020 10 20 0]

/-- A store with two identical replicated records (same drone, node, timestamp, latitude
and longitude) whose timestamp is small. -/
def twinStore : List DronePlot :=
  [mkPlot 42 1 5 10 20 0, mkPlot 42 1 5 10 20 0]

/-- A store with two identical replicated records whose timestamp is large. -/
def lateTwinStore : List DronePlot :=
  [mkPlot 42 1 1005 10 20 0, mkPlot 42 1 1005 10 20 0]

/-- A store holding one replicated record of node 1 whose timestamp normalises to 8. -/
def laterNode1Store : List DronePlot :=
  [mkPlot 42 1 1013 10 20 0]

/-- The property of a store that no two records not flagged `NEW` with the same drone,
latitude and longitude and different nodes have timestamps that differ by a non-zero
amount smaller than 11. -/
def NoNearDuplicates (db : List DronePlot) : Prop :=
  ∀ p ∈ db, ∀ q ∈ db,
    p.isFlagSet DBFLAG_NEW = false → q.isFlagSet DBFLAG_NEW = false →
    p.drone_id = q.drone_id → p.latitude = q.latitude → p.longitude = q.longitude →
    p.node_id ≠ q.node_id →
    ¬ (p.timestamp ≠ q.timestamp ∧ |p.timestamp - q.timestamp| < 11)

instance (db : List DronePlot) : Decidable (NoNearDuplicates db) := by
  unfold NoNearDuplicates
  infer_instance

/-- The property of a store that any two of its records that pass the cluster test of
lines 267-274, the first as anchor, carry the same timestamp. -/
def Settled (db : List DronePlot) : Prop :=
  ∀ p ∈ db, ∀ q ∈ db, isDuplicate p q = true → p.timestamp = q.timestamp

instance (db : List DronePlot) : Decidable (Settled db) := by
  unfold Settled
  infer_instance

/-- A sequence of `dbTimeSync2` calls. Between two calls the replication loop changes
only the store (plots arrive from the simulator and from peers, `NEW` flags are cleared),
never the election state; `stores` lists the store each call finds. -/
def runPasses (s : ReplServer) (stores : List (List DronePlot)) : ReplServer :=
  stores.foldl (fun s db => dbTimeSync2 { s with _plotdb := db }) s

/-- How the election state at a later point of execution `t` relates to the state at an
earlier point `s`: the start time only grows and stays at most `max _ 8`, the
`startTimeWasSet` latch and lost candidacies persist, and the clock node changes only
together with a strictly larger start time and only to a node that is a candidate. -/
structure Evolves (s t : ReplServer) : Prop where
  start_le : s.masterStartTime ≤ t.masterStartTime
  start_bound : t.masterStartTime ≤ max s.masterStartTime 8
  set_latched : s.startTimeWasSet = true → t.startTimeWasSet = true
  clock_change : t.masterClockNode ≠ s.masterClockNode → s.masterStartTime < t.masterStartTime
  flag1 : s.node1StartTimeFlag = false → t.node1StartTimeFlag = false
  flag2 : s.node2StartTimeFlag = false → t.node2StartTimeFlag = false
  flag3 : s.node3StartTimeFlag = false → t.node3StartTimeFlag = false
  adopt1 : s.node1StartTimeFlag = false → t.masterClockNode = 1 → s.masterClockNode = 1
  adopt2 : s.node2StartTimeFlag = false → t.masterClockNode = 2 → s.masterClockNode = 2
  adopt3 : s.node3StartTimeFlag = false → t.masterClockNode ≠ s.masterClockNode →
    t.masterClockNode = 1 ∨ t.masterClockNode = 2

/-! ### Marshalling and installing plots -/

/-- Modelled from the spec: `DronePlotDB::addPlot` is not among the sources; it appends a
record with the five given fields and no flag set. -/
def addPlot (db : List DronePlot) (drone_id node_id : Nat) (timestamp latitude longitude : Int) :
    List DronePlot :=
  db ++ [mkPlot drone_id node_id timestamp latitude longitude 0]

/-- The four bytes of an `unsigned int` in memory, lowest byte first (the little-endian
layout of the wire format), as `queueNewPlots` copies them from `&count`. -/
def countBytes (count : Nat) : List Byte :=
  [count % 256, count / 256 % 256, count / 65536 % 256, count / 16777216 % 256]

/-- The `unsigned int` that `addReplDronePlots` reads through `(unsigned int *) data.data()`
from the first four bytes of `data`. -/
def readCount (data : List Byte) : Nat :=
  data.getD 0 0 + 256 * data.getD 1 0 + 65536 * data.getD 2 0 + 16777216 * data.getD 3 0

/-- The loop of `queueNewPlots` over the store (lines 139-153), with the local
`marshall_data` and the `unsigned int count`. The result is the store as the loop leaves
it and, unless the marshalling check threw, the final `marshall_data` and `count`. -/
def queueLoop (c : PlotCodec) :
    List DronePlot → List Byte → Nat → List DronePlot × Option (List Byte × Nat)
  | [], marshall_data, count => ([], some (marshall_data, count))
  | dpit :: rest, marshall_data, count =>
    let step : DronePlot × List Byte × Nat :=
      if dpit.isFlagSet DBFLAG_NEW then
        (dpit.clrFlags DBFLAG_NEW, marshall_data ++ c.serialize dpit, (count + 1) % 4294967296)
      else (dpit, marshall_data, count)
    if step.2.1.length % c.dataSize != 0 then (step.1 :: rest, none)
    else
      let r := queueLoop c rest step.2.1 step.2.2
      (step.1 :: r.1, r.2)

/-- `ReplServer::queueNewPlots` (lines 131-178). The state is the store; the value is the
buffer handed to `_queue.sendToAll`, if any, and the returned count. -/
def queueNewPlots (c : PlotCodec) (db : List DronePlot) :
    Outcome (List DronePlot) (Option (List Byte) × Nat) :=
  match queueLoop c db [] 0 with
  | (db1, none) => Outcome.threw db1 "Issue with marshalling!"
  | (db1, some (marshall_data, count)) =>
    if count == 0 then Outcome.returned db1 (none, 0)
    else
      let marshall_data := countBytes count ++ marshall_data
      if marshall_data.length > 0 then Outcome.returned db1 (some marshall_data, count)
      else Outcome.returned db1 (none, count)

/-- `ReplServer::addSingleDronePlot` (lines 222-230). -/
def addSingleDronePlot (c : PlotCodec) (db : List DronePlot) (data : List Byte) :
    List DronePlot :=
  let tmp_plot := c.deserialize data
  addPlot db tmp_plot.drone_id tmp_plot.node_id tmp_plot.timestamp tmp_plot.latitude
    tmp_plot.longitude

/-- The loop `for (i = 0; i < count; i++)` of `addReplDronePlots` (lines 206-211); `dptr`
is the part of `data` from the iterator `dptr` on. Copying a record from a range that
reaches past the end of `data` is undefined behaviour (`none`). -/
def addReplLoop (c : PlotCodec) : Nat → List Byte → List DronePlot → Option (List DronePlot)
  | 0, _, db => some db
  | count + 1, dptr, db =>
    if dptr.length < c.dataSize then none
    else addReplLoop c count (dptr.drop c.dataSize)
      (addSingleDronePlot c db (dptr.take c.dataSize))

/-- `ReplServer::addReplDronePlots` (lines 189-214). The state is the store. -/
def addReplDronePlots (c : PlotCodec) (db : List DronePlot) (data : List Byte) :
    Outcome (List DronePlot) Unit :=
  if data.length < 4 then
    Outcome.threw db "Not enough data passed into addReplDronePlots"
  else if (data.length - 4) % c.dataSize != 0 then
    Outcome.threw db
      "Data passed into addReplDronePlots was not the right multiple of DronePlot size"
  else
    match addReplLoop c (readCount data) (data.drop 4) db with
    | some db1 => Outcome.returned db1 ()
    | none => Outcome.undefined

/-- The constant `secs_between_repl` (line 5). -/
def secs_between_repl : Int := 20

/-- The test of the replication loop (line 98) that decides whether `queueNewPlots` runs
in this iteration; `adjustedTime` is the value `getAdjustedTime()` returns. -/
def replicationDue (adjustedTime last_repl : Int) : Bool :=
  decide (adjustedTime - last_repl > secs_between_repl)

/-- The fields of a record that a deconfliction pass has no business with. -/
def frameOf (p : DronePlot) : Nat × Nat × Int × Int × Nat :=
  (p.drone_id, p.node_id, p.latitude, p.longitude, p.flags)

/-- A stand-in record format for evaluating the marshalling functions at concrete inputs:
eight bytes, the two identifiers followed by a sign byte and a magnitude byte for each of
timestamp, latitude and longitude. -/
def demoCodec : PlotCodec :=
  { dataSize := 8,
    serialize := fun p =>
      [p.drone_id, p.node_id,
       if p.timestamp < 0 then 1 else 0, p.timestamp.natAbs,
       if p.latitude < 0 then 1 else 0, p.latitude.natAbs,
       if p.longitude < 0 then 1 else 0, p.longitude.natAbs],
    deserialize := fun data =>
      mkPlot (data.getD 0 0) (data.getD 1 0)
        (if data.getD 2 0 = 1 then -(data.getD 3 0 : Int) else (data.getD 3 0 : Int))
        (if data.getD 4 0 = 1 then -(data.getD 5 0 : Int) else (data.getD 5 0 : Int))
        (if data.getD 6 0 = 1 then -(data.getD 7 0 : Int) else (data.getD 7 0 : Int)) 0,
    dataSize_pos := by decide,
    serialize_length := fun _ => rfl }

/-- A store with a `NEW` record, a replicated record and a `NEW` record that carries a
second flag as well. -/
def mixedStore : List DronePlot :=
  [mkPlot 42 1 105 10 20 DBFLAG_NEW, mkPlot 42 2 103 10 20 0, mkPlot 42 3 (-7) 10 20 3]

/-- Two `NEW` records of drone 42, seen by node 1 at 105 and at 110. -/
def twoNewPlots : List DronePlot :=
  [mkPlot 42 1 105 10 20 DBFLAG_NEW, mkPlot 42 1 110 11 21 DBFLAG_NEW]

/-- A payload whose count field says 1 and which carries two records of `demoCodec`. -/
def shortCountPayload : List Byte :=
  countBytes 1 ++ demoCodec.serialize (mkPlot 42 1 105 10 20 0)
    ++ demoCodec.serialize (mkPlot 42 2 103 10 20 0)

/-- A payload whose count field says 2 and which carries one record of `demoCodec`. -/
def longCountPayload : List Byte :=
  countBytes 2 ++ demoCodec.serialize (mkPlot 42 1 105 10 20 0)

end ReplServer

/-! ### The frame codec and the crypto envelope of `TCPConn` -/

namespace TCPConn

/-- The tag `<REP>` (constructor, lines 43-47). -/
def c_rep : List Byte := [60, 82, 69, 80, 62]

/-- The tag `</REP>` (lines 49-50): `c_rep` with a slash inserted at position 1. -/
def c_endrep : List Byte := [60, 47, 82, 69, 80, 62]

/-- The tag `<ACK>` (lines 52-56). -/
def c_ack : List Byte := [60, 65, 67, 75, 62]

/-- The tag `<AUT>` (lines 58-62). -/
def c_auth : List Byte := [60, 65, 85, 84, 62]

/-- The tag `</AUT>` (lines 64-65). -/
def c_endauth : List Byte := [60, 47, 65, 85, 84, 62]

/-- The tag `<SID>` (lines 67-71). -/
def c_sid : List Byte := [60, 83, 73, 68, 62]

/-- The tag `</SID>` (lines 73-74). -/
def c_endsid : List Byte := [60, 47, 83, 73, 68, 62]

/-- The three pairs of an opening and a closing tag that frame a payload. -/
def tagPairs : List (List Byte × List Byte) :=
  [(c_sid, c_endsid), (c_auth, c_endauth), (c_rep, c_endrep)]

/-- The constant `iv_size`, `AES::BLOCKSIZE` (line 22). -/
def iv_size : Nat := 16

/-- `TCPConn::findCmd` (lines 513-515): `std::search`, as the position of the first
occurrence of `cmd` in `buf`, or `buf.length` (the end iterator) when there is none. An
empty `cmd` is found at position 0. -/
def findCmd : List Byte → List Byte → Nat
  | [], _ => 0
  | b :: buf, cmd => if cmd.isPrefixOf (b :: buf) then 0 else findCmd buf cmd + 1

/-- `TCPConn::hasCmd` (lines 517-519). -/
def hasCmd (buf cmd : List Byte) : Bool :=
  !(findCmd buf cmd == buf.length)

/-- `TCPConn::getCmdData` (lines 532-543). The state is `buf`. `buf.assign(first, last)`
with `last` before `first` is an invalid iterator range: undefined behaviour. -/
def getCmdData (buf startcmd endcmd : List Byte) : Outcome (List Byte) Bool :=
  let temp := buf
  let start := findCmd temp startcmd
  let end_ := findCmd temp endcmd
  if start == temp.length || end_ == temp.length then Outcome.returned buf false
  else if start + startcmd.length ≤ end_ then
    Outcome.returned ((temp.drop (start + startcmd.length)).take
      (end_ - (start + startcmd.length))) true
  else Outcome.undefined

/-- `TCPConn::wrapCmd` (lines 554-561): the new contents of `buf`. -/
def wrapCmd (buf startcmd endcmd : List Byte) : List Byte :=
  startcmd ++ buf ++ endcmd

/-- The cipher primitive of the crypto library (AES in CFB mode), which is not part of
the repository: a parameter. -/
structure Cipher where
  encipher : List Byte → List Byte → List Byte → List Byte
  decipher : List Byte → List Byte → List Byte → List Byte

/-- `TCPConn::encryptData` (lines 144-164): the new contents of `buf`. `init_vector` is
the random block of `iv_size` bytes the call generates. -/
def encryptData (cipher : Cipher) (aes_key init_vector buf : List Byte) : List Byte :=
  init_vector ++ cipher.encipher aes_key init_vector buf

/-- `TCPConn::decryptData` (lines 460-478). The state is `buf`. Taking `iv_size` bytes from
a shorter buffer reads and erases past its end: undefined behaviour. -/
def decryptData (cipher : Cipher) (aes_key buf : List Byte) : Outcome (List Byte) Unit :=
  if buf.length < iv_size then Outcome.undefined
  else
    let init_vector := buf.take iv_size
    let buf := buf.drop iv_size
    Outcome.returned (cipher.decipher aes_key init_vector buf) ()

/-- A stand-in cipher for evaluating the envelope at concrete inputs: both directions
combine every byte with the first key byte by exclusive or. -/
def demoCipher : Cipher :=
  { encipher := fun key _ buf => buf.map (fun b => b ^^^ key.getD 0 0),
    decipher := fun key _ buf => buf.map (fun b => b ^^^ key.getD 0 0) }

/-- A buffer in which the closing tag `</AUT>` comes first and the opening tag `<AUT>`
after it, with one byte in between. -/
def reversedFrame : List Byte :=
  c_endauth ++ [7] ++ c_auth

end TCPConn

/-! ### The connection state machine of `TCPConn` -/

namespace TCPConn

/-- The stage of a connection. `statustype` is declared in `TCPConn.h`, which is not among
the sources; these are the values `TCPConn.cpp` names. -/
inductive statustype where
  | s_none
  | s_connecting
  | s_connected
  | s_svrSendAuthString
  | s_clientAuthResp
  | s_svrWaitForResp
  | s_svrSendAuthResp
  | s_cFinalCheck
  | s_datatx
  | s_datarx
  | s_waitack
  | s_hasdata
deriving DecidableEq, Repr

/-- What the socket `_connfd` offers during one call of `handleConnection` (`FileDesc` is
not among the sources): nothing to read; bytes to read, where no bytes at all means that
the peer has closed the connection; or a failure that raises `socket_error`. -/
inductive SocketIn where
  | noData
  | data (bytes : List Byte)
  | fault
deriving DecidableEq, Repr

/-- The value of `_connfd.hasData()`; a failing socket is noticed at the read. -/
def SocketIn.hasData : SocketIn → Bool
  | SocketIn.noData => false
  | SocketIn.data _ => true
  | SocketIn.fault => true

end TCPConn

/-- The members of a `TCPConn` object that the connection handlers read or write. -/
structure TCPConn where
  _status : TCPConn.statustype
  _connected : Bool
  _data_ready : Bool
  _inputbuf : List Byte
  _outputbuf : List Byte
  authString : List Byte
  recAuthString : List Byte
  _node_id : List Byte
  _svr_id : List Byte
  _aes_key : List Byte
deriving DecidableEq, Repr

namespace TCPConn

open statustype

/-- The surroundings of one call of `handleConnection`: what the socket offers, the
successive results of `rand()`, and the block that `rnd.GenerateBlock` puts into the
initialization vector of `encryptData`. -/
structure Env where
  input : SocketIn
  rand : Nat → Nat
  init_vector : List Byte

/-- Continue with `k` after a part of a method that returned. -/
def andThen {α β : Type} (r : Outcome TCPConn α) (k : TCPConn → α → Outcome TCPConn β) :
    Outcome TCPConn β :=
  match r with
  | Outcome.returned c a => k c a
  | Outcome.threw c what => Outcome.threw c what
  | Outcome.undefined => Outcome.undefined

/-- Continue with `k` after a call that worked on a local buffer of a method of `c`. -/
def onBuf {α β : Type} (c : TCPConn) (r : Outcome (List Byte) α)
    (k : List Byte → α → Outcome TCPConn β) : Outcome TCPConn β :=
  match r with
  | Outcome.returned buf a => k buf a
  | Outcome.threw _ what => Outcome.threw c what
  | Outcome.undefined => Outcome.undefined

/-- The bytes `std::string::c_str()` shows to a reader of a C string: those before the
first zero byte. -/
def cStr (bytes : List Byte) : List Byte :=
  bytes.takeWhile (fun b => b != 0)

/-- Models `setNodeID` of `TCPConn.h` (not among the sources): it stores the C string it
is given as the node id. -/
def setNodeID (c : TCPConn) (new_id : List Byte) : TCPConn :=
  { c with _node_id := new_id }

/-- Lines 90-100, `accept`, with the descriptor accepted. -/
def accept (c : TCPConn) : TCPConn :=
  { c with _status := s_connected, _connected := true }

/-- Lines 591-602, `connect`, with the connection made. -/
def connect (c : TCPConn) : TCPConn :=
  { c with _status := s_connecting, _connected := true }

/-- Lines 638-641. -/
def disconnect (c : TCPConn) : TCPConn :=
  { c with _connected := false }

/-- Lines 423-451: the value is `none` where the method returns false, and the bytes read
where it returns true. The reads of at most 1024 bytes are taken together. -/
def getData (c : TCPConn) : SocketIn → Outcome TCPConn (Option (List Byte))
  | SocketIn.noData => Outcome.returned c (some [])
  | SocketIn.data bytes =>
    if bytes.length = 0 then Outcome.returned (disconnect c) none
    else Outcome.returned c (some bytes)
  | SocketIn.fault => Outcome.threw c "socket_error"

/-- The twelve bytes of the loops at lines 681-686 and 903-907: `rand() % 30`, stored in a
`uint8_t`. -/
def challenge (rand : Nat → Nat) : List Byte :=
  (List.range 12).map (fun i => rand i % 30 % 256)

/-- Lines 263-270. The value of a handler is the list of buffers it passes to `sendData`,
which writes them to the socket and returns true. -/
def sendSID (c : TCPConn) : Outcome TCPConn (List (List Byte)) :=
  let buf := wrapCmd c._svr_id c_sid c_endsid
  Outcome.returned { c with _status := s_clientAuthResp } [buf]

/-- Lines 278-307. -/
def waitForSID (c : TCPConn) (env : Env) : Outcome TCPConn (List (List Byte)) :=
  if env.input.hasData then
    andThen (getData c env.input) fun c got =>
      match got with
      | none => Outcome.returned c []
      | some buf =>
        onBuf c (getCmdData buf c_sid c_endsid) fun buf ok =>
          if !ok then Outcome.returned (disconnect c) []
          else Outcome.returned { setNodeID c (cStr buf) with _status := s_svrSendAuthString } []
  else Outcome.returned c []

/-- Lines 316-331: `_outputbuf` is encrypted in place and sent. -/
def transmitData (cipher : Cipher) (c : TCPConn) (env : Env) :
    Outcome TCPConn (List (List Byte)) :=
  let c := { c with _outputbuf := encryptData cipher c._aes_key env.init_vector c._outputbuf }
  Outcome.returned { c with _status := s_waitack } [c._outputbuf]

/-- Lines 341-375. The acknowledgement is the member `c_ack` encrypted in place; the
connection is closed in the same call. -/
def waitForData (cipher : Cipher) (c : TCPConn) (env : Env) :
    Outcome TCPConn (List (List Byte)) :=
  if env.input.hasData then
    andThen (getData c env.input) fun c got =>
      match got with
      | none => Outcome.returned c []
      | some buf =>
        onBuf c (decryptData cipher c._aes_key buf) fun buf _ =>
          onBuf c (getCmdData buf c_rep c_endrep) fun buf ok =>
            if !ok then Outcome.returned (disconnect c) []
            else
              let c := { c with _inputbuf := buf, _data_ready := true }
              let ack := encryptData cipher c._aes_key env.init_vector c_ack
              Outcome.returned { disconnect c with _status := s_hasdata } [ack]
  else Outcome.returned c []

/-- Lines 384-410: a missing `<ACK>` is only logged. -/
def awaitAck (cipher : Cipher) (c : TCPConn) (env : Env) :
    Outcome TCPConn (List (List Byte)) :=
  if env.input.hasData then
    andThen (getData c env.input) fun c got =>
      match got with
      | none => Outcome.returned c []
      | some buf =>
        onBuf c (decryptData cipher c._aes_key buf) fun _ _ =>
          Outcome.returned (disconnect c) []
  else Outcome.returned c []

/-- Lines 669-707. -/
def sendAuthenticationString (c : TCPConn) (env : Env) : Outcome TCPConn (List (List Byte)) :=
  let buf := challenge env.rand
  let c := { c with authString := challenge env.rand }
  Outcome.returned c [wrapCmd buf c_auth c_endauth]

/-- Lines 716-757. -/
def waitForAuthString (c : TCPConn) (input : SocketIn) : Outcome TCPConn Unit :=
  andThen (getData c input) fun c got =>
    match got with
    | none => Outcome.returned c ()
    | some buf =>
      onBuf c (getCmdData buf c_auth c_endauth) fun buf ok =>
        if !ok then Outcome.returned (disconnect c) ()
        else Outcome.returned { c with recAuthString := buf } ()

/-- Lines 765-768. -/
def svrSendAuth (c : TCPConn) (env : Env) : Outcome TCPConn (List (List Byte)) :=
  andThen (sendAuthenticationString c env) fun c sent =>
    Outcome.returned { c with _status := s_svrWaitForResp } sent

/-- Lines 885-933. -/
def sendAuthenticationRespAndString (cipher : Cipher) (c : TCPConn) (env : Env) :
    Outcome TCPConn (List (List Byte)) :=
  let buf := encryptData cipher c._aes_key env.init_vector
    (wrapCmd c.recAuthString c_auth c_endauth)
  let buf2 := challenge env.rand
  let c := { c with authString := challenge env.rand }
  Outcome.returned c [buf ++ wrapCmd buf2 c_auth c_endauth]

/-- Lines 777-783. -/
def clientAuthProcess (cipher : Cipher) (c : TCPConn) (env : Env) :
    Outcome TCPConn (List (List Byte)) :=
  if env.input.hasData then
    andThen (waitForAuthString c env.input) fun c _ =>
      andThen (sendAuthenticationRespAndString cipher c env) fun c sent =>
        Outcome.returned { c with _status := s_cFinalCheck } sent
  else Outcome.returned c []

/-- Lines 942-1029. Copying the first 62 bytes of a shorter buffer reads past its end.
`discardSize` is the size of `encrypAuthStr` after `getCmdData` has replaced it by the
bytes between the tags. -/
def waitForEncryptAuthReplyAndAuthString (cipher : Cipher) (c : TCPConn) (input : SocketIn) :
    Outcome TCPConn Unit :=
  andThen (getData c input) fun c got =>
    match got with
    | none => Outcome.returned c ()
    | some buf =>
      if buf.length < 62 then Outcome.undefined
      else
        let encrypAuthStr := buf.take 62
        onBuf c (decryptData cipher c._aes_key encrypAuthStr) fun encrypAuthStr _ =>
          onBuf c (getCmdData encrypAuthStr c_auth c_endauth) fun encrypAuthStr ok =>
            if !ok then Outcome.returned (disconnect c) ()
            else
              let discardSize := encrypAuthStr.length
              let c := if encrypAuthStr = c.authString then c else disconnect c
              let buf := buf.drop discardSize
              onBuf c (getCmdData buf c_auth c_endauth) fun buf ok =>
                if !ok then Outcome.returned (disconnect c) ()
                else Outcome.returned { c with recAuthString := buf } ()

/-- Lines 792-797. -/
def svrAuthRespProcess (cipher : Cipher) (c : TCPConn) (env : Env) :
    Outcome TCPConn (List (List Byte)) :=
  if env.input.hasData then
    andThen (waitForEncryptAuthReplyAndAuthString cipher c env.input) fun c _ =>
      Outcome.returned { c with _status := s_svrSendAuthResp } []
  else Outcome.returned c []

/-- Lines 1039-1071. -/
def sendAuthenticationResp (cipher : Cipher) (c : TCPConn) (env : Env) :
    Outcome TCPConn (List (List Byte)) :=
  let buf := encryptData cipher c._aes_key env.init_vector
    (wrapCmd c.recAuthString c_auth c_endauth)
  Outcome.returned c [buf]

/-- Lines 804-807. -/
def svrAuthSendProcess (cipher : Cipher) (c : TCPConn) (env : Env) :
    Outcome TCPConn (List (List Byte)) :=
  andThen (sendAuthenticationResp cipher c env) fun c sent =>
    Outcome.returned { c with _status := s_datarx } sent

/-- Lines 817-861. -/
def waitForEncryptAuthReply (cipher : Cipher) (c : TCPConn) (input : SocketIn) :
    Outcome TCPConn Unit :=
  andThen (getData c input) fun c got =>
    match got with
    | none => Outcome.returned c ()
    | some buf =>
      onBuf c (decryptData cipher c._aes_key buf) fun buf _ =>
        onBuf c (getCmdData buf c_auth c_endauth) fun buf ok =>
          if !ok then Outcome.returned (disconnect c) ()
          else if buf = c.authString then Outcome.returned c ()
          else Outcome.returned (disconnect c) ()

/-- Lines 869-874. -/
def finalAuthCheck (cipher : Cipher) (c : TCPConn) (env : Env) :
    Outcome TCPConn (List (List Byte)) :=
  if env.input.hasData then
    andThen (waitForEncryptAuthReply cipher c env.input) fun c _ =>
      Outcome.returned { c with _status := s_datatx } []
  else Outcome.returned c []

/-- The `switch` of lines 176-248. -/
def dispatch (cipher : Cipher) (c : TCPConn) (env : Env) : Outcome TCPConn (List (List Byte)) :=
  match c._status with
  | s_connecting => sendSID c
  | s_connected => waitForSID c env
  | s_svrSendAuthString => svrSendAuth c env
  | s_clientAuthResp => clientAuthProcess cipher c env
  | s_svrWaitForResp => svrAuthRespProcess cipher c env
  | s_svrSendAuthResp => svrAuthSendProcess cipher c env
  | s_cFinalCheck => finalAuthCheck cipher c env
  | s_datatx => transmitData cipher c env
  | s_datarx => waitForData cipher c env
  | s_waitack => awaitAck cipher c env
  | s_hasdata => Outcome.returned c []
  | s_none => Outcome.threw c "Invalid connection status!"

/-- Lines 173-255: a `socket_error` is caught and the connection is closed; any other
exception leaves the method. -/
def handleConnection (cipher : Cipher) (c : TCPConn) (env : Env) :
    Outcome TCPConn (List (List Byte)) :=
  match dispatch cipher c env with
  | Outcome.threw c1 what =>
    if what = "socket_error" then Outcome.returned (disconnect c1) []
    else Outcome.threw c1 what
  | r => r

/-- Lines 573-580: the value is what is copied into `buf`. -/
def getInputData (c : TCPConn) : TCPConn × List Byte :=
  ({ c with _data_ready := false, _status := s_none }, c._inputbuf)

/-- Lines 624-630. -/
def assignOutgoingData (c : TCPConn) (data : List Byte) : TCPConn :=
  { c with _outputbuf := c_rep ++ data ++ c_endrep }

/-- The states a connection is in before each of the successive calls of
`handleConnection`, one call for each element of `envs`, and after the last one; the list
ends where a call does not return. -/
def statesVisited (cipher : Cipher) : TCPConn → List Env → List TCPConn
  | c, [] => [c]
  | c, env :: envs =>
    match handleConnection cipher c env with
    | Outcome.returned c1 _ => c :: statesVisited cipher c1 envs
    | _ => [c]

/-- The place of a stage in the sequence of the connecting side, if it has one. -/
def initiatorRank : statustype → Option Nat
  | s_connecting => some 0
  | s_clientAuthResp => some 1
  | s_cFinalCheck => some 2
  | s_datatx => some 3
  | s_waitack => some 4
  | _ => none

/-- The place of a stage in the sequence of the accepting side, if it has one. -/
def acceptorRank : statustype → Option Nat
  | s_connected => some 0
  | s_svrSendAuthString => some 1
  | s_svrWaitForResp => some 2
  | s_svrSendAuthResp => some 3
  | s_datarx => some 4
  | s_hasdata => some 5
  | _ => none

/-- The stage a handler of `handleConnection` moves a connection in stage `s` to. -/
def successor : statustype → statustype
  | s_connecting => s_clientAuthResp
  | s_connected => s_svrSendAuthString
  | s_svrSendAuthString => s_svrWaitForResp
  | s_clientAuthResp => s_cFinalCheck
  | s_svrWaitForResp => s_svrSendAuthResp
  | s_svrSendAuthResp => s_datarx
  | s_cFinalCheck => s_datatx
  | s_datatx => s_waitack
  | s_datarx => s_hasdata
  | s_waitack => s_waitack
  | s_hasdata => s_hasdata
  | s_none => s_none

/-- Every state that a call can leave behind, by returning or by throwing, has a stage in
`P`. -/
def StageIn {α : Type} (P : statustype → Prop) : Outcome TCPConn α → Prop
  | Outcome.returned c _ => P c._status
  | Outcome.threw c _ => P c._status
  | Outcome.undefined => True

/-- A fresh connection object with server id `svr_id` and AES key `key`. -/
def fresh (svr_id key : List Byte) : TCPConn :=
  { _status := s_none, _connected := false, _data_ready := false, _inputbuf := [],
    _outputbuf := [], authString := [], recAuthString := [], _node_id := [],
    _svr_id := svr_id, _aes_key := key }

/-- A connection of node `A` in stage `status`, made by `connect`, with the key `[2]`. -/
def demoInitiator (status : statustype) : TCPConn :=
  { connect (fresh [65] [2]) with _status := status }

/-- A connection of node `B` in stage `status`, made by `accept`, with the key `[2]`. -/
def demoAcceptor (status : statustype) : TCPConn :=
  { accept (fresh [66] [2]) with _status := status }

/-- Surroundings of a call: `rand()` yields 61, 62, ..., the IV is sixteen bytes 9. -/
def demoEnv (input : SocketIn) : Env :=
  { input := input, rand := fun n => n + 61, init_vector := List.replicate 16 9 }

/-- Sixteen IV bytes whose last four spell `<AUT`. -/
def tagTailIV : List Byte :=
  List.replicate 12 9 ++ [60, 65, 85, 84]

end TCPConn

/-! ### The spec's normalisation, and the engine between passes -/

namespace ReplServer

/-- From the spec's words, for comparison with `checkStartTimeRef`: helper
`floor_to_epoch(t)`: while `t > 8` subtract 5; return `t`. -/
def floor_to_epoch (t : Int) : Int :=
  if t > 8 then floor_to_epoch (t - 5) else t
termination_by (t - 8).toNat
decreasing_by omega

/-- From the spec's words, for the election step: at least one member of the cluster
`duplicatePts` has a node that is still a candidate in state `s`. -/
def hasCandidate (s : ReplServer) (duplicatePts : List Nat) : Bool :=
  duplicatePts.any fun k =>
    match getDBIterator s._plotdb k with
    | some p => startTimeCalcErrorCheck s p.node_id
    | none => false

/-- What is done to the engine while `replicate` runs (lines 84-118): a plot is inserted
into the store (by the simulator, with any flags and no marker), `queueNewPlots` runs,
`addReplDronePlots` runs on a payload, or `dbTimeSync2` runs. -/
inductive StoreEvent where
  | inserted (drone_id node_id : Nat) (timestamp latitude longitude : Int) (flags : Nat)
  | queued
  | replicated (data : List Byte)
  | synced
deriving DecidableEq, Repr

/-- The effect of one event on the engine. -/
def applyEvent (c : PlotCodec) (s : ReplServer) : StoreEvent → Outcome ReplServer Unit
  | StoreEvent.inserted drone_id node_id timestamp latitude longitude flags =>
    Outcome.returned
      { s with
        _plotdb := s._plotdb ++ [mkPlot drone_id node_id timestamp latitude longitude flags] }
      ()
  | StoreEvent.queued =>
    match queueNewPlots c s._plotdb with
    | Outcome.returned db _ => Outcome.returned { s with _plotdb := db } ()
    | Outcome.threw db what => Outcome.threw { s with _plotdb := db } what
    | Outcome.undefined => Outcome.undefined
  | StoreEvent.replicated data =>
    match addReplDronePlots c s._plotdb data with
    | Outcome.returned db _ => Outcome.returned { s with _plotdb := db } ()
    | Outcome.threw db what => Outcome.threw { s with _plotdb := db } what
    | Outcome.undefined => Outcome.undefined
  | StoreEvent.synced => Outcome.returned (dbTimeSync2 s) ()

/-- The states of the engine before each of the successive events and after the last one;
the list ends where an event does not return. -/
def runEvents (c : PlotCodec) : ReplServer → List StoreEvent → List ReplServer
  | s, [] => [s]
  | s, ev :: evs =>
    match applyEvent c s ev with
    | Outcome.returned s1 _ => s :: runEvents c s1 evs
    | _ => [s]

/-- The relation between the latch and the start time: `startTimeWasSet` is true exactly
when `masterStartTime` is positive, and `masterStartTime` is not negative. -/
def StartTimeLatched (s : ReplServer) : Prop :=
  (s.startTimeWasSet = true ↔ 0 < s.masterStartTime) ∧ 0 ≤ s.masterStartTime

/-- A store with two replicated records of one drone at one position, seen by nodes 1 and
2 at the negative times -5 and -3. -/
def negativeStore : List DronePlot :=
  [mkPlot 42 1 (-5) 10 20 0, mkPlot 42 2 (-3) 10 20 0]

/-- The sorted `threeNodeStore` with the `checked` marker set on all three records, as the
forming of the cluster around its first record leaves it. -/
def markedThreeNodeStore : List DronePlot :=
  [{ mkPlot 42 2 1003 10 20 0 with checked := true },
   { mkPlot 42 1 1005 10 20 0 with checked := true },
   { mkPlot 42 3 1007 10 20 0 with checked := true }]

/-- An engine over the sorted `threeNodeStore` whose start time is set, to 5. -/
def latchedEngine : ReplServer :=
  { init (sortByTime threeNodeStore) with masterStartTime := 5, startTimeWasSet := true }

end ReplServer

namespace ReplServer

/-! ## The normalisation loop -/

theorem checkStartTimeRefLoop_of_le (fuel : Nat) (t : Int) (h : t ≤ 8) :
    checkStartTimeRefLoop fuel t = t := by
  cases fuel with
  | zero => rfl
  | succ n =>
    have h8 : ¬ t > 8 := by omega
    simp [checkStartTimeRefLoop, h8]

theorem checkStartTimeRefLoop_fuel (fuel₁ : Nat) :
    ∀ (fuel₂ : Nat) (t : Int), t - 8 ≤ fuel₁ → t - 8 ≤ fuel₂ →
      checkStartTimeRefLoop fuel₁ t = checkStartTimeRefLoop fuel₂ t := by
  induction fuel₁ with
  | zero =>
    intro fuel₂ t h₁ _
    have h8 : t ≤ 8 := by omega
    rw [checkStartTimeRefLoop_of_le 0 t h8, checkStartTimeRefLoop_of_le fuel₂ t h8]
  | succ n ih =>
    intro fuel₂ t h₁ h₂
    by_cases h8 : t ≤ 8
    · rw [checkStartTimeRefLoop_of_le (n + 1) t h8, checkStartTimeRefLoop_of_le fuel₂ t h8]
    · cases fuel₂ with
      | zero => omega
      | succ m =>
        have hgt : t > 8 := by omega
        simp only [checkStartTimeRefLoop, hgt, if_true]
        exact ih m (t - 5) (by push_cast at h₁; omega) (by push_cast at h₂; omega)

/-- The defining equation of the loop `while (tempNum > 8) tempNum -= 5`: the iteration
budget in `checkStartTimeRef` never runs out. -/
theorem checkStartTimeRef_unfold (t : Int) :
    checkStartTimeRef t = if t > 8 then checkStartTimeRef (t - 5) else t := by
  by_cases h8 : t > 8
  · simp only [h8, if_true]
    unfold checkStartTimeRef
    obtain ⟨n, hn⟩ : ∃ n, t.toNat = n + 1 := ⟨t.toNat - 1, by omega⟩
    rw [hn]
    simp only [checkStartTimeRefLoop, h8, if_true]
    exact checkStartTimeRefLoop_fuel n _ (t - 5) (by omega) (by omega)
  · simp only [h8, if_false]
    exact checkStartTimeRefLoop_of_le _ t (by omega)

theorem checkStartTimeRefLoop_range (fuel : Nat) :
    ∀ t : Int, 4 ≤ t → t - 8 ≤ fuel →
      3 < checkStartTimeRefLoop fuel t ∧ checkStartTimeRefLoop fuel t ≤ 8 := by
  induction fuel with
  | zero =>
    intro t h4 hf
    have h8 : t ≤ 8 := by omega
    rw [checkStartTimeRefLoop_of_le 0 t h8]
    omega
  | succ n ih =>
    intro t h4 hf
    by_cases h8 : t ≤ 8
    · rw [checkStartTimeRefLoop_of_le (n + 1) t h8]
      omega
    · have hgt : t > 8 := by omega
      simp only [checkStartTimeRefLoop, hgt, if_true]
      exact ih (t - 5) (by omega) (by push_cast at hf; omega)

/-- The normalised value never exceeds 8. -/
theorem checkStartTimeRef_le (t : Int) : checkStartTimeRef t ≤ 8 := by
  by_cases h4 : 4 ≤ t
  · exact (checkStartTimeRefLoop_range t.toNat t h4 (by omega)).2
  · unfold checkStartTimeRef
    rw [checkStartTimeRefLoop_of_le _ t (by omega)]
    omega

/-! ## The election state along a pass -/

theorem Evolves.refl (s : ReplServer) : Evolves s s :=
  { start_le := le_refl _, start_bound := le_max_left _ _, set_latched := id,
    clock_change := fun h => absurd rfl h,
    flag1 := id, flag2 := id, flag3 := id,
    adopt1 := fun _ h => h, adopt2 := fun _ h => h, adopt3 := fun _ h => absurd rfl h }

theorem Evolves.trans {s t u : ReplServer} (h₁ : Evolves s t) (h₂ : Evolves t u) :
    Evolves s u where
  start_le := le_trans h₁.start_le h₂.start_le
  start_bound := by
    have a := h₁.start_bound
    have b := h₂.start_bound
    have c := h₁.start_le
    omega
  set_latched := fun h => h₂.set_latched (h₁.set_latched h)
  clock_change := by
    intro h
    have a := h₁.start_le
    have b := h₂.start_le
    by_cases hc : u.masterClockNode = t.masterClockNode
    · have := h₁.clock_change (by rw [← hc]; exact h)
      omega
    · have := h₂.clock_change hc
      omega
  flag1 := fun h => h₂.flag1 (h₁.flag1 h)
  flag2 := fun h => h₂.flag2 (h₁.flag2 h)
  flag3 := fun h => h₂.flag3 (h₁.flag3 h)
  adopt1 := fun hf hu => h₁.adopt1 hf (h₂.adopt1 (h₁.flag1 hf) hu)
  adopt2 := fun hf hu => h₁.adopt2 hf (h₂.adopt2 (h₁.flag2 hf) hu)
  adopt3 := by
    intro hf hne
    by_cases hc : u.masterClockNode = t.masterClockNode
    · rw [hc]
      exact h₁.adopt3 hf (by rw [← hc]; exact hne)
    · exact h₂.adopt3 (h₁.flag3 hf) hc

/-- A step that leaves the six election fields alone. -/
theorem Evolves.of_fields {s t : ReplServer}
    (h₁ : t.masterStartTime = s.masterStartTime) (h₂ : t.masterClockNode = s.masterClockNode)
    (h₃ : t.startTimeWasSet = s.startTimeWasSet)
    (h₄ : t.node1StartTimeFlag = s.node1StartTimeFlag)
    (h₅ : t.node2StartTimeFlag = s.node2StartTimeFlag)
    (h₆ : t.node3StartTimeFlag = s.node3StartTimeFlag) : Evolves s t :=
  { start_le := by rw [h₁], start_bound := by rw [h₁]; exact le_max_left _ _,
    set_latched := by rw [h₃]; exact id,
    clock_change := fun h => absurd h₂ h,
    flag1 := by rw [h₄]; exact id, flag2 := by rw [h₅]; exact id,
    flag3 := by rw [h₆]; exact id,
    adopt1 := fun _ h => by rw [← h₂]; exact h, adopt2 := fun _ h => by rw [← h₂]; exact h,
    adopt3 := fun _ h => absurd h₂ h }

theorem startTimeCalcErrorCheck_other (s : ReplServer) (n : Nat) (h₁ : n ≠ 1) (h₂ : n ≠ 2) :
    startTimeCalcErrorCheck s n = s.node3StartTimeFlag := by
  unfold startTimeCalcErrorCheck
  split
  · exact absurd rfl h₁
  · exact absurd rfl h₂
  · rfl

theorem Evolves.foldl {α : Type} (f : ReplServer → α → ReplServer)
    (hf : ∀ s a, Evolves s (f s a)) (l : List α) : ∀ s, Evolves s (l.foldl f s) := by
  induction l with
  | nil => exact fun s => Evolves.refl s
  | cons a l ih => exact fun s => (hf s a).trans (ih (f s a))

theorem setStartTimeErrorCheckFlag_evolves (s : ReplServer) (nodeId : Nat) :
    Evolves s (setStartTimeErrorCheckFlag s nodeId) := by
  unfold setStartTimeErrorCheckFlag
  split <;>
  exact
    { start_le := le_refl _, start_bound := le_max_left _ _, set_latched := id,
      clock_change := fun h => absurd rfl h,
      flag1 := by simp, flag2 := by simp, flag3 := by simp,
      adopt1 := fun _ h => h, adopt2 := fun _ h => h, adopt3 := fun _ h => absurd rfl h }

theorem disqualifySmaller_evolves (largestTime : Int) (duplicatePts : List Nat)
    (s : ReplServer) : Evolves s (disqualifySmaller largestTime duplicatePts s) := by
  unfold disqualifySmaller
  apply Evolves.foldl
  intro s k
  split
  · split
    · exact setStartTimeErrorCheckFlag_evolves s _
    · exact Evolves.refl s
  · exact Evolves.refl s

theorem electMasterClock_evolves (duplicatePts : List Nat) (s : ReplServer) :
    Evolves s (electMasterClock duplicatePts s) := by
  unfold electMasterClock
  apply Evolves.foldl
  intro s k
  split
  · next p _ =>
    by_cases hc : startTimeCalcErrorCheck s p.node_id = true
    · by_cases hlt : s.masterStartTime < checkStartTimeRef p.timestamp
      · simp only [hc, hlt, if_true]
        have h8 := checkStartTimeRef_le p.timestamp
        refine
          { start_le := le_of_lt hlt, start_bound := le_trans h8 (le_max_right _ _),
            set_latched := fun _ => rfl, clock_change := fun _ => hlt,
            flag1 := id, flag2 := id, flag3 := id, adopt1 := ?_, adopt2 := ?_, adopt3 := ?_ }
        · intro hf hn
          simp only at hn
          rw [hn] at hc
          simp [startTimeCalcErrorCheck, hf] at hc
        · intro hf hn
          simp only at hn
          rw [hn] at hc
          simp [startTimeCalcErrorCheck, hf] at hc
        · intro hf _
          simp only
          by_contra hne
          push_neg at hne
          rw [startTimeCalcErrorCheck_other s _ hne.1 hne.2, hf] at hc
          exact Bool.false_ne_true hc
      · simp only [hc, hlt, if_true, if_false]
        exact Evolves.refl s
    · simp only [hc]
      exact Evolves.refl s
  · exact Evolves.refl s

/-- The election state across the processing of one cluster, whatever is done to the
store before and after. -/
theorem cluster_evolves (s : ReplServer) (db₁ db₂ : List DronePlot) (largestTime : Int)
    (duplicatePts : List Nat) :
    Evolves s
      { electMasterClock duplicatePts
          (disqualifySmaller largestTime duplicatePts { s with _plotdb := db₁ }) with
        _plotdb := db₂ } := by
  have h₁ : Evolves s { s with _plotdb := db₁ } := Evolves.of_fields rfl rfl rfl rfl rfl rfl
  have h₂ := disqualifySmaller_evolves largestTime duplicatePts { s with _plotdb := db₁ }
  have h₃ := electMasterClock_evolves duplicatePts
    (disqualifySmaller largestTime duplicatePts { s with _plotdb := db₁ })
  exact ((h₁.trans h₂).trans h₃).trans (Evolves.of_fields rfl rfl rfl rfl rfl rfl)

theorem syncStep_evolves (refTimeSet : Bool) (st : ReplServer × Int) (i : Nat) :
    Evolves st.1 (syncStep refTimeSet st i).1 := by
  unfold syncStep
  split
  · exact Evolves.refl _
  · split
    · exact Evolves.refl _
    · split
      · exact Evolves.refl _
      · exact cluster_evolves _ _ _ _ _

theorem syncStep_foldl_evolves (refTimeSet : Bool) (l : List Nat) :
    ∀ st : ReplServer × Int, Evolves st.1 (l.foldl (syncStep refTimeSet) st).1 := by
  induction l with
  | nil => exact fun st => Evolves.refl _
  | cons i l ih => exact fun st => (syncStep_evolves refTimeSet st i).trans (ih _)

theorem dbTimeSync2_evolves (s : ReplServer) : Evolves s (dbTimeSync2 s) := by
  have h₁ : Evolves s { s with _plotdb := sortByTime s._plotdb } :=
    Evolves.of_fields rfl rfl rfl rfl rfl rfl
  have h₂ := syncStep_foldl_evolves s.startTimeWasSet
    (List.range (sortByTime s._plotdb).length)
    ({ s with _plotdb := sortByTime s._plotdb }, if s.startTimeWasSet then s.masterStartTime else 0)
  exact (h₁.trans h₂).trans (Evolves.of_fields rfl rfl rfl rfl rfl rfl)

theorem runPasses_evolves (stores : List (List DronePlot)) :
    ∀ s, Evolves s (runPasses s stores) := by
  unfold runPasses
  intro s
  apply Evolves.foldl
  intro s db
  have h₁ : Evolves s { s with _plotdb := db } := Evolves.of_fields rfl rfl rfl rfl rfl rfl
  exact h₁.trans (dbTimeSync2_evolves _)

/-! ## The store along a pass -/

theorem foldl_eq_self {α β : Type} (f : β → α → β) (b : β) (l : List α)
    (h : ∀ a ∈ l, f b a = b) : l.foldl f b = b := by
  induction l with
  | nil => rfl
  | cons a l ih =>
    rw [List.foldl_cons, h a (List.mem_cons_self a l)]
    exact ih (fun x hx => h x (List.mem_cons_of_mem a hx))

theorem foldl_plotdb {α : Type} (f : ReplServer → α → ReplServer)
    (hf : ∀ s a, (f s a)._plotdb = s._plotdb) (l : List α) :
    ∀ s, (l.foldl f s)._plotdb = s._plotdb := by
  induction l with
  | nil => exact fun s => rfl
  | cons a l ih => exact fun s => (ih (f s a)).trans (hf s a)

theorem setStartTimeErrorCheckFlag_plotdb (s : ReplServer) (nodeId : Nat) :
    (setStartTimeErrorCheckFlag s nodeId)._plotdb = s._plotdb := by
  unfold setStartTimeErrorCheckFlag
  split <;> rfl

theorem disqualifySmaller_plotdb (largestTime : Int) (duplicatePts : List Nat)
    (s : ReplServer) : (disqualifySmaller largestTime duplicatePts s)._plotdb = s._plotdb := by
  unfold disqualifySmaller
  apply foldl_plotdb
  intro s k
  split
  · split
    · exact setStartTimeErrorCheckFlag_plotdb s _
    · rfl
  · rfl

theorem electMasterClock_plotdb (duplicatePts : List Nat) (s : ReplServer) :
    (electMasterClock duplicatePts s)._plotdb = s._plotdb := by
  unfold electMasterClock
  apply foldl_plotdb
  intro s k
  split
  · split
    · simp only
      split <;> rfl
    · rfl
  · rfl

/-- The store and the reference time after the outer loop has processed an anchor: a
record that is neither `NEW` nor `checked`. -/
theorem syncStep_anchor (refTimeSet : Bool) (st : ReplServer × Int) (i : Nat) (it : DronePlot)
    (hit : getDBIterator st.1._plotdb i = some it)
    (hnew : it.isFlagSet DBFLAG_NEW = false) (hchk : it.checked = false) :
    (syncStep refTimeSet st i).1._plotdb =
      assignTimestamps
        (adjustToReference refTimeSet
          (findLargestTime (formCluster it i st.1._plotdb).2 (formCluster it i st.1._plotdb).1)
          st.2).1
        (formCluster it i st.1._plotdb).1 (formCluster it i st.1._plotdb).2 ∧
    (syncStep refTimeSet st i).2 =
      (adjustToReference refTimeSet
          (findLargestTime (formCluster it i st.1._plotdb).2 (formCluster it i st.1._plotdb).1)
          st.2).2 + 5 := by
  unfold syncStep
  rw [hit]
  simp only [hnew, hchk, Bool.false_eq_true, if_false]
  rw [electMasterClock_plotdb, disqualifySmaller_plotdb]
  exact ⟨rfl, trivial⟩

/-- The outer loop skips a position that holds no record, a `NEW` record or a `checked`
record. -/
theorem syncStep_skip (refTimeSet : Bool) (st : ReplServer × Int) (i : Nat)
    (h : ∀ it, getDBIterator st.1._plotdb i = some it →
      it.isFlagSet DBFLAG_NEW = true ∨ it.checked = true) :
    syncStep refTimeSet st i = st := by
  unfold syncStep
  split
  · rfl
  · next it hit =>
    rcases h it hit with hn | hc
    · simp [hn]
    · simp [hc]

theorem isDuplicate_mark_left (it it2 : DronePlot) (b : Bool) :
    isDuplicate { it with checked := b } it2 = isDuplicate it it2 := rfl

theorem isDuplicate_mark_right (it it2 : DronePlot) (b : Bool) :
    isDuplicate it { it2 with checked := b } = isDuplicate it it2 := rfl

theorem collectDuplicates_of_no_match (it : DronePlot) (i : Nat) (db : List DronePlot)
    (h : ∀ q ∈ db, isDuplicate it q = false) : collectDuplicates it i db = ([i], db) := by
  unfold collectDuplicates
  apply foldl_eq_self
  intro j _
  unfold collectStep
  simp only
  split
  · next it2 hq =>
    rw [h it2 (List.getElem?_mem hq)]
    simp
  · rfl

theorem formCluster_of_no_match (it : DronePlot) (i : Nat) (db : List DronePlot)
    (h : ∀ q ∈ db, isDuplicate it q = false) (hself : isDuplicate it it = false) :
    formCluster it i db = ([i], db.set i { it with checked := true }) := by
  unfold formCluster
  apply collectDuplicates_of_no_match
  intro q hq
  rw [isDuplicate_mark_left]
  rcases List.mem_or_eq_of_mem_set hq with hq | hq
  · exact h q hq
  · rw [hq, isDuplicate_mark_right]
    exact hself

theorem findLargestTime_singleton (db : List DronePlot) (i : Nat) (p : DronePlot)
    (hp : getDBIterator db i = some p) (h0 : 0 ≤ p.timestamp) :
    findLargestTime db [i] = p.timestamp := by
  simp only [findLargestTime, List.foldl_cons, List.foldl_nil, hp]
  split
  · rfl
  · omega

theorem assignTimestamps_singleton (db : List DronePlot) (i : Nat) (p : DronePlot)
    (hp : getDBIterator db i = some p) : assignTimestamps p.timestamp [i] db = db := by
  simp [assignTimestamps, assignStep, hp]

/-- An anchor that no record of the store matches, whose timestamp is not negative and,
when the reference time is in use, more than 13 above it: the step only marks the anchor
and moves the reference time on by at most 11. -/
theorem syncStep_lone_anchor (refTimeSet : Bool) (st : ReplServer × Int) (i : Nat)
    (it : DronePlot) (hit : getDBIterator st.1._plotdb i = some it)
    (hnew : it.isFlagSet DBFLAG_NEW = false) (hchk : it.checked = false)
    (hno : ∀ q ∈ st.1._plotdb, isDuplicate it q = false)
    (h0 : 0 ≤ it.timestamp) (href : st.2 + 13 < it.timestamp) :
    (syncStep refTimeSet st i).1._plotdb = st.1._plotdb.set i { it with checked := true } ∧
    (syncStep refTimeSet st i).2 ≤ st.2 + 11 := by
  obtain ⟨h₁, h₂⟩ := syncStep_anchor refTimeSet st i it hit hnew hchk
  have hself : isDuplicate it it = false := hno it (List.getElem?_mem hit)
  rw [formCluster_of_no_match it i _ hno hself] at h₁ h₂
  have hi : i < st.1._plotdb.length := (List.getElem?_eq_some.mp hit).1
  have hget : getDBIterator (st.1._plotdb.set i { it with checked := true }) i =
      some { it with checked := true } := by
    simp [getDBIterator, hi]
  simp only at h₁ h₂
  rw [findLargestTime_singleton _ i _ hget h0] at h₁ h₂
  have hadj : adjustToReference refTimeSet it.timestamp st.2 =
      (it.timestamp, if refTimeSet then st.2 + 6 else st.2) := by
    unfold adjustToReference
    cases refTimeSet
    · simp
    · have : it.timestamp > st.2 + 13 := href
      simp [this]
  simp only at h₁ h₂
  rw [hadj] at h₁ h₂
  simp only at h₁ h₂
  constructor
  · rw [h₁]
    exact assignTimestamps_singleton _ i { it with checked := true } hget
  · rw [h₂]
    split <;> omega

theorem clearChecked_set_mark (db : List DronePlot) (i : Nat) (it : DronePlot) (b : Bool)
    (hit : getDBIterator db i = some it) :
    clearChecked (db.set i { it with checked := b }) = clearChecked db := by
  unfold clearChecked
  apply List.ext_getElem?
  intro j
  unfold getDBIterator at hit
  by_cases hij : i = j
  · subst hij
    obtain ⟨hi, rfl⟩ := List.getElem?_eq_some.mp hit
    simp [List.getElem?_set, hi]
  · simp [List.getElem?_set, hij]

theorem mem_set_mark {db : List DronePlot} {i : Nat} {it p : DronePlot} {b : Bool}
    (hit : getDBIterator db i = some it) (hp : p ∈ db.set i { it with checked := b }) :
    ∃ q ∈ db, ∃ c : Bool, p = { q with checked := c } := by
  rcases List.mem_or_eq_of_mem_set hp with h | h
  · exact ⟨p, h, p.checked, rfl⟩
  · exact ⟨it, List.getElem?_mem hit, b, h⟩

theorem clearChecked_eq_self (db : List DronePlot) (h : ∀ p ∈ db, p.checked = false) :
    clearChecked db = db := by
  unfold clearChecked
  induction db with
  | nil => rfl
  | cons a l ih =>
    have ha : a.checked = false := h a (List.mem_cons_self a l)
    rw [List.map_cons, ih (fun p hp => h p (List.mem_cons_of_mem a hp))]
    congr 1
    cases a
    simp only at ha
    simp [ha]

/-- The outer loop over a store in which no record matches another and every timestamp
is far enough above the reference time: nothing but `checked` markers changes. -/
theorem syncStep_foldl_no_match (refTimeSet : Bool) (l : List Nat) :
    ∀ st : ReplServer × Int,
      (∀ p ∈ st.1._plotdb, ∀ q ∈ st.1._plotdb, isDuplicate p q = false) →
      (∀ p ∈ st.1._plotdb, 0 ≤ p.timestamp ∧ st.2 + 11 * (l.length : Int) + 2 < p.timestamp) →
      clearChecked (l.foldl (syncStep refTimeSet) st).1._plotdb = clearChecked st.1._plotdb := by
  induction l with
  | nil => exact fun st _ _ => rfl
  | cons i l ih =>
    intro st hno hts
    rw [List.foldl_cons]
    have hlen : ((i :: l).length : Int) = (l.length : Int) + 1 := by simp
    by_cases hanchor : ∃ it, getDBIterator st.1._plotdb i = some it ∧
        it.isFlagSet DBFLAG_NEW = false ∧ it.checked = false
    · obtain ⟨it, hit, hnew, hchk⟩ := hanchor
      have hit_ts := hts it (List.getElem?_mem hit)
      obtain ⟨hdb, href⟩ := syncStep_lone_anchor refTimeSet st i it hit hnew hchk
        (hno it (List.getElem?_mem hit)) hit_ts.1 (by rw [hlen] at hit_ts; omega)
      have key := ih (syncStep refTimeSet st i) ?_ ?_
      · rw [key, hdb]
        exact clearChecked_set_mark _ i it true hit
      · intro p hp q hq
        rw [hdb] at hp hq
        obtain ⟨p', hp', c, rfl⟩ := mem_set_mark hit hp
        obtain ⟨q', hq', d, rfl⟩ := mem_set_mark hit hq
        rw [isDuplicate_mark_left, isDuplicate_mark_right]
        exact hno p' hp' q' hq'
      · intro p hp
        rw [hdb] at hp
        obtain ⟨p', hp', c, rfl⟩ := mem_set_mark hit hp
        have := hts p' hp'
        rw [hlen] at this
        simp only
        constructor
        · exact this.1
        · omega
    · have hskip : syncStep refTimeSet st i = st := by
        apply syncStep_skip
        intro it hit
        by_contra hcon
        push_neg at hcon
        exact hanchor ⟨it, hit, by simpa using hcon.1, by simpa using hcon.2⟩
      rw [hskip]
      apply ih st hno
      intro p hp
      have := hts p hp
      rw [hlen] at this
      constructor
      · exact this.1
      · omega

/-- A pass over a store of unchecked records in which no record matches another and
every timestamp exceeds `bound + 11 * n + 2`, where `bound` is at least the start time
and `n` is the number of records: the pass only sorts the store. -/
theorem dbTimeSync2_plotdb_of_no_match (s : ReplServer) (bound : Int)
    (hchk : ∀ p ∈ s._plotdb, p.checked = false)
    (hno : ∀ p ∈ s._plotdb, ∀ q ∈ s._plotdb, isDuplicate p q = false)
    (hb : 0 ≤ bound) (hm : s.masterStartTime ≤ bound)
    (hts : ∀ p ∈ s._plotdb, bound + 11 * (s._plotdb.length : Int) + 2 < p.timestamp) :
    (dbTimeSync2 s)._plotdb = sortByTime s._plotdb := by
  have hmem : ∀ p, p ∈ sortByTime s._plotdb ↔ p ∈ s._plotdb := fun p => List.mem_insertionSort _
  have hlen : (sortByTime s._plotdb).length = s._plotdb.length := List.length_insertionSort _ _
  have key := syncStep_foldl_no_match s.startTimeWasSet (List.range (sortByTime s._plotdb).length)
    ({ s with _plotdb := sortByTime s._plotdb }, if s.startTimeWasSet then s.masterStartTime else 0)
    (fun p hp q hq => hno p ((hmem p).mp hp) q ((hmem q).mp hq))
    (by
      intro p hp
      have := hts p ((hmem p).mp hp)
      simp only [List.length_range, hlen]
      constructor
      · omega
      · split <;> omega)
  unfold dbTimeSync2
  simp only
  rw [key]
  exact clearChecked_eq_self _ (fun p hp => hchk p ((hmem p).mp hp))

theorem sortByTime_sortByTime (db : List DronePlot) :
    sortByTime (sortByTime db) = sortByTime db := by
  unfold sortByTime
  haveI : IsTotal DronePlot (fun a b => a.timestamp ≤ b.timestamp) :=
    ⟨fun a b => le_total a.timestamp b.timestamp⟩
  haveI : IsTrans DronePlot (fun a b => a.timestamp ≤ b.timestamp) :=
    ⟨fun a b c hab hbc => le_trans hab hbc⟩
  exact (List.sorted_insertionSort _ db).insertionSort_eq

/-! ## One cluster -/

theorem clearChecked_length (db : List DronePlot) : (clearChecked db).length = db.length := by
  unfold clearChecked
  exact List.length_map _ _

/-- Two stores that differ in `checked` markers only hold, at every position, records
that differ in the marker only. -/
theorem getDBIterator_of_clearChecked_eq {a b : List DronePlot}
    (h : clearChecked a = clearChecked b) {j : Nat} {q : DronePlot}
    (hq : getDBIterator a j = some q) :
    ∃ c : Bool, getDBIterator b j = some { q with checked := c } := by
  unfold getDBIterator at *
  have hj : (clearChecked a)[j]? = (clearChecked b)[j]? := by rw [h]
  unfold clearChecked at hj
  rw [List.getElem?_map, List.getElem?_map, hq] at hj
  cases hb : b[j]? with
  | none => rw [hb] at hj; simp at hj
  | some q' =>
    rw [hb] at hj
    simp only [Option.map_some', Option.some.injEq] at hj
    refine ⟨q'.checked, ?_⟩
    cases q
    cases q'
    simp only [DronePlot.mk.injEq] at hj ⊢
    simp only [Option.some.injEq, DronePlot.mk.injEq]
    tauto

theorem collectStep_spec (it : DronePlot) (acc : List Nat × List DronePlot) (j : Nat) :
    (∀ x ∈ acc.1, x ∈ (collectStep it acc j).1) ∧
    clearChecked (collectStep it acc j).2 = clearChecked acc.2 ∧
    (∀ q, getDBIterator acc.2 j = some q → isDuplicate it q = true →
      j ∈ (collectStep it acc j).1) := by
  unfold collectStep
  cases hq : getDBIterator acc.2 j with
  | none => simp
  | some it2 =>
    by_cases hd : isDuplicate it it2 = true
    · simp only [hd, if_true]
      refine ⟨fun x hx => List.mem_append_left _ hx, clearChecked_set_mark _ j it2 true hq, ?_⟩
      intro _ _ _
      simp
    · simp only [hd]
      refine ⟨fun x hx => hx, rfl, ?_⟩
      intro q hq' hdq
      simp only [Option.some.injEq] at hq'
      rw [hq'] at hd
      exact absurd hdq hd

theorem collectStep_foldl_spec (it : DronePlot) (l : List Nat) :
    ∀ acc : List Nat × List DronePlot,
      (∀ x ∈ acc.1, x ∈ (l.foldl (collectStep it) acc).1) ∧
      clearChecked (l.foldl (collectStep it) acc).2 = clearChecked acc.2 ∧
      (∀ j ∈ l, ∀ q, getDBIterator acc.2 j = some q → isDuplicate it q = true →
        j ∈ (l.foldl (collectStep it) acc).1) := by
  induction l with
  | nil => exact fun acc => ⟨fun x hx => hx, rfl, fun j hj => absurd hj (List.not_mem_nil j)⟩
  | cons a l ih =>
    intro acc
    obtain ⟨s₁, s₂, s₃⟩ := collectStep_spec it acc a
    obtain ⟨i₁, i₂, i₃⟩ := ih (collectStep it acc a)
    rw [List.foldl_cons]
    refine ⟨fun x hx => i₁ x (s₁ x hx), i₂.trans s₂, ?_⟩
    intro j hj q hq hd
    rcases List.mem_cons.mp hj with rfl | hjl
    · exact i₁ j (s₃ q hq hd)
    · obtain ⟨c, hc⟩ := getDBIterator_of_clearChecked_eq s₂.symm hq
      exact i₃ j hjl _ hc (by rw [isDuplicate_mark_right]; exact hd)

/-- The cluster formed around an anchor holds the anchor and every later record that
passes the test against it; forming it changes `checked` markers only. -/
theorem formCluster_spec (it : DronePlot) (i : Nat) (db : List DronePlot)
    (hit : getDBIterator db i = some it) :
    i ∈ (formCluster it i db).1 ∧
    clearChecked (formCluster it i db).2 = clearChecked db ∧
    (∀ j q, i < j → getDBIterator db j = some q → isDuplicate it q = true →
      j ∈ (formCluster it i db).1) := by
  unfold formCluster collectDuplicates
  obtain ⟨h₁, h₂, h₃⟩ := collectStep_foldl_spec { it with checked := true }
    (List.range' (i + 1) ((db.set i { it with checked := true }).length - (i + 1)))
    ([i], db.set i { it with checked := true })
  refine ⟨h₁ i (List.mem_singleton_self i), ?_, ?_⟩
  · rw [h₂]
    exact clearChecked_set_mark db i it true hit
  · intro j q hij hq hd
    have hj : j < db.length := (List.getElem?_eq_some.mp hq).1
    refine h₃ j ?_ q ?_ hd
    · rw [List.mem_range']
      refine ⟨j - (i + 1), ?_, ?_⟩
      · rw [List.length_set]; omega
      · omega
    · unfold getDBIterator at *
      simp only
      rw [List.getElem?_set_ne (by omega)]
      exact hq

theorem assignStep_spec (largestTime : Int) (db : List DronePlot) (m : Nat) :
    (assignStep largestTime db m).length = db.length ∧
    (∀ k p, getDBIterator db k = some p → p.timestamp = largestTime →
      ∃ p', getDBIterator (assignStep largestTime db m) k = some p' ∧
        p'.timestamp = largestTime) ∧
    (m < db.length →
      ∃ p', getDBIterator (assignStep largestTime db m) m = some p' ∧
        p'.timestamp = largestTime) := by
  unfold assignStep
  cases hp : getDBIterator db m with
  | none =>
    refine ⟨rfl, fun k p hk ht => ⟨p, hk, ht⟩, ?_⟩
    intro hm
    unfold getDBIterator at hp
    rw [List.getElem?_eq_none_iff] at hp
    omega
  | some p =>
    have hm : m < db.length := (List.getElem?_eq_some.mp hp).1
    by_cases hne : (largestTime != p.timestamp) = true
    · simp only [hne, if_true]
      refine ⟨List.length_set _ _ _, ?_, ?_⟩
      · intro k p' hk ht
        unfold getDBIterator at *
        by_cases hmk : m = k
        · subst hmk
          exact ⟨{ p with timestamp := largestTime }, by simp [List.getElem?_set, hm], rfl⟩
        · exact ⟨p', by rw [List.getElem?_set_ne hmk]; exact hk, ht⟩
      · intro _
        unfold getDBIterator
        exact ⟨{ p with timestamp := largestTime }, by simp [List.getElem?_set, hm], rfl⟩
    · simp only [hne]
      refine ⟨rfl, fun k p' hk ht => ⟨p', hk, ht⟩, ?_⟩
      intro _
      refine ⟨p, hp, ?_⟩
      simp only [bne_iff_ne, ne_eq, not_not] at hne
      exact hne.symm

theorem assignTimestamps_spec (largestTime : Int) (l : List Nat) :
    ∀ db : List DronePlot,
      (assignTimestamps largestTime l db).length = db.length ∧
      (∀ k p, getDBIterator db k = some p → p.timestamp = largestTime →
        ∃ p', getDBIterator (assignTimestamps largestTime l db) k = some p' ∧
          p'.timestamp = largestTime) ∧
      (∀ m ∈ l, m < db.length →
        ∃ p', getDBIterator (assignTimestamps largestTime l db) m = some p' ∧
          p'.timestamp = largestTime) := by
  unfold assignTimestamps
  induction l with
  | nil =>
    exact fun db => ⟨rfl, fun k p hk ht => ⟨p, hk, ht⟩, fun m hm => absurd hm (List.not_mem_nil m)⟩
  | cons a l ih =>
    intro db
    obtain ⟨s₁, s₂, s₃⟩ := assignStep_spec largestTime db a
    obtain ⟨i₁, i₂, i₃⟩ := ih (assignStep largestTime db a)
    rw [List.foldl_cons]
    refine ⟨i₁.trans s₁, ?_, ?_⟩
    · intro k p hk ht
      obtain ⟨p', hk', ht'⟩ := s₂ k p hk ht
      exact i₂ k p' hk' ht'
    · intro m hm hlt
      rcases List.mem_cons.mp hm with rfl | hml
      · obtain ⟨p', hk', ht'⟩ := s₃ hlt
        exact i₂ m p' hk' ht'
      · exact i₃ m hml (by rw [s₁]; exact hlt)

/-! ## The claims -/

set_option maxRecDepth 100000 in
/-- C2, as stated, fails: after one pass over the chain store from the initial engine
state the records of node 1 and node 3 (same drone, same position, not `NEW`) have
timestamps 1010 and 1020, which differ by 10. -/
theorem dbTimeSync2_leaves_near_duplicates :
    (dbTimeSync2 (init chainStore))._plotdb.map (fun p => (p.node_id, p.timestamp)) =
      [(1, 1010), (2, 1010), (3, 1020)] ∧
    ¬ NoNearDuplicates (dbTimeSync2 (init chainStore))._plotdb := by
  decide

/-- C2, amended: when the outer loop of `dbTimeSync2` processes an anchor at position `i`
(a record that is neither `NEW` nor `checked`), then right after that step the anchor
and every later record that passes the cluster test against it (same `drone_id`,
different `node_id`, same latitude and longitude, timestamps less than 11 apart) carry
one common timestamp. -/
theorem syncStep_cluster_common_timestamp (refTimeSet : Bool) (st : ReplServer × Int)
    (i j : Nat) (it it2 : DronePlot)
    (hit : getDBIterator st.1._plotdb i = some it)
    (hnew : it.isFlagSet DBFLAG_NEW = false) (hchk : it.checked = false)
    (hij : i < j) (hit2 : getDBIterator st.1._plotdb j = some it2)
    (hdup : isDuplicate it it2 = true) :
    ∃ p q, getDBIterator (syncStep refTimeSet st i).1._plotdb i = some p ∧
      getDBIterator (syncStep refTimeSet st i).1._plotdb j = some q ∧
      p.timestamp = q.timestamp := by
  obtain ⟨hdb, _⟩ := syncStep_anchor refTimeSet st i it hit hnew hchk
  obtain ⟨f₁, f₂, f₃⟩ := formCluster_spec it i st.1._plotdb hit
  have hlen : (formCluster it i st.1._plotdb).2.length = st.1._plotdb.length := by
    rw [← clearChecked_length, f₂, clearChecked_length]
  have hi : i < st.1._plotdb.length := (List.getElem?_eq_some.mp hit).1
  have hj : j < st.1._plotdb.length := (List.getElem?_eq_some.mp hit2).1
  obtain ⟨_, _, a₃⟩ := assignTimestamps_spec
    (adjustToReference refTimeSet
      (findLargestTime (formCluster it i st.1._plotdb).2 (formCluster it i st.1._plotdb).1)
      st.2).1
    (formCluster it i st.1._plotdb).1 (formCluster it i st.1._plotdb).2
  obtain ⟨p, hp, hpt⟩ := a₃ i f₁ (by rw [hlen]; exact hi)
  obtain ⟨q, hq, hqt⟩ := a₃ j (f₃ j it2 hij hit2 hdup) (by rw [hlen]; exact hj)
  rw [hdb]
  exact ⟨p, q, hp, hq, hpt.trans hqt.symm⟩

set_option maxRecDepth 100000 in
/-- Witness for the common timestamp of a cluster: the first step of the outer loop over
the (sorted) chain store; the anchor is the node 1 record at 1000 and the node 2 record
at 1010 matches it. -/
theorem syncStep_cluster_common_timestamp_witness :
    ∃ p q, getDBIterator (syncStep false (init chainStore, 0) 0).1._plotdb 0 = some p ∧
      getDBIterator (syncStep false (init chainStore, 0) 0).1._plotdb 1 = some q ∧
      p.timestamp = q.timestamp :=
  syncStep_cluster_common_timestamp false (init chainStore, 0) 0 1
    (mkPlot 42 1 1000 10 20 0) (mkPlot 42 2 1010 10 20 0)
    (by decide) (by decide) (by decide) (by decide) (by decide) (by decide)

set_option maxRecDepth 100000 in
/-- C3: from the initial engine state, one pass over the three replicated records of
drone 42 at one position, seen by nodes 1, 2, 3 at 1005, 1003, 1007 (in any of the six
store orders), leaves exactly three records and each has timestamp 1007. -/
theorem dbTimeSync2_three_node_timestamps :
    ∀ db ∈ threeNodeOrders,
      (dbTimeSync2 (init db))._plotdb.length = 3 ∧
      ∀ p ∈ (dbTimeSync2 (init db))._plotdb, p.timestamp = 1007 := by
  decide

set_option maxRecDepth 100000 in
/-- Witness for the three-node timestamps: the store in the order node 1,
node 2, node 3. -/
theorem dbTimeSync2_three_node_timestamps_witness :
    threeNodeStore ∈ threeNodeOrders ∧
    (dbTimeSync2 (init threeNodeStore))._plotdb.length = 3 ∧
    ∀ p ∈ (dbTimeSync2 (init threeNodeStore))._plotdb, p.timestamp = 1007 :=
  ⟨by decide, dbTimeSync2_three_node_timestamps threeNodeStore (by decide)⟩

set_option maxRecDepth 100000 in
/-- C4, as stated, fails: after the pass over the three-node store the elected
`masterClockNode` is not node 1. -/
theorem three_node_clock_is_not_node_one :
    ¬ (dbTimeSync2 (init threeNodeStore)).masterClockNode = 1 := by
  decide

set_option maxRecDepth 100000 in
/-- C4, amended: after one pass over the three-node store (any of the six store orders)
from the initial engine state, the elected `masterClockNode` is node 3, the node that
reported the largest timestamp; nodes 1 and 2 have lost their candidacy. -/
theorem dbTimeSync2_three_node_clock :
    ∀ db ∈ threeNodeOrders,
      (dbTimeSync2 (init db)).masterClockNode = 3 ∧
      (dbTimeSync2 (init db)).node1StartTimeFlag = false ∧
      (dbTimeSync2 (init db)).node2StartTimeFlag = false ∧
      (dbTimeSync2 (init db)).node3StartTimeFlag = true := by
  decide

set_option maxRecDepth 100000 in
/-- Witness for the three-node election: the store in the order node 1, node 2, node 3. -/
theorem dbTimeSync2_three_node_clock_witness :
    threeNodeStore ∈ threeNodeOrders ∧
    (dbTimeSync2 (init threeNodeStore)).masterClockNode = 3 ∧
    (dbTimeSync2 (init threeNodeStore)).node1StartTimeFlag = false ∧
    (dbTimeSync2 (init threeNodeStore)).node2StartTimeFlag = false ∧
    (dbTimeSync2 (init threeNodeStore)).node3StartTimeFlag = true :=
  ⟨by decide, dbTimeSync2_three_node_clock threeNodeStore (by decide)⟩

set_option maxRecDepth 100000 in
/-- C5, as stated, fails: `checkStartTimeRef` does not map 1003 to 3 (the loop stops as
soon as the value is no longer above 8, and 1003 reaches 8). -/
theorem checkStartTimeRef_1003_not_3 :
    ¬ (checkStartTimeRef 1005 = 5 ∧ checkStartTimeRef 1003 = 3 ∧ checkStartTimeRef 1007 = 7) := by
  decide

set_option maxRecDepth 100000 in
/-- C5, amended: `checkStartTimeRef` maps the timestamps 1005, 1003 and 1007 to 5, 8
and 7 respectively. -/
theorem checkStartTimeRef_scenario :
    checkStartTimeRef 1005 = 5 ∧ checkStartTimeRef 1003 = 8 ∧ checkStartTimeRef 1007 = 7 := by
  decide

set_option maxRecDepth 100000 in
/-- C6: from the initial engine state, one pass over the three-node store (any of the six
store orders) ends with `masterStartTime = 7` and `startTimeWasSet = true`. -/
theorem dbTimeSync2_three_node_start_time :
    ∀ db ∈ threeNodeOrders,
      (dbTimeSync2 (init db)).masterStartTime = 7 ∧
      (dbTimeSync2 (init db)).startTimeWasSet = true := by
  decide

set_option maxRecDepth 100000 in
/-- Witness for the three-node start time: the store in the order node 1, node 2, node 3. -/
theorem dbTimeSync2_three_node_start_time_witness :
    threeNodeStore ∈ threeNodeOrders ∧
    (dbTimeSync2 (init threeNodeStore)).masterStartTime = 7 ∧
    (dbTimeSync2 (init threeNodeStore)).startTimeWasSet = true :=
  ⟨by decide, dbTimeSync2_three_node_start_time threeNodeStore (by decide)⟩

/-- C7: `checkStartTimeRef` is total and obeys the equation of its loop; for every
`t ≥ 4` the result lies in the interval `(3, 8]`, and for every `t ≤ 8` (negative values
included) the result is `t` itself. -/
theorem checkStartTimeRef_range (t : Int) :
    (checkStartTimeRef t = if t > 8 then checkStartTimeRef (t - 5) else t) ∧
    (4 ≤ t → 3 < checkStartTimeRef t ∧ checkStartTimeRef t ≤ 8) ∧
    (t ≤ 8 → checkStartTimeRef t = t) :=
  ⟨checkStartTimeRef_unfold t,
   fun h4 => checkStartTimeRefLoop_range t.toNat t h4 (by omega),
   fun h8 => checkStartTimeRefLoop_of_le _ t h8⟩

set_option maxRecDepth 100000 in
/-- Witness for the range of the normalisation at `t = 1003` (above 8) and `t = -2`. -/
theorem checkStartTimeRef_range_witness :
    ((4 : Int) ≤ 1003 ∧ 3 < checkStartTimeRef 1003 ∧ checkStartTimeRef 1003 ≤ 8) ∧
    ((-2 : Int) ≤ 8 ∧ checkStartTimeRef (-2) = -2) :=
  ⟨⟨by decide, (checkStartTimeRef_range 1003).2.1 (by decide)⟩,
   ⟨by decide, (checkStartTimeRef_range (-2)).2.2 (by decide)⟩⟩

set_option maxRecDepth 100000 in
/-- C8, evaluated at `newMemberStore`: the `NEW` record of node 2 (timestamp 1003) is
taken into the cluster of the node 1 anchor and its timestamp is rewritten to 1005,
although its `NEW` flag is (still) set. -/
theorem dbTimeSync2_rewrites_new_member :
    getDBIterator newMemberStore 1 = some (mkPlot 42 2 1003 10 20 DBFLAG_NEW) ∧
    (mkPlot 42 2 1003 10 20 DBFLAG_NEW).isFlagSet DBFLAG_NEW = true ∧
    (formCluster (mkPlot 42 1 1000 10 20 0) 0 newMemberStore).1 = [0, 1, 2] ∧
    getDBIterator (dbTimeSync2 (init newMemberStore))._plotdb 1 =
      some (mkPlot 42 2 1005 10 20 DBFLAG_NEW) := by
  decide

set_option maxRecDepth 100000 in
/-- C9, as stated, fails: node 1 loses its candidacy in the pass over the three-node
store; in the next call its record, whose normalised time 8 exceeds the start time 7, is
not adopted (clock node and start time stay 3 and 7), whereas the same call started with
all three candidacy flags true would adopt node 1. -/
theorem dbTimeSync2_candidacy_not_reset :
    (dbTimeSync2 (init threeNodeStore)).node1StartTimeFlag = false ∧
    (dbTimeSync2 (init threeNodeStore)).masterStartTime = 7 ∧
    checkStartTimeRef 1013 = 8 ∧
    (runPasses (init []) [threeNodeStore, laterNode1Store]).masterClockNode = 3 ∧
    (runPasses (init []) [threeNodeStore, laterNode1Store]).masterStartTime = 7 ∧
    (runPasses (init []) [threeNodeStore, laterNode1Store]).node1StartTimeFlag = false ∧
    (dbTimeSync2 { dbTimeSync2 (init threeNodeStore) with
        _plotdb := laterNode1Store, node1StartTimeFlag := true, node2StartTimeFlag := true,
        node3StartTimeFlag := true }).masterClockNode = 1 := by
  decide

/-- C9, amended: `dbTimeSync2` does not reset the candidacy flags. Across any sequence of
calls on any stores, a flag that is false at the start is false at the end, and the node it
stands for (node 1, node 2, or any other node for the third flag) is not adopted as
`masterClockNode` by any of the calls; `masterStartTime` is not reset either, the calls
never lower it. -/
theorem runPasses_candidacy_persists (s : ReplServer) (stores : List (List DronePlot)) :
    (s.node1StartTimeFlag = false →
      (runPasses s stores).node1StartTimeFlag = false ∧
      ((runPasses s stores).masterClockNode = 1 → s.masterClockNode = 1)) ∧
    (s.node2StartTimeFlag = false →
      (runPasses s stores).node2StartTimeFlag = false ∧
      ((runPasses s stores).masterClockNode = 2 → s.masterClockNode = 2)) ∧
    (s.node3StartTimeFlag = false →
      (runPasses s stores).node3StartTimeFlag = false ∧
      ((runPasses s stores).masterClockNode ≠ s.masterClockNode →
        (runPasses s stores).masterClockNode = 1 ∨ (runPasses s stores).masterClockNode = 2)) ∧
    s.masterStartTime ≤ (runPasses s stores).masterStartTime :=
  have h := runPasses_evolves stores s
  ⟨fun hf => ⟨h.flag1 hf, h.adopt1 hf⟩, fun hf => ⟨h.flag2 hf, h.adopt2 hf⟩,
   fun hf => ⟨h.flag3 hf, h.adopt3 hf⟩, h.start_le⟩

set_option maxRecDepth 100000 in
/-- Witness for the persistence of lost candidacies: from the state after the pass over the
three-node store, in which nodes 1 and 2 are disqualified, two further calls on
`laterNode1Store` and `chainStore`. -/
theorem runPasses_candidacy_persists_witness :
    (dbTimeSync2 (init threeNodeStore)).node1StartTimeFlag = false ∧
    (runPasses (dbTimeSync2 (init threeNodeStore))
      [laterNode1Store, chainStore]).node1StartTimeFlag = false ∧
    (dbTimeSync2 (init threeNodeStore)).node2StartTimeFlag = false ∧
    (runPasses (dbTimeSync2 (init threeNodeStore))
      [laterNode1Store, chainStore]).node2StartTimeFlag = false :=
  ⟨by decide,
   ((runPasses_candidacy_persists (dbTimeSync2 (init threeNodeStore))
      [laterNode1Store, chainStore]).1 (by decide)).1,
   by decide,
   ((runPasses_candidacy_persists (dbTimeSync2 (init threeNodeStore))
      [laterNode1Store, chainStore]).2.1 (by decide)).1⟩

/-- C10: across any sequence of `dbTimeSync2` calls on any stores, `masterStartTime` never
decreases, `startTimeWasSet` stays true once it is true, and `masterClockNode` differs
from its earlier value only if `masterStartTime` has been strictly raised. (A single call
is the sequence of length one.) -/
theorem runPasses_monotone (s : ReplServer) (stores : List (List DronePlot)) :
    s.masterStartTime ≤ (runPasses s stores).masterStartTime ∧
    (s.startTimeWasSet = true → (runPasses s stores).startTimeWasSet = true) ∧
    ((runPasses s stores).masterClockNode ≠ s.masterClockNode →
      s.masterStartTime < (runPasses s stores).masterStartTime) :=
  have h := runPasses_evolves stores s
  ⟨h.start_le, h.set_latched, h.clock_change⟩

set_option maxRecDepth 100000 in
/-- Witness for the monotone election state: from the state after the three-node pass
(start time set, clock node 3), two further calls on `chainStore` and `laterNode1Store`;
and the three-node pass itself, which moves the clock node from 0 to 3. -/
theorem runPasses_monotone_witness :
    (dbTimeSync2 (init threeNodeStore)).startTimeWasSet = true ∧
    (runPasses (dbTimeSync2 (init threeNodeStore))
      [chainStore, laterNode1Store]).startTimeWasSet = true ∧
    (runPasses (init []) [threeNodeStore]).masterClockNode ≠ (init []).masterClockNode ∧
    (init []).masterStartTime < (runPasses (init []) [threeNodeStore]).masterStartTime :=
  ⟨by decide,
   (runPasses_monotone (dbTimeSync2 (init threeNodeStore)) [chainStore, laterNode1Store]).2.1
     (by decide),
   by decide,
   (runPasses_monotone (init []) [threeNodeStore]).2.2 (by decide)⟩

/-! ## The frame of a pass -/

theorem map_set_same {β : Type} (f : DronePlot → β) (db : List DronePlot) (m : Nat)
    (p q : DronePlot) (hp : getDBIterator db m = some p) (hf : f q = f p) :
    (db.set m q).map f = db.map f := by
  apply List.ext_getElem?
  intro j
  unfold getDBIterator at hp
  by_cases hmj : m = j
  · subst hmj
    obtain ⟨hi, rfl⟩ := List.getElem?_eq_some.mp hp
    simp [List.getElem?_set, hi, hf]
  · simp [List.getElem?_set, hmj]

theorem frameOf_map_clearChecked (db : List DronePlot) :
    (clearChecked db).map frameOf = db.map frameOf := by
  unfold clearChecked
  rw [List.map_map]
  rfl

theorem map_frameOf_of_clearChecked_eq {a b : List DronePlot}
    (h : clearChecked a = clearChecked b) : a.map frameOf = b.map frameOf := by
  rw [← frameOf_map_clearChecked a, h, frameOf_map_clearChecked]

theorem assignStep_frame (largestTime : Int) (db : List DronePlot) (m : Nat) :
    (assignStep largestTime db m).map frameOf = db.map frameOf := by
  unfold assignStep
  split
  · next p hp =>
    split
    · exact map_set_same frameOf db m p _ hp rfl
    · rfl
  · rfl

theorem assignTimestamps_frame (largestTime : Int) (l : List Nat) :
    ∀ db : List DronePlot,
      (assignTimestamps largestTime l db).map frameOf = db.map frameOf := by
  unfold assignTimestamps
  induction l with
  | nil => exact fun db => rfl
  | cons a l ih =>
    intro db
    rw [List.foldl_cons, ih, assignStep_frame]

theorem syncStep_frame (refTimeSet : Bool) (st : ReplServer × Int) (i : Nat) :
    (syncStep refTimeSet st i).1._plotdb.map frameOf = st.1._plotdb.map frameOf := by
  by_cases hanchor : ∃ it, getDBIterator st.1._plotdb i = some it ∧
      it.isFlagSet DBFLAG_NEW = false ∧ it.checked = false
  · obtain ⟨it, hit, hnew, hchk⟩ := hanchor
    obtain ⟨hdb, _⟩ := syncStep_anchor refTimeSet st i it hit hnew hchk
    rw [hdb, assignTimestamps_frame]
    exact map_frameOf_of_clearChecked_eq (formCluster_spec it i st.1._plotdb hit).2.1
  · have hskip : syncStep refTimeSet st i = st := by
      apply syncStep_skip
      intro it hit
      by_contra hcon
      push_neg at hcon
      exact hanchor ⟨it, hit, by simpa using hcon.1, by simpa using hcon.2⟩
    rw [hskip]

theorem syncStep_foldl_frame (refTimeSet : Bool) (l : List Nat) :
    ∀ st : ReplServer × Int,
      (l.foldl (syncStep refTimeSet) st).1._plotdb.map frameOf = st.1._plotdb.map frameOf := by
  induction l with
  | nil => exact fun st => rfl
  | cons i l ih =>
    intro st
    rw [List.foldl_cons, ih, syncStep_frame]

/-- C11: a pass of `dbTimeSync2` deletes and adds no record and changes no field other
than `timestamp` and `checked`: the number of records is the same, and the
`(drone_id, node_id, latitude, longitude, flags)` tuples after the pass are those before
it, up to the order of the records (they are exactly those of the sorted store). -/
theorem dbTimeSync2_frame (s : ReplServer) :
    (dbTimeSync2 s)._plotdb.length = s._plotdb.length ∧
    ((dbTimeSync2 s)._plotdb.map frameOf).Perm (s._plotdb.map frameOf) ∧
    (dbTimeSync2 s)._plotdb.map frameOf = (sortByTime s._plotdb).map frameOf := by
  have key : (dbTimeSync2 s)._plotdb.map frameOf = (sortByTime s._plotdb).map frameOf := by
    unfold dbTimeSync2
    simp only
    rw [frameOf_map_clearChecked, syncStep_foldl_frame]
  have hperm : ((dbTimeSync2 s)._plotdb.map frameOf).Perm (s._plotdb.map frameOf) := by
    rw [key]
    exact (List.perm_insertionSort _ s._plotdb).map frameOf
  refine ⟨?_, hperm, key⟩
  have := hperm.length_eq
  simpa using this

/-- C13: when `addReplDronePlots` rejects a payload, because it has fewer than 4 bytes or
because its length minus 4 is not a multiple of the record size, it throws before it
inserts anything: the store at the throw is the store before the call. -/
theorem addReplDronePlots_reject (c : PlotCodec) (db : List DronePlot) (data : List Byte)
    (h : data.length < 4 ∨ (data.length - 4) % c.dataSize ≠ 0) :
    ∃ what, addReplDronePlots c db data = Outcome.threw db what := by
  unfold addReplDronePlots
  by_cases h4 : data.length < 4
  · rw [if_pos h4]
    exact ⟨_, rfl⟩
  · rcases h with h | h
    · exact absurd h h4
    · rw [if_neg h4, if_pos (bne_iff_ne.mpr h)]
      exact ⟨_, rfl⟩

/-- Witness for the rejection: a payload of three bytes, and a payload with a count and
five more bytes for the eight-byte records of `demoCodec`, on the three-node store. -/
theorem addReplDronePlots_reject_witness :
    (∃ what, addReplDronePlots demoCodec threeNodeStore [1, 0, 0] =
      Outcome.threw threeNodeStore what) ∧
    (∃ what, addReplDronePlots demoCodec threeNodeStore [1, 0, 0, 0, 42, 1, 0, 105, 0] =
      Outcome.threw threeNodeStore what) :=
  ⟨addReplDronePlots_reject demoCodec threeNodeStore [1, 0, 0] (Or.inl (by decide)),
   addReplDronePlots_reject demoCodec threeNodeStore [1, 0, 0, 0, 42, 1, 0, 105, 0]
     (Or.inr (by decide))⟩

/-- C17, as stated, fails: when exactly 20 adjusted seconds have elapsed since the last
replication the test of the loop is false and `queueNewPlots` is not run. -/
theorem replicationDue_not_at_twenty :
    replicationDue 20 0 = false ∧ replicationDue 1020 1000 = false := by
  decide

/-- C17, amended: `queueNewPlots` is run in an iteration exactly when more than 20
adjusted seconds have elapsed since the last replication, that is from 21 elapsed seconds
on; at exactly 20 it is not run. -/
theorem replicationDue_iff (adjustedTime last_repl : Int) :
    replicationDue adjustedTime last_repl = true ↔ adjustedTime - last_repl ≥ 21 := by
  unfold replicationDue secs_between_repl
  rw [decide_eq_true_iff]
  omega

/-! ## Installing replicated plots -/

/-- The loop of `addReplDronePlots` on a buffer that holds at least `count` records: it
calls `addSingleDronePlot` on the `count` successive slices. -/
theorem addReplLoop_slices (c : PlotCodec) (count : Nat) :
    ∀ (dptr : List Byte) (db : List DronePlot), count * c.dataSize ≤ dptr.length →
      addReplLoop c count dptr db =
        some ((List.range count).foldl
          (fun db i => addSingleDronePlot c db ((dptr.drop (i * c.dataSize)).take c.dataSize))
          db) := by
  induction count with
  | zero => exact fun dptr db _ => rfl
  | succ n ih =>
    intro dptr db hlen
    have hsz : ¬ dptr.length < c.dataSize := by
      have : (n + 1) * c.dataSize = n * c.dataSize + c.dataSize := Nat.succ_mul n c.dataSize
      omega
    unfold addReplLoop
    rw [if_neg hsz, ih _ _ (by
      rw [List.length_drop]
      have : (n + 1) * c.dataSize = n * c.dataSize + c.dataSize := Nat.succ_mul n c.dataSize
      omega)]
    rw [List.range_succ_eq_map, List.foldl_cons, List.foldl_map]
    congr 1
    simp only [Nat.zero_mul, List.drop_zero]
    congr 1
    funext db i
    rw [List.drop_drop, Nat.succ_mul, Nat.add_comm]

/-- C12, evaluated. The count is read after the two length tests of lines 190-196 and is
never compared with the number of bytes. `shortCountPayload`, whose count field says 1 and
which carries two records, passes both tests and the call returns with one record
installed, although `len - 4` is 16 and `n * record_size` is 8. `longCountPayload`, whose
count field says 2 and which carries one record, passes both tests as well, and the second
turn of the loop copies from beyond the end of the payload. -/
theorem addReplDronePlots_count_unchecked :
    readCount shortCountPayload = 1 ∧ shortCountPayload.length - 4 = 16 ∧
    readCount shortCountPayload * demoCodec.dataSize = 8 ∧
    addReplDronePlots demoCodec [] shortCountPayload =
      Outcome.returned [mkPlot 42 1 105 10 20 0] () ∧
    readCount longCountPayload = 2 ∧ longCountPayload.length - 4 = 8 ∧
    readCount longCountPayload * demoCodec.dataSize = 16 ∧
    addReplDronePlots demoCodec [] longCountPayload = Outcome.undefined := by
  decide

/-! ## Marshalling new plots -/

theorem isFlagSet_clrFlags (p : DronePlot) (flag : Nat) :
    (p.clrFlags flag).isFlagSet flag = false := by
  unfold DronePlot.isFlagSet DronePlot.clrFlags
  have h : (p.flags ^^^ (p.flags &&& flag)) &&& flag = 0 := by
    apply Nat.eq_of_testBit_eq
    intro i
    simp only [Nat.testBit_and, Nat.testBit_xor, Nat.zero_testBit]
    cases p.flags.testBit i <;> cases flag.testBit i <;> rfl
  simp [h]

theorem length_flatten_serialize (c : PlotCodec) (l : List DronePlot) :
    ((l.map c.serialize).flatten).length = l.length * c.dataSize := by
  induction l with
  | nil => simp
  | cons a l ih =>
    rw [List.map_cons, List.flatten_cons, List.length_append, ih, c.serialize_length,
      List.length_cons, Nat.succ_mul, Nat.add_comm]

/-- The loop of `queueNewPlots`, started with a buffer of whole records: it does not
throw, clears `NEW` where it is set, appends the serializations of the `NEW` records in
store order and counts them modulo `2 ^ 32`. -/
theorem queueLoop_spec (c : PlotCodec) (db : List DronePlot) :
    ∀ (marshall_data : List Byte) (count : Nat),
      marshall_data.length % c.dataSize = 0 → count < 4294967296 →
      queueLoop c db marshall_data count =
        (db.map (fun p => if p.isFlagSet DBFLAG_NEW then p.clrFlags DBFLAG_NEW else p),
         some (marshall_data ++
             ((db.filter (fun p => p.isFlagSet DBFLAG_NEW)).map c.serialize).flatten,
           (count + (db.filter (fun p => p.isFlagSet DBFLAG_NEW)).length) % 4294967296)) := by
  induction db with
  | nil =>
    intro m count _ hc
    simp [queueLoop, Nat.mod_eq_of_lt hc]
  | cons p rest ih =>
    intro m count hm hc
    unfold queueLoop
    by_cases hnew : p.isFlagSet DBFLAG_NEW = true
    · have hm1 : (m ++ c.serialize p).length % c.dataSize = 0 := by
        rw [List.length_append, c.serialize_length, Nat.add_mod, hm]
        simp
      simp only [hnew, if_true, hm1, bne_self_eq_false, Bool.false_eq_true, if_false]
      rw [ih _ _ hm1 (Nat.mod_lt _ (by decide))]
      simp only [List.map_cons, hnew, if_true, List.filter_cons, List.flatten_cons,
        List.length_cons, List.append_assoc]
      congr 3
      omega
    · simp only [hnew, if_false, hm, bne_self_eq_false, Bool.false_eq_true]
      rw [ih _ _ hm hc]
      simp only [List.map_cons, hnew, if_false, List.filter_cons, Bool.false_eq_true]

/-- What `queueNewPlots` does, for any store: it returns (it does not throw), the store
it leaves has `NEW` cleared, and with `k` the number of `NEW` records modulo `2 ^ 32` it
hands nothing to `sendToAll` when `k = 0` and the count bytes followed by the
serializations otherwise. -/
theorem queueNewPlots_spec (c : PlotCodec) (db : List DronePlot) :
    queueNewPlots c db =
      Outcome.returned
        (db.map (fun p => if p.isFlagSet DBFLAG_NEW then p.clrFlags DBFLAG_NEW else p))
        (if (db.filter (fun p => p.isFlagSet DBFLAG_NEW)).length % 4294967296 = 0 then none
         else some (countBytes ((db.filter (fun p => p.isFlagSet DBFLAG_NEW)).length % 4294967296)
           ++ ((db.filter (fun p => p.isFlagSet DBFLAG_NEW)).map c.serialize).flatten),
         (db.filter (fun p => p.isFlagSet DBFLAG_NEW)).length % 4294967296) := by
  unfold queueNewPlots
  rw [queueLoop_spec c db [] 0 (by simp) (by decide)]
  simp only [Nat.zero_add, List.nil_append]
  by_cases hk : (db.filter (fun p => p.isFlagSet DBFLAG_NEW)).length % 4294967296 = 0
  · simp [hk]
  · simp [hk, countBytes]

theorem readCount_countBytes (n : Nat) (rest : List Byte) (h : n < 4294967296) :
    readCount (countBytes n ++ rest) = n := by
  simp only [readCount, countBytes, List.cons_append, List.nil_append, List.getD_cons_zero,
    List.getD_cons_succ]
  omega

/-- The loop of `addReplDronePlots` on the serializations of the records `P`: it appends
one unflagged record for each, with the fields that `deserialize` recovers. -/
theorem addReplLoop_serialized (c : PlotCodec) (P : List DronePlot) :
    ∀ (db : List DronePlot) (extra : List Byte),
      addReplLoop c P.length ((P.map c.serialize).flatten ++ extra) db =
        some (db ++ P.map (fun p =>
          mkPlot (c.deserialize (c.serialize p)).drone_id (c.deserialize (c.serialize p)).node_id
            (c.deserialize (c.serialize p)).timestamp (c.deserialize (c.serialize p)).latitude
            (c.deserialize (c.serialize p)).longitude 0)) := by
  induction P with
  | nil => intro db extra; simp [addReplLoop]
  | cons p P ih =>
    intro db extra
    have hlen := c.serialize_length p
    simp only [List.map_cons, List.flatten_cons, List.length_cons, List.append_assoc]
    unfold addReplLoop
    have hsz : ¬ (c.serialize p ++ ((P.map c.serialize).flatten ++ extra)).length
        < c.dataSize := by
      rw [List.length_append, hlen]
      omega
    rw [if_neg hsz, List.take_left' hlen, List.drop_left' hlen, ih]
    simp [addSingleDronePlot, addPlot]

/-- C15: for every store (with fewer than `2 ^ 32` records flagged `NEW`, the range of the
`unsigned int` count), `queueNewPlots` returns the number of records that had `NEW` set;
afterwards no record has `NEW` set, the store has the same records in the same order, and
no record differs from what it was in anything but the `NEW` flag. -/
theorem queueNewPlots_clears_new (c : PlotCodec) (db : List DronePlot)
    (hk : (db.filter (fun p => p.isFlagSet DBFLAG_NEW)).length < 4294967296) :
    ∃ (store : List DronePlot) (sent : Option (List Byte)),
      queueNewPlots c db =
        Outcome.returned store (sent, (db.filter (fun p => p.isFlagSet DBFLAG_NEW)).length) ∧
      store.length = db.length ∧
      (∀ q ∈ store, q.isFlagSet DBFLAG_NEW = false) ∧
      (∀ (i : Nat) (p : DronePlot), db[i]? = some p → ∃ q : DronePlot, store[i]? = some q ∧
        q.drone_id = p.drone_id ∧ q.node_id = p.node_id ∧ q.timestamp = p.timestamp ∧
        q.latitude = p.latitude ∧ q.longitude = p.longitude ∧ q.checked = p.checked ∧
        (∀ j, j ≠ 0 → q.flags.testBit j = p.flags.testBit j)) := by
  rw [queueNewPlots_spec, Nat.mod_eq_of_lt hk]
  refine ⟨_, _, rfl, ?_, ?_, ?_⟩
  · exact List.length_map _ _
  · intro q hq
    obtain ⟨p, _, rfl⟩ := List.mem_map.mp hq
    by_cases hnew : p.isFlagSet DBFLAG_NEW = true
    · simp only [hnew, if_true]
      exact isFlagSet_clrFlags p DBFLAG_NEW
    · simp only [hnew, if_false]
      simpa using hnew
  · intro i p hp
    refine ⟨_, by rw [List.getElem?_map, hp]; rfl, ?_⟩
    by_cases hnew : p.isFlagSet DBFLAG_NEW = true
    · simp only [hnew, if_true]
      refine ⟨rfl, rfl, rfl, rfl, rfl, rfl, ?_⟩
      intro j hj
      have h1 : Nat.testBit 1 j = false := by
        cases h : Nat.testBit 1 j
        · rfl
        · exact absurd (Nat.testBit_one_eq_true_iff_self_eq_zero.mp h) hj
      show (p.flags ^^^ (p.flags &&& 1)).testBit j = p.flags.testBit j
      rw [Nat.testBit_xor, Nat.testBit_and, h1]
      simp
    · simp only [hnew, if_false]
      exact ⟨rfl, rfl, rfl, rfl, rfl, rfl, fun _ _ => rfl⟩

set_option maxRecDepth 100000 in
/-- Witness for the clearing of `NEW`: `mixedStore`, which has two `NEW` records. -/
theorem queueNewPlots_clears_new_witness :
    ∃ (store : List DronePlot) (sent : Option (List Byte)),
      queueNewPlots demoCodec mixedStore =
        Outcome.returned store
          (sent, (mixedStore.filter (fun p => p.isFlagSet DBFLAG_NEW)).length) ∧
      store.length = mixedStore.length ∧
      (∀ q ∈ store, q.isFlagSet DBFLAG_NEW = false) ∧
      (∀ (i : Nat) (p : DronePlot), mixedStore[i]? = some p → ∃ q : DronePlot,
        store[i]? = some q ∧
        q.drone_id = p.drone_id ∧ q.node_id = p.node_id ∧ q.timestamp = p.timestamp ∧
        q.latitude = p.latitude ∧ q.longitude = p.longitude ∧ q.checked = p.checked ∧
        (∀ j, j ≠ 0 → q.flags.testBit j = p.flags.testBit j)) :=
  queueNewPlots_clears_new demoCodec mixedStore (by decide)

/-- C16: for every store with `k ≥ 1` records flagged `NEW` (and `k < 2 ^ 32`), the buffer
`queueNewPlots` hands to `sendToAll` is the four bytes `k mod 256`, `k / 256 mod 256`,
`k / 65536 mod 256`, `k / 16777216 mod 256`, which are the little-endian encoding of `k`
(read lowest byte first they add up to `k`), followed by the serializations of exactly
those `k` records in store order; its length is `4 + k * record_size`, and `k` is
returned. When `k = 0` nothing is handed to `sendToAll` and 0 is returned. -/
theorem queueNewPlots_payload (c : PlotCodec) (db : List DronePlot) :
    (1 ≤ (db.filter (fun p => p.isFlagSet DBFLAG_NEW)).length →
      (db.filter (fun p => p.isFlagSet DBFLAG_NEW)).length < 4294967296 →
      ∃ store,
        queueNewPlots c db =
          Outcome.returned store
            (some ([(db.filter (fun p => p.isFlagSet DBFLAG_NEW)).length % 256,
                (db.filter (fun p => p.isFlagSet DBFLAG_NEW)).length / 256 % 256,
                (db.filter (fun p => p.isFlagSet DBFLAG_NEW)).length / 65536 % 256,
                (db.filter (fun p => p.isFlagSet DBFLAG_NEW)).length / 16777216 % 256] ++
              ((db.filter (fun p => p.isFlagSet DBFLAG_NEW)).map c.serialize).flatten),
             (db.filter (fun p => p.isFlagSet DBFLAG_NEW)).length) ∧
        ([(db.filter (fun p => p.isFlagSet DBFLAG_NEW)).length % 256,
            (db.filter (fun p => p.isFlagSet DBFLAG_NEW)).length / 256 % 256,
            (db.filter (fun p => p.isFlagSet DBFLAG_NEW)).length / 65536 % 256,
            (db.filter (fun p => p.isFlagSet DBFLAG_NEW)).length / 16777216 % 256] ++
          ((db.filter (fun p => p.isFlagSet DBFLAG_NEW)).map c.serialize).flatten).length =
          4 + (db.filter (fun p => p.isFlagSet DBFLAG_NEW)).length * c.dataSize ∧
        (db.filter (fun p => p.isFlagSet DBFLAG_NEW)).length % 256 +
          256 * ((db.filter (fun p => p.isFlagSet DBFLAG_NEW)).length / 256 % 256) +
          65536 * ((db.filter (fun p => p.isFlagSet DBFLAG_NEW)).length / 65536 % 256) +
          16777216 * ((db.filter (fun p => p.isFlagSet DBFLAG_NEW)).length / 16777216 % 256) =
          (db.filter (fun p => p.isFlagSet DBFLAG_NEW)).length) ∧
    ((db.filter (fun p => p.isFlagSet DBFLAG_NEW)).length = 0 →
      ∃ store, queueNewPlots c db = Outcome.returned store (none, 0)) := by
  constructor
  · intro h1 hk
    rw [queueNewPlots_spec, Nat.mod_eq_of_lt hk, if_neg (by omega)]
    refine ⟨_, rfl, ?_, ?_⟩
    · rw [List.length_append, length_flatten_serialize]
      simp
    · omega
  · intro h0
    rw [queueNewPlots_spec, h0]
    exact ⟨_, rfl⟩

set_option maxRecDepth 100000 in
/-- Witness for the marshalled buffer: `mixedStore` (two `NEW` records, so the count bytes
are 2 0 0 0) and the three-node store (none). -/
theorem queueNewPlots_payload_witness :
    (∃ store : List DronePlot,
      queueNewPlots demoCodec mixedStore =
        Outcome.returned store
          (some (([2, 0, 0, 0] : List Byte) ++
            ((mixedStore.filter (fun p => p.isFlagSet DBFLAG_NEW)).map
              demoCodec.serialize).flatten), 2) ∧
      (([2, 0, 0, 0] : List Byte) ++
        ((mixedStore.filter (fun p => p.isFlagSet DBFLAG_NEW)).map
          demoCodec.serialize).flatten).length = 4 + 2 * demoCodec.dataSize ∧
      2 + 256 * 0 + 65536 * 0 + 16777216 * 0 = 2) ∧
    (∃ store, queueNewPlots demoCodec threeNodeStore = Outcome.returned store (none, 0)) :=
  ⟨(queueNewPlots_payload demoCodec mixedStore).1 (by decide) (by decide),
   (queueNewPlots_payload demoCodec threeNodeStore).2 (by decide)⟩

/-- C14: for every non-empty list `P` of plots that are all flagged `NEW` (fewer than
`2 ^ 32` of them), `queueNewPlots` on a store holding `P` hands a payload to `sendToAll`,
and `addReplDronePlots` with that payload on an empty store returns with a store that
holds exactly the records of `P`, in the same order, with the same `drone_id`, `node_id`,
`timestamp`, `latitude` and `longitude` and no flag set; assuming `deserialize` recovers
these five fields from what `serialize` wrote. -/
theorem marshal_install_roundtrip (c : PlotCodec)
    (hrt : ∀ p, (c.deserialize (c.serialize p)).drone_id = p.drone_id ∧
      (c.deserialize (c.serialize p)).node_id = p.node_id ∧
      (c.deserialize (c.serialize p)).timestamp = p.timestamp ∧
      (c.deserialize (c.serialize p)).latitude = p.latitude ∧
      (c.deserialize (c.serialize p)).longitude = p.longitude)
    (P : List DronePlot) (hne : P ≠ [])
    (hnew : ∀ p ∈ P, p.isFlagSet DBFLAG_NEW = true) (hsz : P.length < 4294967296) :
    ∃ (store : List DronePlot) (payload : List Byte),
      queueNewPlots c P = Outcome.returned store (some payload, P.length) ∧
      addReplDronePlots c [] payload =
        Outcome.returned
          (P.map (fun p => mkPlot p.drone_id p.node_id p.timestamp p.latitude p.longitude 0))
          () ∧
      ∀ q ∈ P.map (fun p => mkPlot p.drone_id p.node_id p.timestamp p.latitude p.longitude 0),
        q.isFlagSet DBFLAG_NEW = false := by
  have hfilter : P.filter (fun p => p.isFlagSet DBFLAG_NEW) = P :=
    List.filter_eq_self.mpr hnew
  have hpos : 0 < P.length := List.length_pos.mpr hne
  rw [queueNewPlots_spec, hfilter, Nat.mod_eq_of_lt hsz, if_neg (by omega)]
  refine ⟨_, countBytes P.length ++ (P.map c.serialize).flatten, rfl, ?_, ?_⟩
  · have hlen : (countBytes P.length ++ (P.map c.serialize).flatten).length =
        4 + P.length * c.dataSize := by
      rw [List.length_append, length_flatten_serialize]
      simp [countBytes]
    have hdrop : (countBytes P.length ++ (P.map c.serialize).flatten).drop 4 =
        (P.map c.serialize).flatten := List.drop_left' (by simp [countBytes])
    unfold addReplDronePlots
    rw [if_neg (by omega), if_neg (by simp [hlen]), readCount_countBytes _ _ hsz, hdrop]
    have key := addReplLoop_serialized c P [] []
    rw [List.append_nil, List.nil_append] at key
    rw [key]
    simp only
    congr 1
    apply List.map_congr_left
    intro p _
    obtain ⟨h1, h2, h3, h4, h5⟩ := hrt p
    rw [h1, h2, h3, h4, h5]
  · intro q hq
    obtain ⟨p, _, rfl⟩ := List.mem_map.mp hq
    simp [mkPlot, DronePlot.isFlagSet]

theorem demoCodec_sign_magnitude (z : Int) :
    (if (if z < 0 then (1 : Nat) else 0) = 1 then -(z.natAbs : Int) else (z.natAbs : Int)) = z := by
  by_cases h : z < 0
  · simp only [h, if_true]
    omega
  · simp only [h, if_false]
    omega

set_option maxRecDepth 100000 in
/-- Witness for the round trip: the record format `demoCodec` and the two `NEW` records
of drone 42 seen by node 1 at 105 and at 110. -/
theorem marshal_install_roundtrip_witness :
    ∃ (store : List DronePlot) (payload : List Byte),
      queueNewPlots demoCodec twoNewPlots =
        Outcome.returned store (some payload, twoNewPlots.length) ∧
      addReplDronePlots demoCodec [] payload =
        Outcome.returned
          (twoNewPlots.map
            (fun p => mkPlot p.drone_id p.node_id p.timestamp p.latitude p.longitude 0))
          () ∧
      ∀ q ∈ twoNewPlots.map
          (fun p => mkPlot p.drone_id p.node_id p.timestamp p.latitude p.longitude 0),
        q.isFlagSet DBFLAG_NEW = false :=
  marshal_install_roundtrip demoCodec
    (by
      intro p
      simp only [demoCodec, mkPlot, List.getD_cons_zero, List.getD_cons_succ]
      exact ⟨trivial, trivial, demoCodec_sign_magnitude _, demoCodec_sign_magnitude _,
        demoCodec_sign_magnitude _⟩)
    twoNewPlots
    (by decide) (by decide) (by decide)

end ReplServer

namespace TCPConn

/-! ## The frame codec -/

theorem findCmd_cons (b : Byte) (buf cmd : List Byte) :
    findCmd (b :: buf) cmd = if cmd.isPrefixOf (b :: buf) then 0 else findCmd buf cmd + 1 :=
  rfl

theorem findCmd_le_length (buf cmd : List Byte) : findCmd buf cmd ≤ buf.length := by
  induction buf with
  | nil => simp [findCmd]
  | cons b buf ih =>
    unfold findCmd
    split
    · exact Nat.zero_le _
    · simp only [List.length_cons]
      omega

theorem findCmd_self_append (t x : List Byte) (ht : t ≠ []) : findCmd (t ++ x) t = 0 := by
  cases t with
  | nil => exact absurd rfl ht
  | cons b t =>
    have h : (b :: t).isPrefixOf (b :: (t ++ x)) = true := by
      rw [ List.isPrefixOf_iff_prefix]
      exact List.prefix_append (b :: t) x
    rw [List.cons_append, findCmd_cons, if_pos h]

/-- An occurrence of `cmd` at position `i` bounds the position `findCmd` reports. -/
theorem findCmd_le_of_prefix_drop (cmd : List Byte) (buf : List Byte) :
    ∀ i, i < buf.length → cmd <+: buf.drop i → findCmd buf cmd ≤ i := by
  induction buf with
  | nil => intro i hi _; simp at hi
  | cons b buf ih =>
    intro i hi hpre
    unfold findCmd
    split
    · exact Nat.zero_le _
    · next hnot =>
      cases i with
      | zero =>
        rw [List.drop_zero, ← List.isPrefixOf_iff_prefix] at hpre
        exact absurd hpre hnot
      | succ j =>
        rw [List.drop_succ_cons] at hpre
        have := ih j (by simpa using hi) hpre
        omega

theorem findCmd_append_self_le (t : List Byte) (ht : t ≠ []) (p : List Byte) :
    findCmd (p ++ t) t ≤ p.length := by
  have hlt : p.length < (p ++ t).length := by
    rw [List.length_append]
    have := List.length_pos.mpr ht
    omega
  exact findCmd_le_of_prefix_drop t (p ++ t) p.length hlt (by rw [List.drop_left])

theorem findCmd_append_self_lt_of_present (t : List Byte) (ht : t ≠ []) (p : List Byte)
    (h : t <:+: p) : findCmd (p ++ t) t < p.length := by
  obtain ⟨l₁, l₂, rfl⟩ := h
  have htl := List.length_pos.mpr ht
  have hle : findCmd (l₁ ++ t ++ l₂ ++ t) t ≤ l₁.length := by
    apply findCmd_le_of_prefix_drop
    · simp only [List.length_append]
      omega
    · rw [List.append_assoc, List.append_assoc, List.drop_left]
      exact List.prefix_append t _
  simp only [List.length_append]
  omega

/-- A tag whose first byte does not occur again in it: when it does not occur in `p`, its
first occurrence in `p ++ tag` is the appended one. -/
theorem findCmd_append_self_of_absent (ch : Byte) (r : List Byte) (hch : ch ∉ r)
    (p : List Byte) (h : ¬ (ch :: r) <:+: p) :
    findCmd (p ++ ch :: r) (ch :: r) = p.length := by
  induction p with
  | nil =>
    have := findCmd_self_append (ch :: r) [] (List.cons_ne_nil ch r)
    rw [List.append_nil] at this
    rw [List.nil_append, this]
    rfl
  | cons a p ih =>
    have hp : ¬ (ch :: r) <:+: p := fun hin => h (List.infix_cons hin)
    have hnot : ¬ (ch :: r).isPrefixOf (a :: (p ++ ch :: r)) = true := by
      rw [ List.isPrefixOf_iff_prefix, List.cons_prefix_cons]
      rintro ⟨rfl, hr⟩
      by_cases hlen : r.length ≤ p.length
      · have hrp : r <+: p :=
          List.prefix_of_prefix_length_le hr (List.prefix_append p _) hlen
        exact h (List.IsPrefix.isInfix (List.cons_prefix_cons.mpr ⟨rfl, hrp⟩))
      · have hpr : p <+: r :=
          List.prefix_of_prefix_length_le (List.prefix_append p _) hr (by omega)
        obtain ⟨s, rfl⟩ := hpr
        rw [List.prefix_append_right_inj] at hr
        cases s with
        | nil => simp at hlen
        | cons b s =>
          rw [List.cons_prefix_cons] at hr
          exact hch (by rw [hr.1]; simp)
    rw [List.cons_append, findCmd_cons, if_neg hnot, ih hp, List.length_cons]

/-- Unwrapping a wrapped payload, for a pair of tags such that the closing tag cannot
begin inside the opening tag: the call returns true with the payload cut at the first
occurrence of the closing tag in `p ++ endcmd`. -/
theorem getCmdData_wrapCmd_of_skip (startcmd endcmd : List Byte) (hs : startcmd ≠ [])
    (he : endcmd ≠ [])
    (hskip : ∀ rest, findCmd (startcmd ++ rest) endcmd = startcmd.length + findCmd rest endcmd)
    (p : List Byte) :
    getCmdData (wrapCmd p startcmd endcmd) startcmd endcmd =
      Outcome.returned (p.take (findCmd (p ++ endcmd) endcmd)) true := by
  have hk := findCmd_append_self_le endcmd he p
  have hsl := List.length_pos.mpr hs
  have hel := List.length_pos.mpr he
  unfold getCmdData wrapCmd
  simp only
  rw [List.append_assoc, findCmd_self_append startcmd _ hs, hskip]
  have h1 : ((0 : Nat) == (startcmd ++ (p ++ endcmd)).length) = false := by
    rw [beq_eq_false_iff_ne]
    simp only [List.length_append]
    omega
  have h2 : (startcmd.length + findCmd (p ++ endcmd) endcmd ==
      (startcmd ++ (p ++ endcmd)).length) = false := by
    rw [beq_eq_false_iff_ne]
    simp only [List.length_append]
    omega
  rw [h1, h2]
  simp only [Bool.or_self, Bool.false_eq_true, if_false, Nat.zero_add,
    Nat.le_add_right, if_true, Nat.add_sub_cancel_left, List.drop_left]
  rw [List.take_append_of_le_length hk]

theorem skip_sid (rest : List Byte) :
    findCmd (c_sid ++ rest) c_endsid = c_sid.length + findCmd rest c_endsid := by
  simp [findCmd, c_sid, c_endsid, List.isPrefixOf]
  omega

theorem skip_auth (rest : List Byte) :
    findCmd (c_auth ++ rest) c_endauth = c_auth.length + findCmd rest c_endauth := by
  simp [findCmd, c_auth, c_endauth, List.isPrefixOf]
  omega

theorem skip_rep (rest : List Byte) :
    findCmd (c_rep ++ rest) c_endrep = c_rep.length + findCmd rest c_endrep := by
  simp [findCmd, c_rep, c_endrep, List.isPrefixOf]
  omega

/-- When `findCmd` reports a position inside the buffer, `cmd` occurs there. -/
theorem findCmd_prefix_drop (cmd : List Byte) (buf : List Byte) :
    findCmd buf cmd < buf.length → cmd <+: buf.drop (findCmd buf cmd) := by
  induction buf with
  | nil => intro h; simp at h
  | cons b buf ih =>
    intro h
    rw [findCmd_cons] at h ⊢
    split
    · next hpre =>
      rw [List.drop_zero, ← List.isPrefixOf_iff_prefix]
      exact hpre
    · next hnot =>
      rw [if_neg hnot] at h
      rw [List.drop_succ_cons]
      exact ih (by simpa using h)

/-- `findCmd` reports the end of the buffer exactly when a (non-empty) `cmd` does not
occur in it. -/
theorem findCmd_eq_length_iff (cmd : List Byte) (hc : cmd ≠ []) (buf : List Byte) :
    findCmd buf cmd = buf.length ↔ ¬ cmd <:+: buf := by
  constructor
  · rintro h ⟨l₁, l₂, rfl⟩
    have hcl := List.length_pos.mpr hc
    have hle : findCmd (l₁ ++ cmd ++ l₂) cmd ≤ l₁.length := by
      apply findCmd_le_of_prefix_drop
      · simp only [List.length_append]
        omega
      · rw [List.append_assoc, List.drop_left]
        exact List.prefix_append cmd _
    rw [h] at hle
    simp only [List.length_append] at hle
    omega
  · intro hnot
    by_contra hne
    have hlt : findCmd buf cmd < buf.length :=
      Nat.lt_of_le_of_ne (findCmd_le_length buf cmd) hne
    exact hnot ((findCmd_prefix_drop cmd buf hlt).isInfix.trans
      (List.drop_suffix _ buf).isInfix)

/-- What `getCmdData` does for non-empty tags. It returns false, leaving the buffer as it
is, exactly when one of the tags does not occur in the buffer. When both occur and the
first occurrence of the closing tag begins at or after the end of the first occurrence of
the opening tag, it returns true and the buffer becomes the bytes between the two. -/
theorem getCmdData_spec (buf startcmd endcmd : List Byte) (hs : startcmd ≠ [])
    (he : endcmd ≠ []) :
    (getCmdData buf startcmd endcmd = Outcome.returned buf false ↔
      (¬ startcmd <:+: buf ∨ ¬ endcmd <:+: buf)) ∧
    (startcmd <:+: buf → endcmd <:+: buf →
      findCmd buf startcmd + startcmd.length ≤ findCmd buf endcmd →
      getCmdData buf startcmd endcmd =
        Outcome.returned
          ((buf.drop (findCmd buf startcmd + startcmd.length)).take
            (findCmd buf endcmd - (findCmd buf startcmd + startcmd.length))) true) := by
  have hS := findCmd_eq_length_iff startcmd hs buf
  have hE := findCmd_eq_length_iff endcmd he buf
  constructor
  · constructor
    · intro h
      by_contra hcon
      push_neg at hcon
      have h1 : findCmd buf startcmd ≠ buf.length := fun h' => (hS.mp h') hcon.1
      have h2 : findCmd buf endcmd ≠ buf.length := fun h' => (hE.mp h') hcon.2
      unfold getCmdData at h
      simp only [beq_iff_eq, h1, h2, or_self, Bool.false_eq_true, if_false,
        Bool.or_eq_true] at h
      split at h <;> simp at h
    · intro h
      unfold getCmdData
      have : findCmd buf startcmd = buf.length ∨ findCmd buf endcmd = buf.length :=
        h.imp hS.mpr hE.mpr
      simp [this]
  · intro hin1 hin2 hord
    have h1 : findCmd buf startcmd ≠ buf.length := fun h' => (hS.mp h') hin1
    have h2 : findCmd buf endcmd ≠ buf.length := fun h' => (hE.mp h') hin2
    unfold getCmdData
    simp [h1, h2, hord]

/-- C18, evaluated at `reversedFrame`: both tags occur in the buffer, the closing tag
`</AUT>` first (position 0) and the opening tag `<AUT>` after it (position 7), so the
call gets past the test for missing tags and then assigns from the range that starts at
position 12 and ends at position 0, which is no range: the behaviour is undefined, the
buffer is not replaced by the bytes between the tags. -/
theorem getCmdData_reversed_tags :
    c_auth <:+: reversedFrame ∧ c_endauth <:+: reversedFrame ∧
    hasCmd reversedFrame c_auth = true ∧ hasCmd reversedFrame c_endauth = true ∧
    findCmd reversedFrame c_auth = 7 ∧ findCmd reversedFrame c_endauth = 0 ∧
    getCmdData reversedFrame c_auth c_endauth = Outcome.undefined :=
  ⟨⟨c_endauth ++ [7], [], by decide⟩, ⟨[], [7] ++ c_auth, by decide⟩,
   by decide, by decide, by decide, by decide, by decide⟩

/-- C19, as stated, fails: a payload that begins with the closing tag `</SID>` comes back
empty, and a payload with `</REP>` in its middle comes back cut off before it. -/
theorem getCmdData_wrapCmd_not_binary_safe :
    getCmdData (wrapCmd (c_endsid ++ [1, 2, 3]) c_sid c_endsid) c_sid c_endsid =
      Outcome.returned [] true ∧
    getCmdData (wrapCmd ([1] ++ c_endrep ++ [2]) c_rep c_endrep) c_rep c_endrep =
      Outcome.returned [1] true := by
  decide

/-- C19, amended: for every payload `p` and each tag pair (`<SID>`/`</SID>`,
`<AUT>`/`</AUT>`, `<REP>`/`</REP>`), `getCmdData` applied to `wrapCmd(p, open, close)`
returns true and yields the bytes of `p` before the first occurrence of the closing tag in
`p` followed by the closing tag; this is exactly `p` if and only if the closing tag does
not occur in `p`. -/
theorem unwrap_wrapped_payload (pr : List Byte × List Byte) (hpr : pr ∈ tagPairs) (p : List Byte) :
    getCmdData (wrapCmd p pr.1 pr.2) pr.1 pr.2 =
      Outcome.returned (p.take (findCmd (p ++ pr.2) pr.2)) true ∧
    (getCmdData (wrapCmd p pr.1 pr.2) pr.1 pr.2 = Outcome.returned p true ↔ ¬ pr.2 <:+: p) := by
  have hcases : (pr.1 ≠ [] ∧ pr.2 ≠ [] ∧
      (∀ rest, findCmd (pr.1 ++ rest) pr.2 = pr.1.length + findCmd rest pr.2)) ∧
      ∃ ch r, pr.2 = ch :: r ∧ ch ∉ r := by
    simp only [tagPairs, List.mem_cons, List.mem_singleton, List.not_mem_nil, or_false] at hpr
    rcases hpr with rfl | rfl | rfl
    · exact ⟨⟨by decide, by decide, skip_sid⟩, 60, [47, 83, 73, 68, 62], rfl, by decide⟩
    · exact ⟨⟨by decide, by decide, skip_auth⟩, 60, [47, 65, 85, 84, 62], rfl, by decide⟩
    · exact ⟨⟨by decide, by decide, skip_rep⟩, 60, [47, 82, 69, 80, 62], rfl, by decide⟩
  obtain ⟨⟨hs, he, hskip⟩, ch, r, hcr, hch⟩ := hcases
  have key := getCmdData_wrapCmd_of_skip pr.1 pr.2 hs he hskip p
  refine ⟨key, ?_⟩
  rw [key]
  constructor
  · intro h hin
    have hlt := findCmd_append_self_lt_of_present pr.2 he p hin
    have htake : p.take (findCmd (p ++ pr.2) pr.2) = p := by
      injection h
    have hlen := congrArg List.length htake
    rw [List.length_take] at hlen
    omega
  · intro hnot
    rw [hcr] at hnot ⊢
    rw [findCmd_append_self_of_absent ch r hch p hnot, List.take_length]

/-- Witness for the unwrapping of a wrapped payload: the pair `<AUT>`/`</AUT>` and a
payload of three bytes. -/
theorem unwrap_wrapped_payload_witness :
    getCmdData (wrapCmd [7, 0, 255] c_auth c_endauth) c_auth c_endauth =
      Outcome.returned ([7, 0, 255].take (findCmd ([7, 0, 255] ++ c_endauth) c_endauth)) true ∧
    (getCmdData (wrapCmd [7, 0, 255] c_auth c_endauth) c_auth c_endauth =
      Outcome.returned [7, 0, 255] true ↔ ¬ c_endauth <:+: [7, 0, 255]) :=
  unwrap_wrapped_payload (c_auth, c_endauth) (by decide) [7, 0, 255]

/-! ## The crypto envelope -/

/-- C20: for every plaintext buffer `p`, key and 16-byte IV, `encryptData` replaces `p`
with the IV followed by the ciphertext, of length `len(p) + 16`, and `decryptData` applied
to that result under the same key returns exactly `p`; assuming the cipher primitive is
length-preserving and its decipher inverts its encipher for equal key and IV. -/
theorem encryptData_decryptData (cipher : Cipher)
    (hinv : ∀ key iv p, cipher.decipher key iv (cipher.encipher key iv p) = p)
    (hlen : ∀ key iv p, (cipher.encipher key iv p).length = p.length)
    (aes_key init_vector p : List Byte) (hiv : init_vector.length = iv_size) :
    encryptData cipher aes_key init_vector p =
      init_vector ++ cipher.encipher aes_key init_vector p ∧
    (encryptData cipher aes_key init_vector p).length = p.length + 16 ∧
    decryptData cipher aes_key (encryptData cipher aes_key init_vector p) =
      Outcome.returned p () := by
  refine ⟨rfl, ?_, ?_⟩
  · unfold encryptData
    rw [List.length_append, hlen, hiv]
    unfold iv_size
    omega
  · unfold decryptData encryptData
    have hnot : ¬ (init_vector ++ cipher.encipher aes_key init_vector p).length < iv_size := by
      rw [List.length_append, hiv]
      omega
    rw [if_neg hnot]
    simp only
    rw [List.take_left' hiv, List.drop_left' hiv, hinv]

/-- Witness for the envelope round trip: the stand-in cipher `demoCipher`, a one-byte key,
an IV of sixteen bytes 9 and the plaintext `<ACK>`. -/
theorem encryptData_decryptData_witness :
    encryptData demoCipher [3] (List.replicate 16 9) c_ack =
      List.replicate 16 9 ++ demoCipher.encipher [3] (List.replicate 16 9) c_ack ∧
    (encryptData demoCipher [3] (List.replicate 16 9) c_ack).length = c_ack.length + 16 ∧
    decryptData demoCipher [3] (encryptData demoCipher [3] (List.replicate 16 9) c_ack) =
      Outcome.returned c_ack () :=
  encryptData_decryptData demoCipher
    (by
      intro key iv p
      simp only [demoCipher, List.map_map]
      have h : ((fun b => b ^^^ key.getD 0 0) ∘ fun b => b ^^^ key.getD 0 0) = id :=
        funext fun b => Nat.xor_cancel_right _ b
      rw [h, List.map_id])
    (by intro key iv p; simp [demoCipher])
    [3] (List.replicate 16 9) c_ack (by decide)

open statustype

/-! ## The connection state machine -/

theorem stageIn_mono {α : Type} {P Q : statustype → Prop} (h : ∀ s, P s → Q s)
    (r : Outcome TCPConn α) (hr : StageIn P r) : StageIn Q r := by
  cases r with
  | returned c a => exact h _ hr
  | threw c w => exact h _ hr
  | undefined => trivial

theorem stageIn_andThen {α β : Type} {P Q : statustype → Prop} (r : Outcome TCPConn α)
    (k : TCPConn → α → Outcome TCPConn β) (hr : StageIn P r) (hPQ : ∀ s, P s → Q s)
    (hk : ∀ c a, P c._status → StageIn Q (k c a)) : StageIn Q (andThen r k) := by
  cases r with
  | returned c a => exact hk c a hr
  | threw c w => exact hPQ _ hr
  | undefined => trivial

theorem stageIn_onBuf {α β : Type} {Q : statustype → Prop} (c : TCPConn)
    (r : Outcome (List Byte) α) (k : List Byte → α → Outcome TCPConn β)
    (hc : Q c._status) (hk : ∀ buf a, StageIn Q (k buf a)) : StageIn Q (onBuf c r k) := by
  cases r with
  | returned buf a => exact hk buf a
  | threw buf w => exact hc
  | undefined => trivial

theorem stageIn_getData (c : TCPConn) (input : SocketIn) :
    StageIn (fun s => s = c._status) (getData c input) := by
  cases input with
  | noData => exact rfl
  | data bytes =>
    show StageIn _ (if bytes.length = 0 then _ else _)
    split
    · exact rfl
    · exact rfl
  | fault => exact rfl

theorem stageIn_waitForAuthString (c : TCPConn) (input : SocketIn) :
    StageIn (fun s => s = c._status) (waitForAuthString c input) := by
  unfold waitForAuthString
  refine stageIn_andThen _ _ (stageIn_getData c input) (fun _ h => h) ?_
  intro c1 got h1
  cases got with
  | none => exact h1
  | some buf =>
    refine stageIn_onBuf _ _ _ h1 ?_
    intro buf ok
    cases ok
    · exact h1
    · exact h1

theorem stageIn_waitForEncryptAuthReply (cipher : Cipher) (c : TCPConn) (input : SocketIn) :
    StageIn (fun s => s = c._status) (waitForEncryptAuthReply cipher c input) := by
  unfold waitForEncryptAuthReply
  refine stageIn_andThen _ _ (stageIn_getData c input) (fun _ h => h) ?_
  intro c1 got h1
  cases got with
  | none => exact h1
  | some buf =>
    refine stageIn_onBuf _ _ _ h1 ?_
    intro buf u
    refine stageIn_onBuf _ _ _ h1 ?_
    intro buf ok
    cases ok
    · exact h1
    · show StageIn _ (if buf = c1.authString then _ else _)
      split
      · exact h1
      · exact h1

theorem stageIn_waitForEncryptAuthReplyAndAuthString (cipher : Cipher) (c : TCPConn)
    (input : SocketIn) :
    StageIn (fun s => s = c._status) (waitForEncryptAuthReplyAndAuthString cipher c input) := by
  unfold waitForEncryptAuthReplyAndAuthString
  refine stageIn_andThen _ _ (stageIn_getData c input) (fun _ h => h) ?_
  intro c1 got h1
  cases got with
  | none => exact h1
  | some buf =>
    show StageIn _ (if buf.length < 62 then _ else _)
    split
    · trivial
    · refine stageIn_onBuf _ _ _ h1 ?_
      intro e u
      refine stageIn_onBuf _ _ _ h1 ?_
      intro e ok
      cases ok
      · exact h1
      · have h2 : (if e = c1.authString then c1 else disconnect c1)._status = c._status := by
          split
          · exact h1
          · exact h1
        refine stageIn_onBuf _ _ _ h2 ?_
        intro b ok
        cases ok
        · exact h2
        · exact h2

theorem stageIn_waitForSID (c : TCPConn) (env : Env) :
    StageIn (fun s => s = c._status ∨ s = s_svrSendAuthString) (waitForSID c env) := by
  unfold waitForSID
  split
  · refine stageIn_andThen _ _ (stageIn_getData c env.input) (fun _ h => Or.inl h) ?_
    intro c1 got h1
    cases got with
    | none => exact Or.inl h1
    | some buf =>
      refine stageIn_onBuf _ _ _ (Or.inl h1) ?_
      intro buf ok
      cases ok
      · exact Or.inl h1
      · exact Or.inr rfl
  · exact Or.inl rfl

theorem stageIn_waitForData (cipher : Cipher) (c : TCPConn) (env : Env) :
    StageIn (fun s => s = c._status ∨ s = s_hasdata) (waitForData cipher c env) := by
  unfold waitForData
  split
  · refine stageIn_andThen _ _ (stageIn_getData c env.input) (fun _ h => Or.inl h) ?_
    intro c1 got h1
    cases got with
    | none => exact Or.inl h1
    | some buf =>
      refine stageIn_onBuf _ _ _ (Or.inl h1) ?_
      intro buf u
      refine stageIn_onBuf _ _ _ (Or.inl h1) ?_
      intro buf ok
      cases ok
      · exact Or.inl h1
      · exact Or.inr rfl
  · exact Or.inl rfl

theorem stageIn_awaitAck (cipher : Cipher) (c : TCPConn) (env : Env) :
    StageIn (fun s => s = c._status) (awaitAck cipher c env) := by
  unfold awaitAck
  split
  · refine stageIn_andThen _ _ (stageIn_getData c env.input) (fun _ h => h) ?_
    intro c1 got h1
    cases got with
    | none => exact h1
    | some buf =>
      refine stageIn_onBuf _ _ _ h1 ?_
      intro buf u
      exact h1
  · exact rfl

theorem stageIn_clientAuthProcess (cipher : Cipher) (c : TCPConn) (env : Env) :
    StageIn (fun s => s = c._status ∨ s = s_cFinalCheck) (clientAuthProcess cipher c env) := by
  unfold clientAuthProcess
  split
  · refine stageIn_andThen _ _ (stageIn_waitForAuthString c env.input) (fun _ h => Or.inl h) ?_
    intro c1 u h1
    exact Or.inr rfl
  · exact Or.inl rfl

theorem stageIn_svrAuthRespProcess (cipher : Cipher) (c : TCPConn) (env : Env) :
    StageIn (fun s => s = c._status ∨ s = s_svrSendAuthResp)
      (svrAuthRespProcess cipher c env) := by
  unfold svrAuthRespProcess
  split
  · refine stageIn_andThen _ _ (stageIn_waitForEncryptAuthReplyAndAuthString cipher c env.input)
      (fun _ h => Or.inl h) ?_
    intro c1 u h1
    exact Or.inr rfl
  · exact Or.inl rfl

theorem stageIn_finalAuthCheck (cipher : Cipher) (c : TCPConn) (env : Env) :
    StageIn (fun s => s = c._status ∨ s = s_datatx) (finalAuthCheck cipher c env) := by
  unfold finalAuthCheck
  split
  · refine stageIn_andThen _ _ (stageIn_waitForEncryptAuthReply cipher c env.input)
      (fun _ h => Or.inl h) ?_
    intro c1 u h1
    exact Or.inr rfl
  · exact Or.inl rfl

/-- Whatever the socket offers, the handler that `handleConnection` selects leaves the
connection in the stage it had or in the next stage of its side. -/
theorem stageIn_dispatch (cipher : Cipher) (c : TCPConn) (env : Env) :
    StageIn (fun s => s = c._status ∨ s = successor c._status) (dispatch cipher c env) := by
  unfold dispatch
  cases hs : c._status with
  | s_none => exact Or.inl hs
  | s_connecting => exact Or.inr rfl
  | s_connected =>
    have h := stageIn_waitForSID c env
    rw [hs] at h
    exact h
  | s_svrSendAuthString => exact Or.inr rfl
  | s_clientAuthResp =>
    have h := stageIn_clientAuthProcess cipher c env
    rw [hs] at h
    exact h
  | s_svrWaitForResp =>
    have h := stageIn_svrAuthRespProcess cipher c env
    rw [hs] at h
    exact h
  | s_svrSendAuthResp => exact Or.inr rfl
  | s_cFinalCheck =>
    have h := stageIn_finalAuthCheck cipher c env
    rw [hs] at h
    exact h
  | s_datatx => exact Or.inr rfl
  | s_datarx =>
    have h := stageIn_waitForData cipher c env
    rw [hs] at h
    exact h
  | s_waitack =>
    have h := stageIn_awaitAck cipher c env
    rw [hs] at h
    exact stageIn_mono (fun _ h' => Or.inl h') _ h
  | s_hasdata => exact Or.inl hs

theorem handleConnection_stage (cipher : Cipher) (c : TCPConn) (env : Env) :
    StageIn (fun s => s = c._status ∨ s = successor c._status)
      (handleConnection cipher c env) := by
  have h := stageIn_dispatch cipher c env
  unfold handleConnection
  cases hd : dispatch cipher c env with
  | returned c1 sent =>
    rw [hd] at h
    exact h
  | threw c1 what =>
    rw [hd] at h
    show StageIn _ (if what = "socket_error" then _ else _)
    split
    · exact h
    · exact h
  | undefined => trivial

/-- A side's sequence of stages is closed under the moves of the handlers, which never go
back in it. -/
theorem initiatorRank_successor (s : statustype) (m : Nat) (h : initiatorRank s = some m) :
    ∃ n, initiatorRank (successor s) = some n ∧ m ≤ n := by
  cases s <;> simp [initiatorRank, successor] at h ⊢ <;> omega

theorem acceptorRank_successor (s : statustype) (m : Nat) (h : acceptorRank s = some m) :
    ∃ n, acceptorRank (successor s) = some n ∧ m ≤ n := by
  cases s <;> simp [acceptorRank, successor] at h ⊢ <;> omega

/-- Along the calls of `handleConnection`, a rank that the handlers' moves never decrease
is defined at every state and never decreases. -/
theorem statesVisited_ranked (cipher : Cipher) (rank : statustype → Option Nat)
    (hrank : ∀ s m, rank s = some m → ∃ n, rank (successor s) = some n ∧ m ≤ n)
    (envs : List Env) :
    ∀ (c : TCPConn) (m : Nat), rank c._status = some m →
      (∀ d ∈ statesVisited cipher c envs, ∃ n, rank d._status = some n ∧ m ≤ n) ∧
      (statesVisited cipher c envs).Pairwise
        (fun a b => ∃ i j, rank a._status = some i ∧ rank b._status = some j ∧ i ≤ j) := by
  induction envs with
  | nil =>
    intro c m hc
    simp only [statesVisited, List.mem_singleton, forall_eq, List.pairwise_cons,
      List.not_mem_nil, false_imp_iff, implies_true, List.Pairwise.nil, and_true]
    exact ⟨m, hc, le_refl m⟩
  | cons env envs ih =>
    intro c m hc
    have hst := handleConnection_stage cipher c env
    unfold statesVisited
    cases hr : handleConnection cipher c env with
    | returned c1 sent =>
      rw [hr] at hst
      have hc1 : ∃ n, rank c1._status = some n ∧ m ≤ n := by
        rcases hst with h | h
        · exact ⟨m, by rw [h]; exact hc, le_refl m⟩
        · rw [h]
          exact hrank _ m hc
      obtain ⟨n, hn, hmn⟩ := hc1
      obtain ⟨hall, hpw⟩ := ih c1 n hn
      simp only [List.mem_cons, forall_eq_or_imp, List.pairwise_cons]
      refine ⟨⟨⟨m, hc, le_refl m⟩, ?_⟩, ?_, hpw⟩
      · intro d hd
        obtain ⟨k, hk, hnk⟩ := hall d hd
        exact ⟨k, hk, le_trans hmn hnk⟩
      · intro d hd
        obtain ⟨k, hk, hnk⟩ := hall d hd
        exact ⟨m, k, hc, hk, le_trans hmn hnk⟩
    | threw c1 what =>
      simp only [List.mem_singleton, forall_eq, List.pairwise_cons, List.not_mem_nil,
        false_imp_iff, implies_true, List.Pairwise.nil, and_true]
      exact ⟨m, hc, le_refl m⟩
    | undefined =>
      simp only [List.mem_singleton, forall_eq, List.pairwise_cons, List.not_mem_nil,
        false_imp_iff, implies_true, List.Pairwise.nil, and_true]
      exact ⟨m, hc, le_refl m⟩

theorem initiatorRank_some (s : statustype) (n : Nat) (h : initiatorRank s = some n) :
    s ∈ [s_connecting, s_clientAuthResp, s_cFinalCheck, s_datatx, s_waitack] := by
  cases s <;> simp [initiatorRank] at h ⊢

theorem acceptorRank_some (s : statustype) (n : Nat) (h : acceptorRank s = some n) :
    s ∈ [s_connected, s_svrSendAuthString, s_svrWaitForResp, s_svrSendAuthResp, s_datarx,
      s_hasdata] := by
  cases s <;> simp [acceptorRank] at h ⊢

theorem challenge_length (rand : Nat → Nat) : (challenge rand).length = 12 := by
  simp [challenge]

theorem challenge_lt (rand : Nat → Nat) : ∀ b ∈ challenge rand, b < 30 := by
  intro b hb
  simp only [challenge, List.mem_map, List.mem_range] at hb
  obtain ⟨i, _, rfl⟩ := hb
  exact Nat.lt_of_le_of_lt (Nat.mod_le _ _) (Nat.mod_lt (rand i) (by decide))

theorem length_wrap_auth (p : List Byte) : (c_auth ++ p ++ c_endauth).length = p.length + 11 := by
  simp [c_auth, c_endauth]

/-! ## The claims on the connection state machine -/

/-- C25: under any sequence of `handleConnection` calls and any socket inputs, a
connection created by `connect` is only ever in the stages `s_connecting`,
`s_clientAuthResp`, `s_cFinalCheck`, `s_datatx`, `s_waitack`, and a connection created by
`accept` only in `s_connected`, `s_svrSendAuthString`, `s_svrWaitForResp`,
`s_svrSendAuthResp`, `s_datarx`, `s_hasdata`; in both roles a later state of the run is
never at an earlier place of that sequence than a state before it. -/
theorem handleConnection_role_fixed (cipher : Cipher) (c : TCPConn) (envs : List Env) :
    ((∀ d ∈ statesVisited cipher (connect c) envs,
        d._status ∈ [s_connecting, s_clientAuthResp, s_cFinalCheck, s_datatx, s_waitack]) ∧
      (statesVisited cipher (connect c) envs).Pairwise
        (fun a b => ∃ i j, initiatorRank a._status = some i ∧
          initiatorRank b._status = some j ∧ i ≤ j)) ∧
    ((∀ d ∈ statesVisited cipher (accept c) envs,
        d._status ∈ [s_connected, s_svrSendAuthString, s_svrWaitForResp, s_svrSendAuthResp,
          s_datarx, s_hasdata]) ∧
      (statesVisited cipher (accept c) envs).Pairwise
        (fun a b => ∃ i j, acceptorRank a._status = some i ∧
          acceptorRank b._status = some j ∧ i ≤ j)) := by
  have hI := statesVisited_ranked cipher initiatorRank initiatorRank_successor envs
    (connect c) 0 rfl
  have hA := statesVisited_ranked cipher acceptorRank acceptorRank_successor envs
    (accept c) 0 rfl
  refine ⟨⟨?_, hI.2⟩, ?_, hA.2⟩
  · intro d hd
    obtain ⟨n, hn, _⟩ := hI.1 d hd
    exact initiatorRank_some _ n hn
  · intro d hd
    obtain ⟨n, hn, _⟩ := hA.1 d hd
    exact acceptorRank_some _ n hn

/-- C26: in each of the waiting stages (`s_connected`, `s_clientAuthResp`,
`s_svrWaitForResp`, `s_cFinalCheck`, `s_datarx`, `s_waitack`) and in `s_hasdata`, a call of
`handleConnection` while the socket has no data returns with the connection object
unchanged in every member and with nothing sent. -/
theorem handleConnection_no_data (cipher : Cipher) (c : TCPConn) (env : Env)
    (hin : env.input = SocketIn.noData)
    (hst : c._status ∈ [s_connected, s_clientAuthResp, s_svrWaitForResp, s_cFinalCheck,
      s_datarx, s_waitack, s_hasdata]) :
    handleConnection cipher c env = Outcome.returned c [] := by
  simp only [List.mem_cons, List.mem_singleton, List.not_mem_nil, or_false] at hst
  unfold handleConnection dispatch
  rcases hst with h | h | h | h | h | h | h <;> rw [h] <;>
    simp [waitForSID, clientAuthProcess, svrAuthRespProcess, finalAuthCheck, waitForData,
      awaitAck, hin, SocketIn.hasData]

/-- Witness for C26: an accepted connection waiting for the `<SID>` frame. -/
theorem handleConnection_no_data_witness :
    handleConnection demoCipher (accept (fresh [66] [2]))
        { input := SocketIn.noData, rand := fun n => n, init_vector := List.replicate 16 9 } =
      Outcome.returned (accept (fresh [66] [2])) [] :=
  handleConnection_no_data demoCipher (accept (fresh [66] [2]))
    { input := SocketIn.noData, rand := fun n => n, init_vector := List.replicate 16 9 }
    rfl (by decide)

/-- C28: a call of `handleConnection` in stage `s_svrSendAuthString` sends exactly one
buffer, the 23 bytes `<AUT>` ++ Cs ++ `</AUT>`, where Cs has 12 bytes, each below 30;
it stores exactly Cs in `authString`, replacing what was there, and moves the connection
to `s_svrWaitForResp`, whatever the socket offers. -/
theorem svrSendAuth_sends_challenge (cipher : Cipher) (c : TCPConn) (env : Env)
    (hst : c._status = s_svrSendAuthString) :
    ∃ Cs : List Byte, Cs.length = 12 ∧ (∀ b ∈ Cs, b < 30) ∧
      (c_auth ++ Cs ++ c_endauth).length = 23 ∧
      handleConnection cipher c env =
        Outcome.returned { c with authString := Cs, _status := s_svrWaitForResp }
          [c_auth ++ Cs ++ c_endauth] := by
  refine ⟨challenge env.rand, challenge_length _, challenge_lt _, ?_, ?_⟩
  · rw [length_wrap_auth, challenge_length]
  · unfold handleConnection dispatch
    rw [hst]
    rfl

/-- Witness for C28: an accepted connection that has recorded the peer id. -/
theorem svrSendAuth_sends_challenge_witness :
    ∃ Cs : List Byte, Cs.length = 12 ∧ (∀ b ∈ Cs, b < 30) ∧
      (c_auth ++ Cs ++ c_endauth).length = 23 ∧
      handleConnection demoCipher { accept (fresh [66] [2]) with _status := s_svrSendAuthString }
          { input := SocketIn.noData, rand := fun n => n + 61,
            init_vector := List.replicate 16 9 } =
        Outcome.returned
          { { accept (fresh [66] [2]) with _status := s_svrSendAuthString } with
            authString := Cs, _status := s_svrWaitForResp }
          [c_auth ++ Cs ++ c_endauth] :=
  svrSendAuth_sends_challenge demoCipher
    { accept (fresh [66] [2]) with _status := s_svrSendAuthString }
    { input := SocketIn.noData, rand := fun n => n + 61, init_vector := List.replicate 16 9 }
    rfl

theorem getCmdData_ne_nil_of_true (buf startcmd endcmd r : List Byte)
    (h : getCmdData buf startcmd endcmd = Outcome.returned r true) : buf.length ≠ 0 := by
  intro h0
  have hb : buf = [] := List.length_eq_zero.mp h0
  subst hb
  simp [getCmdData, findCmd] at h

theorem length_auth_envelope (cipher : Cipher)
    (hlen : ∀ key iv p, (cipher.encipher key iv p).length = p.length)
    (aes_key init_vector p : List Byte) (hiv : init_vector.length = iv_size)
    (hp : p.length = 12) :
    (encryptData cipher aes_key init_vector (c_auth ++ p ++ c_endauth)).length = 39 := by
  unfold encryptData
  rw [List.length_append, hlen, hiv, length_wrap_auth, hp]
  rfl

theorem challenge_eq_draws (rand : Nat → Nat) :
    challenge rand =
      [rand 0 % 30, rand 1 % 30, rand 2 % 30, rand 3 % 30, rand 4 % 30, rand 5 % 30,
       rand 6 % 30, rand 7 % 30, rand 8 % 30, rand 9 % 30, rand 10 % 30, rand 11 % 30] := by
  have h : ∀ i, rand i % 30 % 256 = rand i % 30 := fun i =>
    Nat.mod_eq_of_lt (Nat.lt_trans (Nat.mod_lt _ (by decide)) (by decide))
  unfold challenge
  simp only [h]
  rfl

/-- C29: a connecting side in stage `s_clientAuthResp` that reads a buffer in which
`getCmdData` finds the frame `<AUT>`Cs`</AUT>` with a 12-byte Cs sends exactly one
buffer, the envelope IV ++ encrypt(`<AUT>`Cs`</AUT>`) immediately followed by the clear
frame `<AUT>`Ci`</AUT>`, where Ci is the 12 bytes `rand() % 30` of the first twelve
results of `rand()` in this call, and Ci is stored in `authString`; Cs is stored in
`recAuthString`, the message has 62 bytes, and the stage becomes `s_cFinalCheck`. The
cipher is length-preserving and the IV has 16 bytes. -/
theorem clientAuthProcess_reply (cipher : Cipher)
    (hlen : ∀ key iv p, (cipher.encipher key iv p).length = p.length)
    (c : TCPConn) (env : Env) (buf Cs : List Byte)
    (hiv : env.init_vector.length = iv_size)
    (hst : c._status = s_clientAuthResp) (hin : env.input = SocketIn.data buf)
    (hbuf : getCmdData buf c_auth c_endauth = Outcome.returned Cs true)
    (hCs : Cs.length = 12) :
    handleConnection cipher c env =
      Outcome.returned
        { c with
          recAuthString := Cs,
          authString :=
            [env.rand 0 % 30, env.rand 1 % 30, env.rand 2 % 30, env.rand 3 % 30,
             env.rand 4 % 30, env.rand 5 % 30, env.rand 6 % 30, env.rand 7 % 30,
             env.rand 8 % 30, env.rand 9 % 30, env.rand 10 % 30, env.rand 11 % 30],
          _status := s_cFinalCheck }
        [encryptData cipher c._aes_key env.init_vector (c_auth ++ Cs ++ c_endauth) ++
          (c_auth ++
            [env.rand 0 % 30, env.rand 1 % 30, env.rand 2 % 30, env.rand 3 % 30,
             env.rand 4 % 30, env.rand 5 % 30, env.rand 6 % 30, env.rand 7 % 30,
             env.rand 8 % 30, env.rand 9 % 30, env.rand 10 % 30, env.rand 11 % 30] ++
            c_endauth)] ∧
    (encryptData cipher c._aes_key env.init_vector (c_auth ++ Cs ++ c_endauth) ++
      (c_auth ++
        [env.rand 0 % 30, env.rand 1 % 30, env.rand 2 % 30, env.rand 3 % 30,
         env.rand 4 % 30, env.rand 5 % 30, env.rand 6 % 30, env.rand 7 % 30,
         env.rand 8 % 30, env.rand 9 % 30, env.rand 10 % 30, env.rand 11 % 30] ++
        c_endauth)).length = 62 := by
  rw [← challenge_eq_draws env.rand]
  constructor
  · have hne := getCmdData_ne_nil_of_true buf c_auth c_endauth Cs hbuf
    unfold handleConnection dispatch
    rw [hst]
    simp only [clientAuthProcess, hin, SocketIn.hasData, if_true, waitForAuthString, getData,
      if_neg hne, andThen, hbuf, onBuf, Bool.not_true, Bool.false_eq_true, if_false,
      sendAuthenticationRespAndString, wrapCmd]
  · rw [List.length_append, length_auth_envelope cipher hlen _ _ _ hiv hCs, length_wrap_auth,
      challenge_length]

/-- Witness for C29: the stand-in cipher, the challenge of twelve bytes 1 in its frame,
and `rand()` yielding 1, 4, 7, ..., 34. -/
theorem clientAuthProcess_reply_witness :
    handleConnection demoCipher (demoInitiator s_clientAuthResp)
        { input := SocketIn.data (wrapCmd (List.replicate 12 1) c_auth c_endauth),
          rand := fun n => 3 * n + 1, init_vector := List.replicate 16 9 } =
      Outcome.returned
        { demoInitiator s_clientAuthResp with
          recAuthString := List.replicate 12 1,
          authString := [1, 4, 7, 10, 13, 16, 19, 22, 25, 28, 1, 4],
          _status := s_cFinalCheck }
        [encryptData demoCipher [2] (List.replicate 16 9)
            (c_auth ++ List.replicate 12 1 ++ c_endauth) ++
          (c_auth ++ [1, 4, 7, 10, 13, 16, 19, 22, 25, 28, 1, 4] ++ c_endauth)] ∧
    (encryptData demoCipher [2] (List.replicate 16 9)
        (c_auth ++ List.replicate 12 1 ++ c_endauth) ++
      (c_auth ++ [1, 4, 7, 10, 13, 16, 19, 22, 25, 28, 1, 4] ++ c_endauth)).length = 62 :=
  clientAuthProcess_reply demoCipher (by intro key iv p; simp [demoCipher])
    (demoInitiator s_clientAuthResp)
    { input := SocketIn.data (wrapCmd (List.replicate 12 1) c_auth c_endauth),
      rand := fun n => 3 * n + 1, init_vector := List.replicate 16 9 }
    (wrapCmd (List.replicate 12 1) c_auth c_endauth) (List.replicate 12 1)
    (by decide) rfl rfl (by decide) (by decide)

/-- C21, as stated, fails: under the stand-in cipher, which like the CFB mode of the source
yields as many bytes as it is given, the envelope of a framed 12-byte challenge has 39
bytes, not 62, and the first 62 bytes of the message are the whole message, the clear
frame `<AUT>`Ci`</AUT>` included. -/
theorem auth_envelope_not_62_bytes :
    (encryptData demoCipher [2] (List.replicate 16 9)
      (wrapCmd (List.replicate 12 1) c_auth c_endauth)).length = 39 ∧
    (encryptData demoCipher [2] (List.replicate 16 9)
        (wrapCmd (List.replicate 12 1) c_auth c_endauth) ++
      wrapCmd (List.replicate 12 5) c_auth c_endauth).take 62 =
      encryptData demoCipher [2] (List.replicate 16 9)
        (wrapCmd (List.replicate 12 1) c_auth c_endauth) ++
      wrapCmd (List.replicate 12 5) c_auth c_endauth := by
  decide

/-- C21, amended: for a length-preserving cipher, a 16-byte IV and 12-byte challenges Cs
and Ci, the envelope IV ++ encrypt(`<AUT>`Cs`</AUT>`) produced by `encryptData` is exactly
39 bytes long (16 + 23), the whole message, envelope followed by the clear
`<AUT>`Ci`</AUT>`, is exactly 62 bytes long, and so the first 62 bytes that the accepting
side copies are the whole message: the envelope and, after it, the whole clear frame. -/
theorem auth_envelope_length (cipher : Cipher)
    (hlen : ∀ key iv p, (cipher.encipher key iv p).length = p.length)
    (aes_key init_vector Cs Ci : List Byte) (hiv : init_vector.length = iv_size)
    (hCs : Cs.length = 12) (hCi : Ci.length = 12) :
    (encryptData cipher aes_key init_vector (wrapCmd Cs c_auth c_endauth)).length = 39 ∧
    (encryptData cipher aes_key init_vector (wrapCmd Cs c_auth c_endauth) ++
      wrapCmd Ci c_auth c_endauth).length = 62 ∧
    (encryptData cipher aes_key init_vector (wrapCmd Cs c_auth c_endauth) ++
      wrapCmd Ci c_auth c_endauth).take 62 =
      encryptData cipher aes_key init_vector (wrapCmd Cs c_auth c_endauth) ++
        wrapCmd Ci c_auth c_endauth ∧
    ((encryptData cipher aes_key init_vector (wrapCmd Cs c_auth c_endauth) ++
      wrapCmd Ci c_auth c_endauth).take 62).drop 39 = wrapCmd Ci c_auth c_endauth := by
  have h39 := length_auth_envelope cipher hlen aes_key init_vector Cs hiv hCs
  have h62 : (encryptData cipher aes_key init_vector (wrapCmd Cs c_auth c_endauth) ++
      wrapCmd Ci c_auth c_endauth).length = 62 := by
    unfold wrapCmd
    rw [List.length_append, h39, length_wrap_auth, hCi]
  have htake : (encryptData cipher aes_key init_vector (wrapCmd Cs c_auth c_endauth) ++
      wrapCmd Ci c_auth c_endauth).take 62 =
      encryptData cipher aes_key init_vector (wrapCmd Cs c_auth c_endauth) ++
        wrapCmd Ci c_auth c_endauth := by
    rw [← h62, List.take_length]
  refine ⟨h39, h62, htake, ?_⟩
  rw [htake]
  exact List.drop_left' h39

/-- Witness for the amended C21: the stand-in cipher and constant challenges. -/
theorem auth_envelope_length_witness :
    (encryptData demoCipher [2] (List.replicate 16 9)
      (wrapCmd (List.replicate 12 1) c_auth c_endauth)).length = 39 ∧
    (encryptData demoCipher [2] (List.replicate 16 9)
      (wrapCmd (List.replicate 12 1) c_auth c_endauth) ++
      wrapCmd (List.replicate 12 5) c_auth c_endauth).length = 62 ∧
    (encryptData demoCipher [2] (List.replicate 16 9)
      (wrapCmd (List.replicate 12 1) c_auth c_endauth) ++
      wrapCmd (List.replicate 12 5) c_auth c_endauth).take 62 =
      encryptData demoCipher [2] (List.replicate 16 9)
        (wrapCmd (List.replicate 12 1) c_auth c_endauth) ++
        wrapCmd (List.replicate 12 5) c_auth c_endauth ∧
    ((encryptData demoCipher [2] (List.replicate 16 9)
      (wrapCmd (List.replicate 12 1) c_auth c_endauth) ++
      wrapCmd (List.replicate 12 5) c_auth c_endauth).take 62).drop 39 =
      wrapCmd (List.replicate 12 5) c_auth c_endauth :=
  auth_envelope_length demoCipher (by intro key iv p; simp [demoCipher])
    [2] (List.replicate 16 9) (List.replicate 12 1) (List.replicate 12 5)
    (by decide) (by decide) (by decide)

/-- Opening an envelope made by `encryptData` under the same key, for a cipher whose
decipher inverts its encipher and a 16-byte IV. -/
theorem decryptData_envelope (cipher : Cipher)
    (hinv : ∀ key iv p, cipher.decipher key iv (cipher.encipher key iv p) = p)
    (aes_key init_vector p : List Byte) (hiv : init_vector.length = iv_size) :
    decryptData cipher aes_key (encryptData cipher aes_key init_vector p) =
      Outcome.returned p () := by
  unfold decryptData encryptData
  have hnot : ¬ (init_vector ++ cipher.encipher aes_key init_vector p).length < iv_size := by
    rw [List.length_append, hiv]
    omega
  rw [if_neg hnot]
  simp only
  rw [List.take_left' hiv, List.drop_left' hiv, hinv]

theorem length_envelope_ne_zero (cipher : Cipher) (aes_key init_vector p : List Byte)
    (hiv : init_vector.length = iv_size) :
    (encryptData cipher aes_key init_vector p).length ≠ 0 := by
  unfold encryptData
  rw [List.length_append, hiv]
  unfold iv_size
  omega

/-- C24, as stated, fails: the payload `</REP>` seeded into a connecting side is sent in
its frame, and the accepting side that reads this message ends in `s_hasdata` with data
ready, but `getInputData` returns the empty payload. -/
theorem replication_payload_cut :
    handleConnection demoCipher (assignOutgoingData (demoInitiator s_datatx) c_endrep)
        (demoEnv SocketIn.noData) =
      Outcome.returned
        { demoInitiator s_waitack with
          _outputbuf := encryptData demoCipher [2] (List.replicate 16 9)
            (c_rep ++ c_endrep ++ c_endrep) }
        [encryptData demoCipher [2] (List.replicate 16 9) (c_rep ++ c_endrep ++ c_endrep)] ∧
    handleConnection demoCipher (demoAcceptor s_datarx)
        (demoEnv (SocketIn.data
          (encryptData demoCipher [2] (List.replicate 16 9) (c_rep ++ c_endrep ++ c_endrep)))) =
      Outcome.returned
        { demoAcceptor s_hasdata with _inputbuf := [], _data_ready := true, _connected := false }
        [encryptData demoCipher [2] (List.replicate 16 9) c_ack] ∧
    (getInputData
      { demoAcceptor s_hasdata with
        _inputbuf := [], _data_ready := true, _connected := false }).2 = [] ∧
    c_endrep ≠ [] := by
  decide

/-- C24, amended: for every payload d seeded into a connecting side with
`assignOutgoingData`, when the buffer that `transmitData` sends, IV ++
encrypt(`<REP>` d `</REP>`), is received in one read by an accepting side in `s_datarx`
holding the same key, the accepting side sends an encrypted `<ACK>` and ends in
`s_hasdata` with data ready and disconnected, and `getInputData` then returns the bytes of
d before the first occurrence of `</REP>` in d followed by `</REP>`; this is exactly d if
and only if `</REP>` does not occur in d. The decipher inverts the encipher and the IV has
16 bytes. -/
theorem transmitData_waitForData (cipher : Cipher)
    (hinv : ∀ key iv p, cipher.decipher key iv (cipher.encipher key iv p) = p)
    (ini acc : TCPConn) (envI envA : Env) (d : List Byte)
    (hiv : envI.init_vector.length = iv_size)
    (hI : ini._status = s_datatx) (hA : acc._status = s_datarx)
    (hkey : acc._aes_key = ini._aes_key)
    (hin : envA.input =
      SocketIn.data (encryptData cipher ini._aes_key envI.init_vector (c_rep ++ d ++ c_endrep))) :
    handleConnection cipher (assignOutgoingData ini d) envI =
      Outcome.returned
        { ini with
          _outputbuf := encryptData cipher ini._aes_key envI.init_vector (c_rep ++ d ++ c_endrep),
          _status := s_waitack }
        [encryptData cipher ini._aes_key envI.init_vector (c_rep ++ d ++ c_endrep)] ∧
    handleConnection cipher acc envA =
      Outcome.returned
        { acc with
          _inputbuf := d.take (findCmd (d ++ c_endrep) c_endrep), _data_ready := true,
          _connected := false, _status := s_hasdata }
        [encryptData cipher acc._aes_key envA.init_vector c_ack] ∧
    (getInputData { acc with
        _inputbuf := d.take (findCmd (d ++ c_endrep) c_endrep), _data_ready := true,
        _connected := false, _status := s_hasdata }).2 =
      d.take (findCmd (d ++ c_endrep) c_endrep) ∧
    (d.take (findCmd (d ++ c_endrep) c_endrep) = d ↔ ¬ c_endrep <:+: d) := by
  refine ⟨?_, ?_, rfl, ?_⟩
  · unfold handleConnection dispatch assignOutgoingData
    simp only [hI]
    rfl
  · have hne := length_envelope_ne_zero cipher ini._aes_key envI.init_vector
      (c_rep ++ d ++ c_endrep) hiv
    have hdec := decryptData_envelope cipher hinv ini._aes_key envI.init_vector
      (c_rep ++ d ++ c_endrep) hiv
    have hget := getCmdData_wrapCmd_of_skip c_rep c_endrep (by decide) (by decide) skip_rep d
    unfold wrapCmd at hget
    unfold handleConnection dispatch
    rw [hA]
    simp only [waitForData, hin, SocketIn.hasData, if_true, getData, if_neg hne, andThen,
      hkey, hdec, onBuf, hget, Bool.not_true, Bool.false_eq_true, if_false, disconnect]
  · constructor
    · intro h hinf
      have hlt := findCmd_append_self_lt_of_present c_endrep (by decide) d hinf
      have hl := congrArg List.length h
      rw [List.length_take] at hl
      omega
    · intro hnot
      have h := findCmd_append_self_of_absent 60 [47, 82, 69, 80, 62] (by decide) d hnot
      show d.take (findCmd (d ++ 60 :: [47, 82, 69, 80, 62]) (60 :: [47, 82, 69, 80, 62])) = d
      rw [h, List.take_length]

/-- Witness for the amended C24: the stand-in cipher and a payload of three bytes. -/
theorem transmitData_waitForData_witness :
    handleConnection demoCipher
        (assignOutgoingData { connect (fresh [65] [2]) with _status := s_datatx } [1, 2, 3])
        { input := SocketIn.noData, rand := fun n => n, init_vector := List.replicate 16 9 } =
      Outcome.returned
        { { connect (fresh [65] [2]) with _status := s_datatx } with
          _outputbuf := encryptData demoCipher [2] (List.replicate 16 9)
            (c_rep ++ [1, 2, 3] ++ c_endrep),
          _status := s_waitack }
        [encryptData demoCipher [2] (List.replicate 16 9) (c_rep ++ [1, 2, 3] ++ c_endrep)] ∧
    handleConnection demoCipher { accept (fresh [66] [2]) with _status := s_datarx }
        { input := SocketIn.data
            (encryptData demoCipher [2] (List.replicate 16 9) (c_rep ++ [1, 2, 3] ++ c_endrep)),
          rand := fun n => n, init_vector := List.replicate 16 7 } =
      Outcome.returned
        { { accept (fresh [66] [2]) with _status := s_datarx } with
          _inputbuf := [1, 2, 3].take (findCmd ([1, 2, 3] ++ c_endrep) c_endrep),
          _data_ready := true, _connected := false, _status := s_hasdata }
        [encryptData demoCipher [2] (List.replicate 16 7) c_ack] ∧
    (getInputData { { accept (fresh [66] [2]) with _status := s_datarx } with
        _inputbuf := [1, 2, 3].take (findCmd ([1, 2, 3] ++ c_endrep) c_endrep),
        _data_ready := true, _connected := false, _status := s_hasdata }).2 =
      [1, 2, 3].take (findCmd ([1, 2, 3] ++ c_endrep) c_endrep) ∧
    ([1, 2, 3].take (findCmd ([1, 2, 3] ++ c_endrep) c_endrep) = [1, 2, 3] ↔
      ¬ c_endrep <:+: [1, 2, 3]) :=
  transmitData_waitForData demoCipher
    (by
      intro key iv p
      simp only [demoCipher, List.map_map]
      have h : ((fun b => b ^^^ key.getD 0 0) ∘ fun b => b ^^^ key.getD 0 0) = id :=
        funext fun b => Nat.xor_cancel_right _ b
      rw [h, List.map_id])
    { connect (fresh [65] [2]) with _status := s_datatx }
    { accept (fresh [66] [2]) with _status := s_datarx }
    { input := SocketIn.noData, rand := fun n => n, init_vector := List.replicate 16 9 }
    { input := SocketIn.data
        (encryptData demoCipher [2] (List.replicate 16 9) (c_rep ++ [1, 2, 3] ++ c_endrep)),
      rand := fun n => n, init_vector := List.replicate 16 7 }
    [1, 2, 3] (by decide) rfl rfl rfl rfl

theorem cStr_eq_self (bytes : List Byte) (h : 0 ∉ bytes) : cStr bytes = bytes := by
  unfold cStr
  rw [List.takeWhile_eq_self_iff]
  intro b hb
  have : b ≠ 0 := fun h0 => h (h0 ▸ hb)
  simpa using this

/-- C27, as stated, fails: the bytes between `<SID>` and `</SID>` are passed on as a C
string, so from `<SID>` 65 0 66 `</SID>` the recorded node id is the one byte 65. -/
theorem waitForSID_cuts_at_zero_byte :
    getCmdData (c_sid ++ [65, 0, 66] ++ c_endsid) c_sid c_endsid =
      Outcome.returned [65, 0, 66] true ∧
    handleConnection demoCipher (demoAcceptor s_connected)
        (demoEnv (SocketIn.data (c_sid ++ [65, 0, 66] ++ c_endsid))) =
      Outcome.returned { demoAcceptor s_svrSendAuthString with _node_id := [65] } [] := by
  decide

/-- C27, amended: for an accepting side in `s_connected` that reads the buffer `buf`: if
`buf` contains `<SID>` and `</SID>` and the first `</SID>` begins at or after the end of
the first `<SID>`, the bytes between the two, up to their first zero byte, are recorded as
the peer node id (all of them when none is zero) and the stage becomes
`s_svrSendAuthString`; if either tag is missing, the connection is disconnected, the stage
stays `s_connected` and the peer node id is unchanged. Nothing is sent. -/
theorem waitForSID_records_peer (cipher : Cipher) (c : TCPConn) (env : Env) (buf : List Byte)
    (hst : c._status = s_connected) (hin : env.input = SocketIn.data buf) :
    (c_sid <:+: buf → c_endsid <:+: buf →
      findCmd buf c_sid + c_sid.length ≤ findCmd buf c_endsid →
      handleConnection cipher c env =
        Outcome.returned
          { c with
            _node_id := cStr ((buf.drop (findCmd buf c_sid + c_sid.length)).take
              (findCmd buf c_endsid - (findCmd buf c_sid + c_sid.length))),
            _status := s_svrSendAuthString } [] ∧
      (0 ∉ (buf.drop (findCmd buf c_sid + c_sid.length)).take
          (findCmd buf c_endsid - (findCmd buf c_sid + c_sid.length)) →
        cStr ((buf.drop (findCmd buf c_sid + c_sid.length)).take
          (findCmd buf c_endsid - (findCmd buf c_sid + c_sid.length))) =
        (buf.drop (findCmd buf c_sid + c_sid.length)).take
          (findCmd buf c_endsid - (findCmd buf c_sid + c_sid.length)))) ∧
    (¬ c_sid <:+: buf ∨ ¬ c_endsid <:+: buf →
      handleConnection cipher c env =
        Outcome.returned { c with _connected := false, _status := s_connected } [] ∧
      ({ c with _connected := false, _status := s_connected } : TCPConn)._node_id =
        c._node_id) := by
  have hspec := getCmdData_spec buf c_sid c_endsid (by decide) (by decide)
  constructor
  · intro h1 h2 hord
    refine ⟨?_, cStr_eq_self _⟩
    have hget := hspec.2 h1 h2 hord
    have hne := getCmdData_ne_nil_of_true buf c_sid c_endsid _ hget
    unfold handleConnection dispatch
    rw [hst]
    simp only [waitForSID, hin, SocketIn.hasData, if_true, getData, if_neg hne, andThen, hget,
      onBuf, Bool.not_true, Bool.false_eq_true, if_false, setNodeID]
  · intro hmiss
    refine ⟨?_, rfl⟩
    have hget := hspec.1.mpr hmiss
    unfold handleConnection dispatch
    rw [hst]
    by_cases hne : buf.length = 0
    · simp only [waitForSID, hin, SocketIn.hasData, if_true, getData, if_pos hne, andThen,
        disconnect, ← hst]
    · simp only [waitForSID, hin, SocketIn.hasData, if_true, getData, if_neg hne, andThen, hget,
        onBuf, Bool.not_false, if_true, disconnect, ← hst]

/-- Witness for the amended C27: the frame `<SID>` 65 `</SID>` is recorded as node id 65,
and the single byte 7, which has no tag, closes the connection. -/
theorem waitForSID_records_peer_witness :
    (handleConnection demoCipher (demoAcceptor s_connected)
        (demoEnv (SocketIn.data (c_sid ++ [65] ++ c_endsid))) =
      Outcome.returned
        { demoAcceptor s_connected with _node_id := [65], _status := s_svrSendAuthString }
        []) ∧
    (handleConnection demoCipher (demoAcceptor s_connected) (demoEnv (SocketIn.data [7])) =
      Outcome.returned
        { demoAcceptor s_connected with _connected := false, _status := s_connected } []) :=
  ⟨((waitForSID_records_peer demoCipher (demoAcceptor s_connected)
      (demoEnv (SocketIn.data (c_sid ++ [65] ++ c_endsid))) (c_sid ++ [65] ++ c_endsid)
      rfl rfl).1 ⟨[], [65] ++ c_endsid, by decide⟩ ⟨c_sid ++ [65], [], by decide⟩
      (by decide)).1,
   ((waitForSID_records_peer demoCipher (demoAcceptor s_connected)
      (demoEnv (SocketIn.data [7])) [7] rfl rfl).2
      (Or.inl ((findCmd_eq_length_iff c_sid (by decide) [7]).mp (by decide)))).1⟩

/-- The stages of a full exchange on the connecting side, under the stand-in cipher: the
peer's `<AUT>` challenge, its encrypted echo of our challenge and its encrypted `<ACK>`
arrive while the connection waits for them. -/
theorem statesVisited_initiator_run :
    (statesVisited demoCipher (connect (fresh [65] [2]))
      [demoEnv SocketIn.noData,
       demoEnv (SocketIn.data (wrapCmd (List.replicate 12 1) c_auth c_endauth)),
       demoEnv (SocketIn.data (encryptData demoCipher [2] (List.replicate 16 9)
         (wrapCmd (challenge (fun n => n + 61)) c_auth c_endauth))),
       demoEnv SocketIn.noData,
       demoEnv (SocketIn.data (encryptData demoCipher [2] (List.replicate 16 9) c_ack))]).map
      (fun d => (d._status, d._connected)) =
    [(s_connecting, true), (s_clientAuthResp, true), (s_cFinalCheck, true), (s_datatx, true),
      (s_waitack, true), (s_waitack, false)] := by
  decide

/-- The stages of a full exchange on the accepting side, under the stand-in cipher. -/
theorem statesVisited_acceptor_run :
    (statesVisited demoCipher (accept (fresh [66] [2]))
      [demoEnv (SocketIn.data (wrapCmd [65] c_sid c_endsid)),
       demoEnv SocketIn.noData,
       demoEnv (SocketIn.data (encryptData demoCipher [2] (List.replicate 16 9)
         (wrapCmd (challenge (fun n => n + 61)) c_auth c_endauth) ++
         wrapCmd (List.replicate 12 5) c_auth c_endauth)),
       demoEnv SocketIn.noData,
       demoEnv (SocketIn.data (encryptData demoCipher [2] (List.replicate 16 9)
         (wrapCmd [1, 2, 3] c_rep c_endrep))),
       demoEnv SocketIn.noData]).map
      (fun d => (d._status, d._connected)) =
    [(s_connected, true), (s_svrSendAuthString, true), (s_svrWaitForResp, true),
      (s_svrSendAuthResp, true), (s_datarx, true), (s_hasdata, false), (s_hasdata, false)] := by
  decide

/-- C22, evaluated. An accepting side in `s_svrWaitForResp` holds the challenge of twelve
bytes 1. A single byte read makes the copy of the first 62 bytes run past the end of the
buffer. A well-formed message that echoes twelve bytes 0 instead is answered by
`disconnect`, and yet the call leaves the connection in `s_svrSendAuthResp`; the next call
runs the handler of that stage, hands the encrypted echo to `sendData` and moves on to
`s_datarx`. -/
theorem svrAuthRespProcess_wrong_echo :
    handleConnection demoCipher
        { demoAcceptor s_svrWaitForResp with authString := List.replicate 12 1 }
        (demoEnv (SocketIn.data [7])) = Outcome.undefined ∧
    handleConnection demoCipher
        { demoAcceptor s_svrWaitForResp with authString := List.replicate 12 1 }
        (demoEnv (SocketIn.data (encryptData demoCipher [2] (List.replicate 16 9)
          (wrapCmd (List.replicate 12 0) c_auth c_endauth) ++
          wrapCmd (List.replicate 12 5) c_auth c_endauth))) =
      Outcome.returned
        { demoAcceptor s_svrSendAuthResp with
          authString := List.replicate 12 1, recAuthString := List.replicate 12 5,
          _connected := false } [] ∧
    handleConnection demoCipher
        { demoAcceptor s_svrSendAuthResp with
          authString := List.replicate 12 1, recAuthString := List.replicate 12 5,
          _connected := false }
        (demoEnv SocketIn.noData) =
      Outcome.returned
        { demoAcceptor s_datarx with
          authString := List.replicate 12 1, recAuthString := List.replicate 12 5,
          _connected := false }
        [encryptData demoCipher [2] (List.replicate 16 9)
          (wrapCmd (List.replicate 12 5) c_auth c_endauth)] := by
  decide

/-- C23, evaluated. A connecting side in `s_cFinalCheck` holds the challenge of twelve
bytes 1 and the outbound frame `<REP>` 1 2 3 `</REP>`. It reads the envelope of
`<AUT>` followed by twelve bytes 0 and `</AUT>`: the call disconnects, and yet it leaves
the connection in `s_datatx`; the next call runs `transmitData`, which hands the encrypted
`<REP>` frame to `sendData`. -/
theorem finalAuthCheck_wrong_echo :
    handleConnection demoCipher
        { demoInitiator s_cFinalCheck with
          authString := List.replicate 12 1, _outputbuf := wrapCmd [1, 2, 3] c_rep c_endrep }
        (demoEnv (SocketIn.data (encryptData demoCipher [2] (List.replicate 16 9)
          (wrapCmd (List.replicate 12 0) c_auth c_endauth)))) =
      Outcome.returned
        { demoInitiator s_datatx with
          authString := List.replicate 12 1, _outputbuf := wrapCmd [1, 2, 3] c_rep c_endrep,
          _connected := false } [] ∧
    handleConnection demoCipher
        { demoInitiator s_datatx with
          authString := List.replicate 12 1, _outputbuf := wrapCmd [1, 2, 3] c_rep c_endrep,
          _connected := false }
        (demoEnv SocketIn.noData) =
      Outcome.returned
        { demoInitiator s_waitack with
          authString := List.replicate 12 1,
          _outputbuf := encryptData demoCipher [2] (List.replicate 16 9)
            (wrapCmd [1, 2, 3] c_rep c_endrep),
          _connected := false }
        [encryptData demoCipher [2] (List.replicate 16 9)
          (wrapCmd [1, 2, 3] c_rep c_endrep)] := by
  decide

/-- C30, evaluated. Under the key `[2]` of the stand-in cipher and an IV that ends in
`<AUT`, the connecting side answers the challenge of twelve bytes 1 with the message
IV ++ encrypt(`<AUT>`Cs`</AUT>`) ++ `<AUT>`Ci`</AUT>`, Ci being twelve bytes 5. The
accepting side that holds Cs accepts the echo and stays connected, removes only 12 bytes
from the front of the message, finds the first `<AUT>` in what is left of the envelope, and
stores 39 bytes as the received challenge: the ciphertext after its first byte, the clear
opening tag and Ci. The same message under an IV of sixteen bytes 9 leaves no tag in front
of the clear frame, and Ci is stored. -/
theorem svrAuthRespProcess_stores_envelope_bytes :
    handleConnection demoCipher (demoInitiator s_clientAuthResp)
        { input := SocketIn.data (wrapCmd (List.replicate 12 1) c_auth c_endauth),
          rand := fun _ => 5, init_vector := tagTailIV } =
      Outcome.returned
        { demoInitiator s_cFinalCheck with
          authString := List.replicate 12 5, recAuthString := List.replicate 12 1 }
        [encryptData demoCipher [2] tagTailIV (wrapCmd (List.replicate 12 1) c_auth c_endauth) ++
          wrapCmd (List.replicate 12 5) c_auth c_endauth] ∧
    handleConnection demoCipher
        { demoAcceptor s_svrWaitForResp with authString := List.replicate 12 1 }
        (demoEnv (SocketIn.data
          (encryptData demoCipher [2] tagTailIV
            (wrapCmd (List.replicate 12 1) c_auth c_endauth) ++
          wrapCmd (List.replicate 12 5) c_auth c_endauth))) =
      Outcome.returned
        { demoAcceptor s_svrSendAuthResp with
          authString := List.replicate 12 1,
          recAuthString :=
            (demoCipher.encipher [2] tagTailIV
              (wrapCmd (List.replicate 12 1) c_auth c_endauth)).drop 1 ++
            c_auth ++ List.replicate 12 5 } [] ∧
    ((demoCipher.encipher [2] tagTailIV
        (wrapCmd (List.replicate 12 1) c_auth c_endauth)).drop 1 ++
      c_auth ++ List.replicate 12 5).length = 39 ∧
    handleConnection demoCipher
        { demoAcceptor s_svrWaitForResp with authString := List.replicate 12 1 }
        (demoEnv (SocketIn.data
          (encryptData demoCipher [2] (List.replicate 16 9)
            (wrapCmd (List.replicate 12 1) c_auth c_endauth) ++
          wrapCmd (List.replicate 12 5) c_auth c_endauth))) =
      Outcome.returned
        { demoAcceptor s_svrSendAuthResp with
          authString := List.replicate 12 1, recAuthString := List.replicate 12 5 } [] := by
  decide

/-! ## Failing input on the connection -/

theorem decryptData_returned_ne_nil (cipher : Cipher) (aes_key buf plain : List Byte)
    (h : decryptData cipher aes_key buf = Outcome.returned plain ()) : buf.length ≠ 0 := by
  intro h0
  unfold decryptData at h
  rw [if_pos (by rw [h0]; decide)] at h
  exact Outcome.noConfusion h

/-- C31: an accepting side in `s_datarx` reads a buffer that `decryptData` turns into
bytes that do not contain both `<REP>` and `</REP>`: the call disconnects and sends
nothing; `_data_ready` and the stored `_inputbuf` are as before and the stage is still
`s_datarx`, not `s_hasdata`. -/
theorem waitForData_rejects (cipher : Cipher) (c : TCPConn) (env : Env)
    (buf plain : List Byte)
    (hst : c._status = s_datarx) (hin : env.input = SocketIn.data buf)
    (hdec : decryptData cipher c._aes_key buf = Outcome.returned plain ())
    (hmiss : ¬ c_rep <:+: plain ∨ ¬ c_endrep <:+: plain) :
    handleConnection cipher c env = Outcome.returned { c with _connected := false } [] ∧
    ({ c with _connected := false } : TCPConn)._data_ready = c._data_ready ∧
    ({ c with _connected := false } : TCPConn)._inputbuf = c._inputbuf ∧
    ({ c with _connected := false } : TCPConn)._status = s_datarx := by
  refine ⟨?_, rfl, rfl, hst⟩
  have hne := decryptData_returned_ne_nil cipher c._aes_key buf plain hdec
  have hget := (getCmdData_spec plain c_rep c_endrep (by decide) (by decide)).1.mpr hmiss
  unfold handleConnection dispatch
  rw [hst]
  simp only [waitForData, hin, SocketIn.hasData, if_true, getData, if_neg hne, andThen, hdec,
    onBuf, hget, Bool.not_false, disconnect]
  rw [hst]

/-- Witness for C31: the envelope of the three bytes 1 2 3, which hold no tag. -/
theorem waitForData_rejects_witness :
    handleConnection demoCipher (demoAcceptor s_datarx)
        (demoEnv (SocketIn.data (encryptData demoCipher [2] (List.replicate 16 9) [1, 2, 3]))) =
      Outcome.returned { demoAcceptor s_datarx with _connected := false } [] ∧
    ({ demoAcceptor s_datarx with _connected := false } : TCPConn)._data_ready =
      (demoAcceptor s_datarx)._data_ready ∧
    ({ demoAcceptor s_datarx with _connected := false } : TCPConn)._inputbuf =
      (demoAcceptor s_datarx)._inputbuf ∧
    ({ demoAcceptor s_datarx with _connected := false } : TCPConn)._status = s_datarx :=
  waitForData_rejects demoCipher (demoAcceptor s_datarx)
    (demoEnv (SocketIn.data (encryptData demoCipher [2] (List.replicate 16 9) [1, 2, 3])))
    (encryptData demoCipher [2] (List.replicate 16 9) [1, 2, 3]) [1, 2, 3] rfl rfl
    (by decide) (Or.inl ((findCmd_eq_length_iff c_rep (by decide) [1, 2, 3]).mp (by decide)))

/-- C32, evaluated. A connecting side in `s_clientAuthResp` reads the single byte 7, which
holds no `<AUT>` frame. `waitForAuthString` disconnects, and yet `clientAuthProcess` goes
on: it hands to `sendData` the envelope of the empty frame `<AUT></AUT>` followed by a
fresh clear challenge, and leaves the connection in `s_cFinalCheck`. -/
theorem clientAuthProcess_no_frame :
    getCmdData [7] c_auth c_endauth = Outcome.returned [7] false ∧
    handleConnection demoCipher (demoInitiator s_clientAuthResp) (demoEnv (SocketIn.data [7])) =
      Outcome.returned
        { demoInitiator s_cFinalCheck with
          _connected := false, authString := challenge (fun n => n + 61) }
        [encryptData demoCipher [2] (List.replicate 16 9) (wrapCmd [] c_auth c_endauth) ++
          wrapCmd (challenge (fun n => n + 61)) c_auth c_endauth] := by
  decide

/-- C37: for each tag pair (`<SID>`/`</SID>`, `<AUT>`/`</AUT>`, `<REP>`/`</REP>`) and
every payload `p` in which the closing tag does not occur, `getCmdData` applied to
`wrapCmd(p, open, close)` returns true and yields exactly `p`; the first occurrence of the
opening tag in the wrapped buffer is at its start and the first occurrence of the closing
tag is the appended one, right after `p`. -/
theorem tagged_payload_roundtrip (pr : List Byte × List Byte) (hpr : pr ∈ tagPairs)
    (p : List Byte) (hp : ¬ pr.2 <:+: p) :
    getCmdData (wrapCmd p pr.1 pr.2) pr.1 pr.2 = Outcome.returned p true ∧
    findCmd (wrapCmd p pr.1 pr.2) pr.1 = 0 ∧
    findCmd (wrapCmd p pr.1 pr.2) pr.2 = pr.1.length + p.length := by
  have hcases : (pr.1 ≠ [] ∧ pr.2 ≠ [] ∧
      (∀ rest, findCmd (pr.1 ++ rest) pr.2 = pr.1.length + findCmd rest pr.2)) ∧
      ∃ ch r, pr.2 = ch :: r ∧ ch ∉ r := by
    simp only [tagPairs, List.mem_cons, List.mem_singleton, List.not_mem_nil, or_false] at hpr
    rcases hpr with rfl | rfl | rfl
    · exact ⟨⟨by decide, by decide, skip_sid⟩, 60, [47, 83, 73, 68, 62], rfl, by decide⟩
    · exact ⟨⟨by decide, by decide, skip_auth⟩, 60, [47, 65, 85, 84, 62], rfl, by decide⟩
    · exact ⟨⟨by decide, by decide, skip_rep⟩, 60, [47, 82, 69, 80, 62], rfl, by decide⟩
  obtain ⟨⟨hs, he, hskip⟩, ch, r, hcr, hch⟩ := hcases
  have hfind : findCmd (p ++ pr.2) pr.2 = p.length := by
    rw [hcr] at hp ⊢
    exact findCmd_append_self_of_absent ch r hch p hp
  refine ⟨?_, ?_, ?_⟩
  · rw [getCmdData_wrapCmd_of_skip pr.1 pr.2 hs he hskip p, hfind, List.take_length]
  · unfold wrapCmd
    rw [List.append_assoc]
    exact findCmd_self_append pr.1 _ hs
  · unfold wrapCmd
    rw [List.append_assoc, hskip, hfind]

/-- Witness for C37: the pair `<REP>`/`</REP>` and the payload 1 2 3. -/
theorem tagged_payload_roundtrip_witness :
    getCmdData (wrapCmd [1, 2, 3] c_rep c_endrep) c_rep c_endrep =
      Outcome.returned [1, 2, 3] true ∧
    findCmd (wrapCmd [1, 2, 3] c_rep c_endrep) c_rep = 0 ∧
    findCmd (wrapCmd [1, 2, 3] c_rep c_endrep) c_endrep = c_rep.length + [1, 2, 3].length :=
  tagged_payload_roundtrip (c_rep, c_endrep) (by decide) [1, 2, 3]
    ((findCmd_eq_length_iff c_endrep (by decide) [1, 2, 3]).mp (by decide))

/-- C38, evaluated at the buffer `</SID><SID>`: both tags are found, so the test for a
missing tag lets the call through to the assignment that goes with returning true; the
range it assigns from starts at position 11, the end of the first `<SID>`, and ends at
position 0, the first `</SID>`, which is no range of the buffer. An accepting side in
`s_connected` that reads these bytes runs into it. -/
theorem getCmdData_range_not_checked :
    findCmd (c_endsid ++ c_sid) c_sid ≠ (c_endsid ++ c_sid).length ∧
    findCmd (c_endsid ++ c_sid) c_endsid ≠ (c_endsid ++ c_sid).length ∧
    findCmd (c_endsid ++ c_sid) c_sid + c_sid.length = 11 ∧
    findCmd (c_endsid ++ c_sid) c_endsid = 0 ∧
    getCmdData (c_endsid ++ c_sid) c_sid c_endsid = Outcome.undefined ∧
    handleConnection demoCipher (demoAcceptor s_connected)
      (demoEnv (SocketIn.data (c_endsid ++ c_sid))) = Outcome.undefined := by
  decide

/-- C40, evaluated. `decryptData` takes the first 16 bytes of a buffer of 3 bytes as the
IV and erases them, which runs past the end of the buffer; so do the calls of
`handleConnection` that decrypt what they read, in `s_datarx`, `s_waitack` and
`s_cFinalCheck`. In `s_svrWaitForResp` a buffer of 20 bytes is copied up to position 62.
None of these calls disconnects. -/
theorem short_buffer_read_past_end :
    decryptData demoCipher [2] [1, 2, 3] = Outcome.undefined ∧
    handleConnection demoCipher (demoAcceptor s_datarx) (demoEnv (SocketIn.data [1, 2, 3])) =
      Outcome.undefined ∧
    handleConnection demoCipher (demoInitiator s_waitack) (demoEnv (SocketIn.data [1, 2, 3])) =
      Outcome.undefined ∧
    handleConnection demoCipher (demoInitiator s_cFinalCheck)
      (demoEnv (SocketIn.data [1, 2, 3])) = Outcome.undefined ∧
    handleConnection demoCipher (demoAcceptor s_svrWaitForResp)
      (demoEnv (SocketIn.data (List.replicate 20 7))) = Outcome.undefined := by
  decide

end TCPConn

namespace ReplServer

/-! ## The largest timestamp of a cluster -/

theorem findLargestTime_foldl (db : List DronePlot) (l : List Nat) :
    ∀ a : Int,
      a ≤ l.foldl
        (fun largestTime k =>
          match getDBIterator db k with
          | some p => if largestTime < p.timestamp then p.timestamp else largestTime
          | none => largestTime) a ∧
      (∀ k ∈ l, ∀ p, getDBIterator db k = some p →
        p.timestamp ≤ l.foldl
          (fun largestTime k =>
            match getDBIterator db k with
            | some p => if largestTime < p.timestamp then p.timestamp else largestTime
            | none => largestTime) a) ∧
      (l.foldl
          (fun largestTime k =>
            match getDBIterator db k with
            | some p => if largestTime < p.timestamp then p.timestamp else largestTime
            | none => largestTime) a = a ∨
        ∃ k ∈ l, ∃ p, getDBIterator db k = some p ∧
          p.timestamp = l.foldl
            (fun largestTime k =>
              match getDBIterator db k with
              | some p => if largestTime < p.timestamp then p.timestamp else largestTime
              | none => largestTime) a) := by
  induction l with
  | nil =>
    intro a
    simp
  | cons k l ih =>
    intro a
    rw [List.foldl_cons]
    cases hk : getDBIterator db k with
    | none =>
      simp only
      obtain ⟨h1, h2, h3⟩ := ih a
      refine ⟨h1, ?_, ?_⟩
      · intro k' hk' p hp
        rcases List.mem_cons.mp hk' with rfl | hmem
        · rw [hk] at hp
          exact Option.noConfusion hp
        · exact h2 k' hmem p hp
      · rcases h3 with h | ⟨k', hk', p, hp, hpt⟩
        · exact Or.inl h
        · exact Or.inr ⟨k', List.mem_cons_of_mem _ hk', p, hp, hpt⟩
    | some q =>
      simp only
      by_cases hlt : a < q.timestamp
      · rw [if_pos hlt]
        obtain ⟨h1, h2, h3⟩ := ih q.timestamp
        refine ⟨le_trans (le_of_lt hlt) h1, ?_, ?_⟩
        · intro k' hk' p hp
          rcases List.mem_cons.mp hk' with rfl | hmem
          · rw [hk] at hp
            injection hp with hp
            rw [← hp]
            exact h1
          · exact h2 k' hmem p hp
        · rcases h3 with h | ⟨k', hk', p, hp, hpt⟩
          · exact Or.inr ⟨k, List.mem_cons_self _ _, q, hk, h.symm⟩
          · exact Or.inr ⟨k', List.mem_cons_of_mem _ hk', p, hp, hpt⟩
      · rw [if_neg hlt]
        obtain ⟨h1, h2, h3⟩ := ih a
        refine ⟨h1, ?_, ?_⟩
        · intro k' hk' p hp
          rcases List.mem_cons.mp hk' with rfl | hmem
          · rw [hk] at hp
            injection hp with hp
            rw [← hp]
            exact le_trans (not_lt.mp hlt) h1
          · exact h2 k' hmem p hp
        · rcases h3 with h | ⟨k', hk', p, hp, hpt⟩
          · exact Or.inl h
          · exact Or.inr ⟨k', List.mem_cons_of_mem _ hk', p, hp, hpt⟩

/-- The value of the loop of lines 288-297: it is not negative, no member's timestamp is
above it, and it is 0 or the timestamp of a member. -/
theorem findLargestTime_spec (db : List DronePlot) (duplicatePts : List Nat) :
    0 ≤ findLargestTime db duplicatePts ∧
    (∀ k ∈ duplicatePts, ∀ p, getDBIterator db k = some p →
      p.timestamp ≤ findLargestTime db duplicatePts) ∧
    (findLargestTime db duplicatePts = 0 ∨
      ∃ k ∈ duplicatePts, ∃ p, getDBIterator db k = some p ∧
        p.timestamp = findLargestTime db duplicatePts) :=
  findLargestTime_foldl db duplicatePts 0

set_option maxRecDepth 100000 in
/-- C33, evaluated. The loop of lines 288-297, commented as finding the largest timestamp
of the duplicate points, starts `largestTime` at 0. For the cluster formed of the two
records of `negativeStore`, with timestamps -5 and -3, it yields 0, which is no member's
timestamp and not their maximum -3, and the pass writes 0 into both records. -/
theorem findLargestTime_negative_cluster :
    formCluster (mkPlot 42 1 (-5) 10 20 0) 0 (sortByTime negativeStore) =
      ([0, 1],
        [{ mkPlot 42 1 (-5) 10 20 0 with checked := true },
         { mkPlot 42 2 (-3) 10 20 0 with checked := true }]) ∧
    findLargestTime
      [{ mkPlot 42 1 (-5) 10 20 0 with checked := true },
       { mkPlot 42 2 (-3) 10 20 0 with checked := true }] [0, 1] = 0 ∧
    (dbTimeSync2 (init negativeStore))._plotdb =
      [mkPlot 42 1 0 10 20 0, mkPlot 42 2 0 10 20 0] := by
  decide

/-! ## The markers between passes -/

theorem clearChecked_unchecked (db : List DronePlot) :
    ∀ p ∈ clearChecked db, p.checked = false := by
  intro p hp
  simp only [clearChecked, List.mem_map] at hp
  obtain ⟨q, _, rfl⟩ := hp
  rfl

theorem dbTimeSync2_unchecked (s : ReplServer) :
    ∀ p ∈ (dbTimeSync2 s)._plotdb, p.checked = false := by
  unfold dbTimeSync2
  exact clearChecked_unchecked _

theorem addReplLoop_unchecked (c : PlotCodec) (count : Nat) :
    ∀ (dptr : List Byte) (db db1 : List DronePlot), (∀ p ∈ db, p.checked = false) →
      addReplLoop c count dptr db = some db1 → ∀ p ∈ db1, p.checked = false := by
  induction count with
  | zero =>
    intro dptr db db1 h heq
    simp only [addReplLoop, Option.some.injEq] at heq
    rw [← heq]
    exact h
  | succ n ih =>
    intro dptr db db1 h heq
    unfold addReplLoop at heq
    split at heq
    · exact Option.noConfusion heq
    · refine ih _ _ db1 ?_ heq
      intro p hp
      simp only [addSingleDronePlot, addPlot, List.mem_append, List.mem_singleton] at hp
      rcases hp with hp | rfl
      · exact h p hp
      · rfl

theorem addReplDronePlots_unchecked (c : PlotCodec) (db db1 : List DronePlot)
    (data : List Byte) (u : Unit) (h : ∀ p ∈ db, p.checked = false)
    (heq : addReplDronePlots c db data = Outcome.returned db1 u) :
    ∀ p ∈ db1, p.checked = false := by
  unfold addReplDronePlots at heq
  split at heq
  · exact Outcome.noConfusion heq
  · split at heq
    · exact Outcome.noConfusion heq
    · cases hl : addReplLoop c (readCount data) (data.drop 4) db with
      | none =>
        rw [hl] at heq
        exact Outcome.noConfusion heq
      | some db2 =>
        rw [hl] at heq
        simp only [Outcome.returned.injEq] at heq
        rw [← heq.1]
        exact addReplLoop_unchecked c _ _ _ db2 h hl

/-- Every event that returns leaves a store without markers as one. -/
theorem applyEvent_unchecked (c : PlotCodec) (s s1 : ReplServer) (ev : StoreEvent)
    (h : ∀ p ∈ s._plotdb, p.checked = false)
    (heq : applyEvent c s ev = Outcome.returned s1 ()) :
    ∀ p ∈ s1._plotdb, p.checked = false := by
  cases ev with
  | inserted d n t la lo fl =>
    simp only [applyEvent, Outcome.returned.injEq, and_true] at heq
    rw [← heq]
    intro p hp
    simp only [List.mem_append, List.mem_singleton] at hp
    rcases hp with hp | rfl
    · exact h p hp
    · rfl
  | queued =>
    simp only [applyEvent, queueNewPlots_spec, Outcome.returned.injEq, and_true] at heq
    rw [← heq]
    intro p hp
    simp only [List.mem_map] at hp
    obtain ⟨q, hq, rfl⟩ := hp
    split
    · exact h q hq
    · exact h q hq
  | replicated data =>
    simp only [applyEvent] at heq
    cases hrr : addReplDronePlots c s._plotdb data with
    | returned db u =>
      rw [hrr] at heq
      simp only [Outcome.returned.injEq, and_true] at heq
      rw [← heq]
      exact addReplDronePlots_unchecked c s._plotdb db data u h hrr
    | threw db w =>
      rw [hrr] at heq
      exact Outcome.noConfusion heq
    | undefined =>
      rw [hrr] at heq
      exact Outcome.noConfusion heq
  | synced =>
    simp only [applyEvent, Outcome.returned.injEq, and_true] at heq
    rw [← heq]
    exact dbTimeSync2_unchecked s

theorem runEvents_unchecked (c : PlotCodec) (events : List StoreEvent) :
    ∀ s : ReplServer, (∀ p ∈ s._plotdb, p.checked = false) →
      ∀ t ∈ runEvents c s events, ∀ p ∈ t._plotdb, p.checked = false := by
  induction events with
  | nil =>
    intro s h t ht
    simp only [runEvents, List.mem_singleton] at ht
    rw [ht]
    exact h
  | cons ev evs ih =>
    intro s h t ht
    unfold runEvents at ht
    cases hr : applyEvent c s ev with
    | returned s1 u =>
      rw [hr] at ht
      simp only [List.mem_cons] at ht
      rcases ht with rfl | ht
      · exact h
      · exact ih s1 (applyEvent_unchecked c s s1 ev h hr) t ht
    | threw s1 w =>
      rw [hr] at ht
      simp only [List.mem_singleton] at ht
      rw [ht]
      exact h
    | undefined =>
      rw [hr] at ht
      simp only [List.mem_singleton] at ht
      rw [ht]
      exact h

/-- C36: after every `dbTimeSync2` pass, whatever the store and its markers were, every
record of the store has its `checked` marker false; and along every run of the engine
from the empty store, in which plots are inserted without marker, queued, installed from
peers and synchronised in any order, every state, and so the store that each pass begins
with, has all markers false. -/
theorem dbTimeSync2_clears_checked (c : PlotCodec) (s : ReplServer)
    (events : List StoreEvent) :
    (∀ p ∈ (dbTimeSync2 s)._plotdb, p.checked = false) ∧
    (∀ t ∈ runEvents c (init []) events, ∀ p ∈ t._plotdb, p.checked = false) :=
  ⟨dbTimeSync2_unchecked s,
   runEvents_unchecked c events (init []) (fun _ hp => absurd hp (List.not_mem_nil _))⟩

/-! ## The latch and the start time -/

theorem foldl_preserves {α β : Type} (P : β → Prop) (f : β → α → β)
    (hf : ∀ b a, P b → P (f b a)) (l : List α) : ∀ b, P b → P (l.foldl f b) := by
  induction l with
  | nil => exact fun b hb => hb
  | cons a l ih => exact fun b hb => ih (f b a) (hf b a hb)

theorem startTimeLatched_of_fields {s t : ReplServer}
    (h₁ : t.masterStartTime = s.masterStartTime) (h₂ : t.startTimeWasSet = s.startTimeWasSet)
    (h : StartTimeLatched s) : StartTimeLatched t := by
  unfold StartTimeLatched at h ⊢
  rw [h₁, h₂]
  exact h

theorem setStartTimeErrorCheckFlag_latched (s : ReplServer) (nodeId : Nat)
    (h : StartTimeLatched s) : StartTimeLatched (setStartTimeErrorCheckFlag s nodeId) := by
  unfold setStartTimeErrorCheckFlag
  split <;> exact startTimeLatched_of_fields rfl rfl h

theorem disqualifySmaller_latched (largestTime : Int) (duplicatePts : List Nat)
    (s : ReplServer) (h : StartTimeLatched s) :
    StartTimeLatched (disqualifySmaller largestTime duplicatePts s) := by
  unfold disqualifySmaller
  refine foldl_preserves StartTimeLatched _ ?_ duplicatePts s h
  intro s k hs
  split
  · split
    · exact setStartTimeErrorCheckFlag_latched s _ hs
    · exact hs
  · exact hs

theorem electMasterClock_latched (duplicatePts : List Nat) (s : ReplServer)
    (h : StartTimeLatched s) : StartTimeLatched (electMasterClock duplicatePts s) := by
  unfold electMasterClock
  refine foldl_preserves StartTimeLatched _ ?_ duplicatePts s h
  intro s k hs
  split
  · next p _ =>
    split
    · simp only
      split
      · next hlt =>
        unfold StartTimeLatched at hs ⊢
        simp only [true_iff]
        omega
      · exact hs
    · exact hs
  · exact hs

theorem syncStep_latched (refTimeSet : Bool) (st : ReplServer × Int) (i : Nat)
    (h : StartTimeLatched st.1) : StartTimeLatched (syncStep refTimeSet st i).1 := by
  unfold syncStep
  split
  · exact h
  · split
    · exact h
    · split
      · exact h
      · simp only
        refine startTimeLatched_of_fields rfl rfl ?_
        apply electMasterClock_latched
        apply disqualifySmaller_latched
        exact startTimeLatched_of_fields rfl rfl h

theorem dbTimeSync2_latched (s : ReplServer) (h : StartTimeLatched s) :
    StartTimeLatched (dbTimeSync2 s) := by
  unfold dbTimeSync2
  simp only
  refine startTimeLatched_of_fields rfl rfl ?_
  refine foldl_preserves (fun st : ReplServer × Int => StartTimeLatched st.1) _ ?_ _ _ ?_
  · intro st i hst
    exact syncStep_latched _ st i hst
  · exact startTimeLatched_of_fields rfl rfl h

/-- C39: from the initial engine state (start time 0, latch not set), after any sequence
of `dbTimeSync2` passes over any stores, `startTimeWasSet` is true exactly when
`masterStartTime` is positive, and `masterStartTime` lies between 0 and 8. -/
theorem runPasses_latch_iff_positive (db : List DronePlot) (stores : List (List DronePlot)) :
    ((runPasses (init db) stores).startTimeWasSet = true ↔
      0 < (runPasses (init db) stores).masterStartTime) ∧
    0 ≤ (runPasses (init db) stores).masterStartTime ∧
    (runPasses (init db) stores).masterStartTime ≤ 8 := by
  have hl : StartTimeLatched (runPasses (init db) stores) := by
    unfold runPasses
    refine foldl_preserves StartTimeLatched _ ?_ stores (init db) ?_
    · intro s d hs
      exact dbTimeSync2_latched _ (startTimeLatched_of_fields rfl rfl hs)
    · unfold StartTimeLatched init
      simp
  have he := (runPasses_evolves stores (init db)).start_bound
  have h0 : (init db).masterStartTime = 0 := rfl
  rw [h0] at he
  exact ⟨hl.1, hl.2, by simpa using he⟩

/-! ## The reference time along a pass -/

theorem collectStep_members_lt (it : DronePlot) (acc : List Nat × List DronePlot) (j : Nat)
    (h : ∀ k ∈ acc.1, k < acc.2.length) :
    ∀ k ∈ (collectStep it acc j).1, k < (collectStep it acc j).2.length := by
  unfold collectStep
  split
  · next it2 hj =>
    split
    · intro k hk
      simp only [List.length_set]
      simp only [List.mem_append, List.mem_singleton] at hk
      rcases hk with hk | rfl
      · exact h k hk
      · exact (List.getElem?_eq_some.mp hj).1
    · exact h
  · exact h

theorem formCluster_members_lt (it : DronePlot) (i : Nat) (db : List DronePlot)
    (hi : i < db.length) :
    ∀ k ∈ (formCluster it i db).1, k < (formCluster it i db).2.length := by
  unfold formCluster collectDuplicates
  refine foldl_preserves
    (fun acc : List Nat × List DronePlot => ∀ k ∈ acc.1, k < acc.2.length) _ ?_ _ _ ?_
  · intro acc j hacc
    exact collectStep_members_lt _ acc j hacc
  · intro k hk
    simp only [List.mem_singleton] at hk
    rw [hk, List.length_set]
    exact hi

/-- The members of the cluster of an anchor after its step of the outer loop: each holds
the timestamp that the adjustment against the reference time yields. -/
theorem syncStep_members (refTimeSet : Bool) (st : ReplServer × Int) (i : Nat)
    (it : DronePlot) (hit : getDBIterator st.1._plotdb i = some it)
    (hnew : it.isFlagSet DBFLAG_NEW = false) (hchk : it.checked = false)
    (D : List Nat) (db : List DronePlot) (hD : formCluster it i st.1._plotdb = (D, db)) :
    (syncStep refTimeSet st i).2 =
      (adjustToReference refTimeSet (findLargestTime db D) st.2).2 + 5 ∧
    ∀ k ∈ D, ∃ p, getDBIterator (syncStep refTimeSet st i).1._plotdb k = some p ∧
      p.timestamp = (adjustToReference refTimeSet (findLargestTime db D) st.2).1 := by
  obtain ⟨hdb, href⟩ := syncStep_anchor refTimeSet st i it hit hnew hchk
  have hi : i < st.1._plotdb.length := (List.getElem?_eq_some.mp hit).1
  have hlt := formCluster_members_lt it i st.1._plotdb hi
  rw [hD] at hdb href hlt
  simp only at hdb href hlt
  refine ⟨href, ?_⟩
  intro k hk
  rw [hdb]
  exact (assignTimestamps_spec _ D db).2.2 k hk (hlt k hk)

/-- C35: a `dbTimeSync2` pass is the loop of `syncStep` with `refTimeSet` fixed to
`startTimeWasSet` as it is when the pass begins and the reference time started at
`masterStartTime` as it is then (at 0 when the start time is not set). For each cluster
with largest timestamp L and current reference R, when `refTimeSet` is true: if
L > R + 13 the members are assigned L and the reference becomes R + 11, otherwise the
members are assigned R and the reference becomes R + 5. When `refTimeSet` is false the
members are assigned L, whatever happens to `startTimeWasSet` during the pass. -/
theorem syncStep_reference_rule (s : ReplServer) (refTimeSet : Bool) (st : ReplServer × Int)
    (i : Nat) (it : DronePlot) (hit : getDBIterator st.1._plotdb i = some it)
    (hnew : it.isFlagSet DBFLAG_NEW = false) (hchk : it.checked = false)
    (D : List Nat) (db : List DronePlot) (L : Int)
    (hD : formCluster it i st.1._plotdb = (D, db)) (hL : findLargestTime db D = L) :
    dbTimeSync2 s =
      { ((List.range (sortByTime s._plotdb).length).foldl (syncStep s.startTimeWasSet)
          ({ s with _plotdb := sortByTime s._plotdb },
            if s.startTimeWasSet then s.masterStartTime else 0)).1 with
        _plotdb := clearChecked
          ((List.range (sortByTime s._plotdb).length).foldl (syncStep s.startTimeWasSet)
            ({ s with _plotdb := sortByTime s._plotdb },
              if s.startTimeWasSet then s.masterStartTime else 0)).1._plotdb } ∧
    (refTimeSet = true → L > st.2 + 13 →
      (syncStep refTimeSet st i).2 = st.2 + 11 ∧
      ∀ k ∈ D, ∃ p, getDBIterator (syncStep refTimeSet st i).1._plotdb k = some p ∧
        p.timestamp = L) ∧
    (refTimeSet = true → ¬ L > st.2 + 13 →
      (syncStep refTimeSet st i).2 = st.2 + 5 ∧
      ∀ k ∈ D, ∃ p, getDBIterator (syncStep refTimeSet st i).1._plotdb k = some p ∧
        p.timestamp = st.2) ∧
    (refTimeSet = false →
      ∀ k ∈ D, ∃ p, getDBIterator (syncStep refTimeSet st i).1._plotdb k = some p ∧
        p.timestamp = L) := by
  obtain ⟨href, hmem⟩ := syncStep_members refTimeSet st i it hit hnew hchk D db hD
  rw [hL] at href hmem
  refine ⟨rfl, ?_, ?_, ?_⟩
  · intro hr hgt
    have hadj : adjustToReference refTimeSet L st.2 = (L, st.2 + 6) := by
      unfold adjustToReference
      rw [if_pos hr, if_pos hgt]
    rw [hadj] at href hmem
    exact ⟨by rw [href]; omega, hmem⟩
  · intro hr hgt
    have hadj : (adjustToReference refTimeSet L st.2).1 = st.2 ∧
        (adjustToReference refTimeSet L st.2).2 = st.2 := by
      unfold adjustToReference
      rw [if_pos hr, if_neg hgt]
      by_cases hne : L = st.2
      · simp [hne]
      · simp [hne]
    rw [hadj.1] at hmem
    rw [hadj.2] at href
    exact ⟨href, hmem⟩
  · intro hr
    have hadj : adjustToReference refTimeSet L st.2 = (L, st.2) := by
      unfold adjustToReference
      rw [hr]
      rfl
    rw [hadj] at hmem
    exact hmem

set_option maxRecDepth 100000 in
/-- Witness for C35 on the cluster of the three records of the sorted `threeNodeStore`,
whose largest timestamp is 1007: with the reference at 5 the members are assigned 1007 and
the reference becomes 16; with the reference at 1000 they are assigned 1000 and the
reference becomes 1005; with no reference they are assigned 1007. -/
theorem syncStep_reference_rule_witness :
    ((syncStep true (latchedEngine, 5) 0).2 = 5 + 11 ∧
      ∀ k ∈ [0, 1, 2], ∃ p,
        getDBIterator (syncStep true (latchedEngine, 5) 0).1._plotdb k = some p ∧
        p.timestamp = 1007) ∧
    ((syncStep true (latchedEngine, 1000) 0).2 = 1000 + 5 ∧
      ∀ k ∈ [0, 1, 2], ∃ p,
        getDBIterator (syncStep true (latchedEngine, 1000) 0).1._plotdb k = some p ∧
        p.timestamp = 1000) ∧
    (∀ k ∈ [0, 1, 2], ∃ p,
      getDBIterator (syncStep false (init (sortByTime threeNodeStore), 0) 0).1._plotdb k =
        some p ∧
      p.timestamp = 1007) :=
  ⟨(syncStep_reference_rule latchedEngine true (latchedEngine, 5) 0
      (mkPlot 42 2 1003 10 20 0) (by decide) (by decide) rfl [0, 1, 2] markedThreeNodeStore
      1007 (by decide) (by decide)).2.1 rfl (by decide),
   (syncStep_reference_rule latchedEngine true (latchedEngine, 1000) 0
      (mkPlot 42 2 1003 10 20 0) (by decide) (by decide) rfl [0, 1, 2] markedThreeNodeStore
      1007 (by decide) (by decide)).2.2.1 rfl (by decide),
   (syncStep_reference_rule (init threeNodeStore) false
      (init (sortByTime threeNodeStore), 0) 0
      (mkPlot 42 2 1003 10 20 0) (by decide) (by decide) rfl [0, 1, 2] markedThreeNodeStore
      1007 (by decide) (by decide)).2.2.2 rfl⟩

/-! ## The election on one cluster -/

theorem floor_to_epoch_eq (t : Int) : floor_to_epoch t = checkStartTimeRef t := by
  suffices h : ∀ n : Nat, ∀ t : Int, (t - 8).toNat = n →
      floor_to_epoch t = checkStartTimeRef t from h _ t rfl
  intro n
  induction n using Nat.strong_induction_on with
  | _ n ih =>
    intro t ht
    rw [floor_to_epoch, checkStartTimeRef_unfold]
    by_cases h8 : t > 8
    · rw [if_pos h8, if_pos h8]
      exact ih (t - 5 - 8).toNat (by omega) (t - 5) rfl
    · rw [if_neg h8, if_neg h8]

theorem startTimeCalcErrorCheck_false_of_evolves {s t : ReplServer} (h : Evolves s t)
    (n : Nat) (hn : startTimeCalcErrorCheck s n = false) :
    startTimeCalcErrorCheck t n = false := by
  unfold startTimeCalcErrorCheck at hn ⊢
  split at hn
  · exact h.flag1 hn
  · exact h.flag2 hn
  · exact h.flag3 hn

theorem startTimeCalcErrorCheck_setStartTimeErrorCheckFlag (s : ReplServer) (n : Nat) :
    startTimeCalcErrorCheck (setStartTimeErrorCheckFlag s n) n = false := by
  by_cases h1 : n = 1
  · subst h1
    rfl
  · by_cases h2 : n = 2
    · subst h2
      rfl
    · rw [startTimeCalcErrorCheck_other _ n h1 h2]
      unfold setStartTimeErrorCheckFlag
      split
      · exact absurd rfl h1
      · exact absurd rfl h2
      · rfl

/-- After the loop of lines 299-306, the node of every member whose timestamp is not the
largest has lost its candidacy. -/
theorem disqualifySmaller_marks (largestTime : Int) (duplicatePts : List Nat) :
    ∀ s : ReplServer, ∀ k ∈ duplicatePts, ∀ p, getDBIterator s._plotdb k = some p →
      p.timestamp ≠ largestTime →
      startTimeCalcErrorCheck (disqualifySmaller largestTime duplicatePts s) p.node_id =
        false := by
  induction duplicatePts with
  | nil =>
    intro s k hk
    exact absurd hk (List.not_mem_nil _)
  | cons k₀ l ih =>
    intro s k hk p hp hne
    have hunf : disqualifySmaller largestTime (k₀ :: l) s =
        disqualifySmaller largestTime l (disqualifySmaller largestTime [k₀] s) := rfl
    have hdb : (disqualifySmaller largestTime [k₀] s)._plotdb = s._plotdb :=
      disqualifySmaller_plotdb largestTime [k₀] s
    rw [hunf]
    rcases List.mem_cons.mp hk with rfl | hmem
    · have hone : startTimeCalcErrorCheck (disqualifySmaller largestTime [k] s) p.node_id =
          false := by
        simp only [disqualifySmaller, List.foldl_cons, List.foldl_nil, hp]
        have hb : (largestTime != p.timestamp) = true := by
          rw [bne_iff_ne]
          exact fun h => hne h.symm
        rw [if_pos hb]
        exact startTimeCalcErrorCheck_setStartTimeErrorCheckFlag s p.node_id
      exact startTimeCalcErrorCheck_false_of_evolves
        (disqualifySmaller_evolves largestTime l _) _ hone
    · exact ih _ k hmem p (by rw [hdb]; exact hp) hne

theorem electMasterClock_flags (duplicatePts : List Nat) (s : ReplServer) :
    (electMasterClock duplicatePts s).node1StartTimeFlag = s.node1StartTimeFlag ∧
    (electMasterClock duplicatePts s).node2StartTimeFlag = s.node2StartTimeFlag ∧
    (electMasterClock duplicatePts s).node3StartTimeFlag = s.node3StartTimeFlag := by
  unfold electMasterClock
  refine foldl_preserves
    (fun t : ReplServer => t.node1StartTimeFlag = s.node1StartTimeFlag ∧
      t.node2StartTimeFlag = s.node2StartTimeFlag ∧
      t.node3StartTimeFlag = s.node3StartTimeFlag) _ ?_ duplicatePts s ⟨rfl, rfl, rfl⟩
  intro t k ht
  split
  · split
    · simp only
      split
      · exact ht
      · exact ht
    · exact ht
  · exact ht

theorem startTimeCalcErrorCheck_congr {s t : ReplServer}
    (h : t.node1StartTimeFlag = s.node1StartTimeFlag ∧
      t.node2StartTimeFlag = s.node2StartTimeFlag ∧
      t.node3StartTimeFlag = s.node3StartTimeFlag) (n : Nat) :
    startTimeCalcErrorCheck t n = startTimeCalcErrorCheck s n := by
  unfold startTimeCalcErrorCheck
  rw [h.1, h.2.1, h.2.2]

theorem hasCandidate_congr {s t : ReplServer} (hdb : t._plotdb = s._plotdb)
    (h : t.node1StartTimeFlag = s.node1StartTimeFlag ∧
      t.node2StartTimeFlag = s.node2StartTimeFlag ∧
      t.node3StartTimeFlag = s.node3StartTimeFlag) (l : List Nat) :
    hasCandidate t l = hasCandidate s l := by
  unfold hasCandidate
  rw [hdb]
  congr 1
  funext k
  split
  · exact startTimeCalcErrorCheck_congr h _
  · rfl

/-- The loop of lines 308-320 on a cluster in which every member whose node is a
candidate has the timestamp `L`: the start time becomes the larger of what it was and the
normalisation of `L` when some member's node is a candidate, and stays as it was
otherwise; when it has changed, the clock node is the node of a member with timestamp
`L`. -/
theorem electMasterClock_spec (L : Int) (duplicatePts : List Nat) :
    ∀ s : ReplServer,
      (∀ k ∈ duplicatePts, ∀ p, getDBIterator s._plotdb k = some p →
        startTimeCalcErrorCheck s p.node_id = true → p.timestamp = L) →
      (electMasterClock duplicatePts s).masterStartTime =
        (if hasCandidate s duplicatePts then max s.masterStartTime (checkStartTimeRef L)
         else s.masterStartTime) ∧
      ((electMasterClock duplicatePts s).masterStartTime ≠ s.masterStartTime →
        ∃ k ∈ duplicatePts, ∃ p, getDBIterator s._plotdb k = some p ∧ p.timestamp = L ∧
          (electMasterClock duplicatePts s).masterClockNode = p.node_id) := by
  induction duplicatePts with
  | nil =>
    intro s _
    exact ⟨rfl, fun h => absurd rfl h⟩
  | cons k l ih =>
    intro s hL
    have hdb : (electMasterClock [k] s)._plotdb = s._plotdb := electMasterClock_plotdb [k] s
    have hfl := electMasterClock_flags [k] s
    have hcand : hasCandidate (electMasterClock [k] s) l = hasCandidate s l :=
      hasCandidate_congr hdb hfl l
    have hL' : ∀ k' ∈ l, ∀ p, getDBIterator (electMasterClock [k] s)._plotdb k' = some p →
        startTimeCalcErrorCheck (electMasterClock [k] s) p.node_id = true →
        p.timestamp = L := by
      intro k' hk' p hp hc
      rw [hdb] at hp
      rw [startTimeCalcErrorCheck_congr hfl] at hc
      exact hL k' (List.mem_cons_of_mem _ hk') p hp hc
    obtain ⟨ih1, ih2⟩ := ih (electMasterClock [k] s) hL'
    have hev := electMasterClock_evolves l (electMasterClock [k] s)
    rw [hcand] at ih1
    rw [hdb] at ih2
    have hany : hasCandidate s (k :: l) =
        ((match getDBIterator s._plotdb k with
          | some p => startTimeCalcErrorCheck s p.node_id
          | none => false) || hasCandidate s l) := by
      unfold hasCandidate
      rw [List.any_cons]
    have hstep :
        ((match getDBIterator s._plotdb k with
          | some p => startTimeCalcErrorCheck s p.node_id
          | none => false) = false ∧ electMasterClock [k] s = s) ∨
        ((match getDBIterator s._plotdb k with
          | some p => startTimeCalcErrorCheck s p.node_id
          | none => false) = true ∧
          ∃ q, getDBIterator s._plotdb k = some q ∧ q.timestamp = L ∧
            ((¬ s.masterStartTime < checkStartTimeRef L ∧ electMasterClock [k] s = s) ∨
             (s.masterStartTime < checkStartTimeRef L ∧
              (electMasterClock [k] s).masterStartTime = checkStartTimeRef L ∧
              (electMasterClock [k] s).masterClockNode = q.node_id))) := by
      cases hk : getDBIterator s._plotdb k with
      | none =>
        left
        simp only [electMasterClock, List.foldl_cons, List.foldl_nil, hk, and_self]
      | some q =>
        by_cases hc : startTimeCalcErrorCheck s q.node_id = true
        · right
          have hq : q.timestamp = L := hL k (List.mem_cons_self _ _) q hk hc
          refine ⟨hc, q, rfl, hq, ?_⟩
          by_cases hlt : s.masterStartTime < checkStartTimeRef L
          · right
            simp only [electMasterClock, List.foldl_cons, List.foldl_nil, hk, hc, if_true, hq,
              hlt, and_self]
          · left
            simp only [electMasterClock, List.foldl_cons, List.foldl_nil, hk, hc, if_true, hq,
              hlt, if_false, not_false_eq_true, and_self]
        · left
          have hcf : startTimeCalcErrorCheck s q.node_id = false := by
            simpa using hc
          simp only [electMasterClock, List.foldl_cons, List.foldl_nil, hk, hcf,
            Bool.false_eq_true, if_false, and_self]
    have hunf : electMasterClock (k :: l) s = electMasterClock l (electMasterClock [k] s) :=
      rfl
    obtain ⟨E, hE⟩ : ∃ E, electMasterClock l (electMasterClock [k] s) = E := ⟨_, rfl⟩
    rw [hE] at ih1 ih2 hev
    rw [hunf, hE, hany]
    rcases hstep with ⟨hcv, hs⟩ | ⟨hcv, q, hk, hq, ⟨hlt, hs⟩ | ⟨hlt, hm, hcl⟩⟩
    · rw [hs] at ih1 ih2
      rw [hcv, Bool.false_or]
      refine ⟨ih1, ?_⟩
      intro hne
      obtain ⟨k', hk', p, hp, hpt, hcl⟩ := ih2 hne
      exact ⟨k', List.mem_cons_of_mem _ hk', p, hp, hpt, hcl⟩
    · rw [hs] at ih1 ih2
      rw [hcv, Bool.true_or, if_pos rfl]
      have hmax : max s.masterStartTime (checkStartTimeRef L) = s.masterStartTime :=
        max_eq_left (not_lt.mp hlt)
      have hEm : E.masterStartTime = s.masterStartTime := by
        rw [ih1]
        split
        · exact hmax
        · rfl
      refine ⟨by rw [hEm, hmax], ?_⟩
      intro hne
      exact absurd hEm hne
    · rw [hcv, Bool.true_or, if_pos rfl]
      have hmax : max s.masterStartTime (checkStartTimeRef L) = checkStartTimeRef L :=
        max_eq_right (le_of_lt hlt)
      have hEm : E.masterStartTime = checkStartTimeRef L := by
        rw [ih1, hm]
        split
        · exact max_self _
        · rfl
      refine ⟨by rw [hEm, hmax], ?_⟩
      intro _
      have hclock : E.masterClockNode = (electMasterClock [k] s).masterClockNode := by
        by_contra hne
        have := hev.clock_change hne
        omega
      exact ⟨k, List.mem_cons_self _ _, q, hk, hq, by rw [hclock, hcl]⟩

theorem syncStep_election_state (refTimeSet : Bool) (st : ReplServer × Int) (i : Nat)
    (it : DronePlot) (hit : getDBIterator st.1._plotdb i = some it)
    (hnew : it.isFlagSet DBFLAG_NEW = false) (hchk : it.checked = false)
    (D : List Nat) (db : List DronePlot) (hD : formCluster it i st.1._plotdb = (D, db)) :
    (syncStep refTimeSet st i).1.masterStartTime =
      (electMasterClock D
        (disqualifySmaller (findLargestTime db D) D
          { st.1 with _plotdb := db })).masterStartTime ∧
    (syncStep refTimeSet st i).1.masterClockNode =
      (electMasterClock D
        (disqualifySmaller (findLargestTime db D) D
          { st.1 with _plotdb := db })).masterClockNode := by
  unfold syncStep
  rw [hit]
  simp only [hnew, hchk, Bool.false_eq_true, if_false, hD]
  constructor <;> first | rfl | trivial

/-- C34: when `dbTimeSync2` processes the cluster `D` of an anchor, with largest timestamp
`L` (which the code never takes below 0) and with `s2` the state after the
disqualification step: after the election step the start time is the larger of the
previous start time and the spec's `floor_to_epoch(L)` if at least one member's node is a
candidate in `s2`, and the previous start time otherwise; whenever it has changed, the
clock node is the node of a member whose timestamp is `L`. Every member whose node is a
candidate in `s2` has the timestamp `L`, and `checkStartTimeRef` computes
`floor_to_epoch`, so normalising the member's own timestamp is normalising `L`. -/
theorem syncStep_election (refTimeSet : Bool) (st : ReplServer × Int) (i : Nat)
    (it : DronePlot) (hit : getDBIterator st.1._plotdb i = some it)
    (hnew : it.isFlagSet DBFLAG_NEW = false) (hchk : it.checked = false)
    (D : List Nat) (db : List DronePlot) (L : Int) (s2 : ReplServer)
    (hD : formCluster it i st.1._plotdb = (D, db)) (hL : findLargestTime db D = L)
    (hs2 : disqualifySmaller L D { st.1 with _plotdb := db } = s2) :
    0 ≤ L ∧
    (syncStep refTimeSet st i).1.masterStartTime =
      (if hasCandidate s2 D then max st.1.masterStartTime (floor_to_epoch L)
       else st.1.masterStartTime) ∧
    ((syncStep refTimeSet st i).1.masterStartTime ≠ st.1.masterStartTime →
      ∃ k ∈ D, ∃ p, getDBIterator db k = some p ∧ p.timestamp = L ∧
        (syncStep refTimeSet st i).1.masterClockNode = p.node_id) ∧
    (∀ k ∈ D, ∀ p, getDBIterator db k = some p →
      startTimeCalcErrorCheck s2 p.node_id = true →
      p.timestamp = L ∧ checkStartTimeRef p.timestamp = floor_to_epoch L) := by
  obtain ⟨hmst, hclk⟩ := syncStep_election_state refTimeSet st i it hit hnew hchk D db hD
  rw [hL, hs2] at hmst hclk
  have hdb2 : s2._plotdb = db := by
    rw [← hs2, disqualifySmaller_plotdb]
  have hm2 : s2.masterStartTime = st.1.masterStartTime := by
    rw [← hs2]
    unfold disqualifySmaller
    refine foldl_preserves
      (fun t : ReplServer => t.masterStartTime = st.1.masterStartTime) _ ?_ D _ rfl
    intro t k ht
    split
    · split
      · unfold setStartTimeErrorCheckFlag
        split <;> exact ht
      · exact ht
    · exact ht
  have hmarks : ∀ k ∈ D, ∀ p, getDBIterator s2._plotdb k = some p →
      startTimeCalcErrorCheck s2 p.node_id = true → p.timestamp = L := by
    intro k hk p hp hc
    by_contra hne
    rw [hdb2] at hp
    have hfalse := disqualifySmaller_marks L D { st.1 with _plotdb := db } k hk p hp hne
    rw [hs2, hc] at hfalse
    exact Bool.noConfusion hfalse
  obtain ⟨e1, e2⟩ := electMasterClock_spec L D s2 hmarks
  rw [hm2] at e1
  rw [hm2, hdb2] at e2
  rw [← hmst] at e1 e2
  rw [← hclk] at e2
  refine ⟨?_, ?_, e2, ?_⟩
  · rw [← hL]
    exact (findLargestTime_spec db D).1
  · rw [floor_to_epoch_eq]
    exact e1
  · intro k hk p hp hc
    have hpt := hmarks k hk p (by rw [hdb2]; exact hp) hc
    exact ⟨hpt, by rw [hpt, floor_to_epoch_eq]⟩

set_option maxRecDepth 100000 in
/-- Witness for C34: the first step of the outer loop over the sorted `threeNodeStore`
from the initial engine state. The cluster is all three records, its largest timestamp
is 1007, and after the disqualification only node 3 is a candidate. -/
theorem syncStep_election_witness :
    (0 : Int) ≤ 1007 ∧
    (syncStep false (init (sortByTime threeNodeStore), 0) 0).1.masterStartTime =
      (if hasCandidate
          (disqualifySmaller 1007 [0, 1, 2]
            { init (sortByTime threeNodeStore) with _plotdb := markedThreeNodeStore })
          [0, 1, 2]
       then max (init (sortByTime threeNodeStore)).masterStartTime (floor_to_epoch 1007)
       else (init (sortByTime threeNodeStore)).masterStartTime) ∧
    ((syncStep false (init (sortByTime threeNodeStore), 0) 0).1.masterStartTime ≠
        (init (sortByTime threeNodeStore)).masterStartTime →
      ∃ k ∈ [0, 1, 2], ∃ p, getDBIterator markedThreeNodeStore k = some p ∧
        p.timestamp = 1007 ∧
        (syncStep false (init (sortByTime threeNodeStore), 0) 0).1.masterClockNode =
          p.node_id) ∧
    (∀ k ∈ [0, 1, 2], ∀ p, getDBIterator markedThreeNodeStore k = some p →
      startTimeCalcErrorCheck
        (disqualifySmaller 1007 [0, 1, 2]
          { init (sortByTime threeNodeStore) with _plotdb := markedThreeNodeStore })
        p.node_id = true →
      p.timestamp = 1007 ∧ checkStartTimeRef p.timestamp = floor_to_epoch 1007) :=
  syncStep_election false (init (sortByTime threeNodeStore), 0) 0
    (mkPlot 42 2 1003 10 20 0) (by decide) (by decide) rfl [0, 1, 2] markedThreeNodeStore
    1007
    (disqualifySmaller 1007 [0, 1, 2]
      { init (sortByTime threeNodeStore) with _plotdb := markedThreeNodeStore })
    (by decide) (by decide) rfl

/-! ## A pass over a settled store -/

theorem mem_of_clearChecked_eq {a b : List DronePlot} (h : clearChecked a = clearChecked b)
    {p : DronePlot} (hp : p ∈ a) : ∃ q ∈ b, ∃ c : Bool, p = { q with checked := c } := by
  have hm : ({ p with checked := false } : DronePlot) ∈ clearChecked a := by
    unfold clearChecked
    exact List.mem_map.mpr ⟨p, hp, rfl⟩
  rw [h] at hm
  unfold clearChecked at hm
  obtain ⟨q, hq, hqe⟩ := List.mem_map.mp hm
  refine ⟨q, hq, p.checked, ?_⟩
  cases p
  cases q
  simp only [DronePlot.mk.injEq] at hqe ⊢
  simp only [hqe, true_and, and_self, and_true]

theorem settled_of_clearChecked_eq {a b : List DronePlot}
    (h : clearChecked a = clearChecked b) (hb : Settled b) : Settled a := by
  intro p hp q hq hdup
  obtain ⟨p', hp', c, rfl⟩ := mem_of_clearChecked_eq h hp
  obtain ⟨q', hq', d, rfl⟩ := mem_of_clearChecked_eq h hq
  rw [isDuplicate_mark_left, isDuplicate_mark_right] at hdup
  exact hb p' hp' q' hq' hdup

theorem collectStep_settled (it : DronePlot) (t : Int) (acc : List Nat × List DronePlot)
    (j : Nat)
    (h : (∀ k ∈ acc.1, ∃ q, getDBIterator acc.2 k = some q ∧ q.timestamp = t) ∧
      (∀ k q, getDBIterator acc.2 k = some q → isDuplicate it q = true → q.timestamp = t)) :
    (∀ k ∈ (collectStep it acc j).1,
      ∃ q, getDBIterator (collectStep it acc j).2 k = some q ∧ q.timestamp = t) ∧
    (∀ k q, getDBIterator (collectStep it acc j).2 k = some q → isDuplicate it q = true →
      q.timestamp = t) := by
  unfold collectStep
  split
  · next it2 hj =>
    split
    · next hdup =>
      have hj_lt : j < acc.2.length := (List.getElem?_eq_some.mp hj).1
      have ht2 : it2.timestamp = t := h.2 j it2 hj hdup
      have hget : ∀ k q, getDBIterator (acc.2.set j { it2 with checked := true }) k = some q →
          (k = j ∧ q = { it2 with checked := true }) ∨
          (k ≠ j ∧ getDBIterator acc.2 k = some q) := by
        intro k q hq
        unfold getDBIterator at hq ⊢
        by_cases hkj : j = k
        · subst hkj
          rw [List.getElem?_set_self hj_lt] at hq
          injection hq with hq
          exact Or.inl ⟨rfl, hq.symm⟩
        · rw [List.getElem?_set_ne hkj] at hq
          exact Or.inr ⟨fun h' => hkj h'.symm, hq⟩
      constructor
      · intro k hk
        simp only [List.mem_append, List.mem_singleton] at hk
        by_cases hkj : k = j
        · subst hkj
          refine ⟨{ it2 with checked := true }, ?_, ht2⟩
          unfold getDBIterator
          exact List.getElem?_set_self hj_lt
        · rcases hk with hk | hk
          · obtain ⟨q, hq, hqt⟩ := h.1 k hk
            refine ⟨q, ?_, hqt⟩
            unfold getDBIterator at hq ⊢
            rw [List.getElem?_set_ne (fun h' => hkj h'.symm)]
            exact hq
          · exact absurd hk hkj
      · intro k q hq hd
        rcases hget k q hq with ⟨_, rfl⟩ | ⟨_, hq'⟩
        · exact ht2
        · exact h.2 k q hq' hd
    · exact h
  · exact h

/-- In a settled store every member of the cluster of an anchor carries the anchor's
timestamp. -/
theorem formCluster_settled (it : DronePlot) (i : Nat) (db : List DronePlot)
    (hit : getDBIterator db i = some it) (hset : Settled db) :
    ∀ k ∈ (formCluster it i db).1,
      ∃ q, getDBIterator (formCluster it i db).2 k = some q ∧
        q.timestamp = it.timestamp := by
  have hi : i < db.length := (List.getElem?_eq_some.mp hit).1
  have hinv : (∀ k ∈ (formCluster it i db).1,
      ∃ q, getDBIterator (formCluster it i db).2 k = some q ∧
        q.timestamp = it.timestamp) ∧
      (∀ k q, getDBIterator (formCluster it i db).2 k = some q →
        isDuplicate { it with checked := true } q = true → q.timestamp = it.timestamp) := by
    unfold formCluster collectDuplicates
    refine foldl_preserves
      (fun acc : List Nat × List DronePlot =>
        (∀ k ∈ acc.1, ∃ q, getDBIterator acc.2 k = some q ∧ q.timestamp = it.timestamp) ∧
        (∀ k q, getDBIterator acc.2 k = some q →
          isDuplicate { it with checked := true } q = true → q.timestamp = it.timestamp))
      _ ?_ _ _ ?_
    · intro acc j hacc
      exact collectStep_settled _ it.timestamp acc j hacc
    · constructor
      · intro k hk
        simp only [List.mem_singleton] at hk
        subst hk
        refine ⟨{ it with checked := true }, ?_, rfl⟩
        unfold getDBIterator
        exact List.getElem?_set_self hi
      · intro k q hq hd
        rw [isDuplicate_mark_left] at hd
        obtain ⟨q', hq', c, rfl⟩ := mem_set_mark hit (List.getElem?_mem hq)
        rw [isDuplicate_mark_right] at hd
        exact (hset it (List.getElem?_mem hit) q' hq' hd).symm
  exact hinv.1

theorem assignTimestamps_eq_self (largestTime : Int) (l : List Nat) (db : List DronePlot)
    (h : ∀ m ∈ l, ∀ p, getDBIterator db m = some p → p.timestamp = largestTime) :
    assignTimestamps largestTime l db = db := by
  unfold assignTimestamps
  apply foldl_eq_self
  intro m hm
  unfold assignStep
  split
  · next p hp =>
    have := h m hm p hp
    simp [this]
  · rfl

/-- An anchor in a settled store whose timestamp is not negative and more than 13 above
the reference time: the step only sets `checked` markers and moves the reference time on
by at most 11. -/
theorem syncStep_settled_anchor (refTimeSet : Bool) (st : ReplServer × Int) (i : Nat)
    (it : DronePlot) (hit : getDBIterator st.1._plotdb i = some it)
    (hnew : it.isFlagSet DBFLAG_NEW = false) (hchk : it.checked = false)
    (hset : Settled st.1._plotdb)
    (h0 : 0 ≤ it.timestamp) (href : st.2 + 13 < it.timestamp) :
    clearChecked (syncStep refTimeSet st i).1._plotdb = clearChecked st.1._plotdb ∧
    (syncStep refTimeSet st i).2 ≤ st.2 + 11 := by
  obtain ⟨h₁, h₂⟩ := syncStep_anchor refTimeSet st i it hit hnew hchk
  obtain ⟨f₁, f₂, _⟩ := formCluster_spec it i st.1._plotdb hit
  have hmem := formCluster_settled it i st.1._plotdb hit hset
  obtain ⟨l0, lle, lor⟩ := findLargestTime_spec (formCluster it i st.1._plotdb).2
    (formCluster it i st.1._plotdb).1
  have hL : findLargestTime (formCluster it i st.1._plotdb).2
      (formCluster it i st.1._plotdb).1 = it.timestamp := by
    obtain ⟨qi, hqi, hqit⟩ := hmem i f₁
    have hge := lle i f₁ qi hqi
    rcases lor with hz | ⟨k, hk, p, hp, hpt⟩
    · omega
    · obtain ⟨q, hq, hqt⟩ := hmem k hk
      rw [hp] at hq
      injection hq with hq
      rw [← hpt, hq, hqt]
  rw [hL] at h₁ h₂
  have hadj : adjustToReference refTimeSet it.timestamp st.2 =
      (it.timestamp, if refTimeSet then st.2 + 6 else st.2) := by
    unfold adjustToReference
    cases refTimeSet
    · simp
    · have : it.timestamp > st.2 + 13 := href
      simp [this]
  rw [hadj] at h₁ h₂
  simp only at h₁ h₂
  constructor
  · rw [h₁, assignTimestamps_eq_self _ _ _ ?_, f₂]
    intro m hm p hp
    obtain ⟨q, hq, hqt⟩ := hmem m hm
    rw [hp] at hq
    injection hq with hq
    rw [hq, hqt]
  · rw [h₂]
    split <;> omega

/-- The outer loop over a settled store in which every timestamp is far enough above the
reference time: nothing but `checked` markers changes. -/
theorem syncStep_foldl_settled (refTimeSet : Bool) (l : List Nat) :
    ∀ st : ReplServer × Int, Settled st.1._plotdb →
      (∀ p ∈ st.1._plotdb, 0 ≤ p.timestamp ∧ st.2 + 11 * (l.length : Int) + 2 < p.timestamp) →
      clearChecked (l.foldl (syncStep refTimeSet) st).1._plotdb = clearChecked st.1._plotdb := by
  induction l with
  | nil => exact fun st _ _ => rfl
  | cons i l ih =>
    intro st hset hts
    rw [List.foldl_cons]
    have hlen : ((i :: l).length : Int) = (l.length : Int) + 1 := by simp
    by_cases hanchor : ∃ it, getDBIterator st.1._plotdb i = some it ∧
        it.isFlagSet DBFLAG_NEW = false ∧ it.checked = false
    · obtain ⟨it, hit, hnew, hchk⟩ := hanchor
      have hit_ts := hts it (List.getElem?_mem hit)
      obtain ⟨hdb, href⟩ := syncStep_settled_anchor refTimeSet st i it hit hnew hchk hset
        hit_ts.1 (by rw [hlen] at hit_ts; omega)
      have key := ih (syncStep refTimeSet st i) (settled_of_clearChecked_eq hdb hset) ?_
      · rw [key, hdb]
      · intro p hp
        obtain ⟨p', hp', c, rfl⟩ := mem_of_clearChecked_eq hdb hp
        have := hts p' hp'
        rw [hlen] at this
        simp only
        constructor
        · exact this.1
        · omega
    · have hskip : syncStep refTimeSet st i = st := by
        apply syncStep_skip
        intro it hit
        by_contra hcon
        push_neg at hcon
        exact hanchor ⟨it, hit, by simpa using hcon.1, by simpa using hcon.2⟩
      rw [hskip]
      apply ih st hset
      intro p hp
      have := hts p hp
      rw [hlen] at this
      constructor
      · exact this.1
      · omega

/-- A pass over a settled store of unchecked records in which every timestamp exceeds
`bound + 11 * n + 2`, where `bound` is at least the start time and `n` is the number of
records: the pass only sorts the store. -/
theorem dbTimeSync2_plotdb_of_settled (s : ReplServer) (bound : Int)
    (hchk : ∀ p ∈ s._plotdb, p.checked = false) (hset : Settled s._plotdb)
    (hb : 0 ≤ bound) (hm : s.masterStartTime ≤ bound)
    (hts : ∀ p ∈ s._plotdb, bound + 11 * (s._plotdb.length : Int) + 2 < p.timestamp) :
    (dbTimeSync2 s)._plotdb = sortByTime s._plotdb := by
  have hmem : ∀ p, p ∈ sortByTime s._plotdb ↔ p ∈ s._plotdb := fun p => List.mem_insertionSort _
  have hlen : (sortByTime s._plotdb).length = s._plotdb.length := List.length_insertionSort _ _
  have key := syncStep_foldl_settled s.startTimeWasSet (List.range (sortByTime s._plotdb).length)
    ({ s with _plotdb := sortByTime s._plotdb }, if s.startTimeWasSet then s.masterStartTime else 0)
    (fun p hp q hq => hset p ((hmem p).mp hp) q ((hmem q).mp hq))
    (by
      intro p hp
      have := hts p ((hmem p).mp hp)
      simp only [List.length_range, hlen]
      constructor
      · omega
      · split <;> omega)
  unfold dbTimeSync2
  simp only
  rw [key]
  exact clearChecked_eq_self _ (fun p hp => hchk p ((hmem p).mp hp))

theorem dbTimeSync2_length (s : ReplServer) :
    (dbTimeSync2 s)._plotdb.length = s._plotdb.length := by
  have key : (dbTimeSync2 s)._plotdb.map frameOf = (sortByTime s._plotdb).map frameOf := by
    unfold dbTimeSync2
    simp only
    rw [frameOf_map_clearChecked, syncStep_foldl_frame]
  have h := congrArg List.length key
  rw [List.length_map, List.length_map] at h
  rw [h]
  exact List.length_insertionSort _ _

theorem assignTimestamps_timestamps (v : Int) (l : List Nat) (db : List DronePlot) :
    ∀ p ∈ assignTimestamps v l db, p.timestamp = v ∨ ∃ q ∈ db, p.timestamp = q.timestamp := by
  unfold assignTimestamps
  refine foldl_preserves
    (fun d : List DronePlot => ∀ p ∈ d, p.timestamp = v ∨ ∃ q ∈ db, p.timestamp = q.timestamp)
    _ ?_ l db ?_
  · intro d m hd p hp
    unfold assignStep at hp
    split at hp
    · next r hr =>
      split at hp
      · rcases List.mem_or_eq_of_mem_set hp with h | h
        · exact hd p h
        · left
          rw [h]
      · exact hd p hp
    · exact hd p hp
  · intro p hp
    exact Or.inr ⟨p, hp, rfl⟩

/-- One step of the outer loop over a store whose timestamps all lie strictly between `B`
and `U`, with the reference time at least 13 below `B`: the timestamps stay between `B`
and `U`, and the reference time moves on by at most 11. -/
theorem syncStep_bounds (refTimeSet : Bool) (st : ReplServer × Int) (i : Nat) (B U : Int)
    (hB : 0 ≤ B) (href : st.2 + 13 ≤ B)
    (hts : ∀ p ∈ st.1._plotdb, B < p.timestamp ∧ p.timestamp < U) :
    (∀ p ∈ (syncStep refTimeSet st i).1._plotdb, B < p.timestamp ∧ p.timestamp < U) ∧
    (syncStep refTimeSet st i).2 ≤ st.2 + 11 := by
  by_cases hanchor : ∃ it, getDBIterator st.1._plotdb i = some it ∧
      it.isFlagSet DBFLAG_NEW = false ∧ it.checked = false
  · obtain ⟨it, hit, hnew, hchk⟩ := hanchor
    obtain ⟨h₁, h₂⟩ := syncStep_anchor refTimeSet st i it hit hnew hchk
    obtain ⟨f₁, f₂, _⟩ := formCluster_spec it i st.1._plotdb hit
    have hi : i < st.1._plotdb.length := (List.getElem?_eq_some.mp hit).1
    have hlt := formCluster_members_lt it i st.1._plotdb hi
    have hF : ∀ p ∈ (formCluster it i st.1._plotdb).2, B < p.timestamp ∧ p.timestamp < U := by
      intro p hp
      obtain ⟨q, hq, c, rfl⟩ := mem_of_clearChecked_eq f₂ hp
      exact hts q hq
    obtain ⟨_, lle, lor⟩ := findLargestTime_spec (formCluster it i st.1._plotdb).2
      (formCluster it i st.1._plotdb).1
    have hLB : B < findLargestTime (formCluster it i st.1._plotdb).2
        (formCluster it i st.1._plotdb).1 := by
      have hil := hlt i f₁
      have hget : getDBIterator (formCluster it i st.1._plotdb).2 i =
          some ((formCluster it i st.1._plotdb).2.get ⟨i, hil⟩) := by
        unfold getDBIterator
        exact List.getElem?_eq_getElem hil
      have h1 := lle i f₁ _ hget
      have h2 := (hF _ (List.getElem?_mem hget)).1
      omega
    have hLU : findLargestTime (formCluster it i st.1._plotdb).2
        (formCluster it i st.1._plotdb).1 < U := by
      rcases lor with hz | ⟨k, hk, p, hp, hpt⟩
      · omega
      · rw [← hpt]
        exact (hF p (List.getElem?_mem hp)).2
    have hadj : adjustToReference refTimeSet
        (findLargestTime (formCluster it i st.1._plotdb).2 (formCluster it i st.1._plotdb).1)
        st.2 =
        (findLargestTime (formCluster it i st.1._plotdb).2 (formCluster it i st.1._plotdb).1,
          if refTimeSet then st.2 + 6 else st.2) := by
      unfold adjustToReference
      cases refTimeSet
      · simp
      · have : findLargestTime (formCluster it i st.1._plotdb).2
            (formCluster it i st.1._plotdb).1 > st.2 + 13 := by omega
        simp [this]
    rw [hadj] at h₁ h₂
    simp only at h₁ h₂
    constructor
    · intro p hp
      rw [h₁] at hp
      rcases assignTimestamps_timestamps _ _ _ p hp with h | ⟨q, hq, h⟩
      · rw [h]
        exact ⟨hLB, hLU⟩
      · rw [h]
        exact hF q hq
    · rw [h₂]
      split <;> omega
  · have hskip : syncStep refTimeSet st i = st := by
      apply syncStep_skip
      intro it hit
      by_contra hcon
      push_neg at hcon
      exact hanchor ⟨it, hit, by simpa using hcon.1, by simpa using hcon.2⟩
    rw [hskip]
    exact ⟨hts, by omega⟩

theorem syncStep_foldl_bounds (refTimeSet : Bool) (B U : Int) (hB : 0 ≤ B) (l : List Nat) :
    ∀ st : ReplServer × Int, st.2 + 11 * (l.length : Int) + 2 ≤ B →
      (∀ p ∈ st.1._plotdb, B < p.timestamp ∧ p.timestamp < U) →
      ∀ p ∈ (l.foldl (syncStep refTimeSet) st).1._plotdb, B < p.timestamp ∧ p.timestamp < U := by
  induction l with
  | nil => exact fun st _ h => h
  | cons i l ih =>
    intro st href hts
    rw [List.foldl_cons]
    have hlen : ((i :: l).length : Int) = (l.length : Int) + 1 := by simp
    rw [hlen] at href
    obtain ⟨h1, h2⟩ := syncStep_bounds refTimeSet st i B U hB (by omega) hts
    exact ih _ (by omega) h1

/-- A pass over a store whose timestamps all lie above `max masterStartTime 8 + 11 * n + 2`
and below `U` leaves every timestamp in that range. -/
theorem dbTimeSync2_bounds (s : ReplServer) (U : Int)
    (hts : ∀ p ∈ s._plotdb,
      max s.masterStartTime 8 + 11 * (s._plotdb.length : Int) + 2 < p.timestamp ∧
      p.timestamp < U) :
    ∀ p ∈ (dbTimeSync2 s)._plotdb,
      max s.masterStartTime 8 + 11 * (s._plotdb.length : Int) + 2 < p.timestamp ∧
      p.timestamp < U := by
  have hmem : ∀ p, p ∈ sortByTime s._plotdb ↔ p ∈ s._plotdb := fun p => List.mem_insertionSort _
  have hlen : (sortByTime s._plotdb).length = s._plotdb.length := List.length_insertionSort _ _
  have key := syncStep_foldl_bounds s.startTimeWasSet
    (max s.masterStartTime 8 + 11 * (s._plotdb.length : Int) + 2) U (by omega)
    (List.range (sortByTime s._plotdb).length)
    ({ s with _plotdb := sortByTime s._plotdb }, if s.startTimeWasSet then s.masterStartTime else 0)
    (by
      simp only [List.length_range, hlen]
      split <;> omega)
    (fun p hp => hts p ((hmem p).mp hp))
  intro p hp
  unfold dbTimeSync2 at hp
  simp only at hp
  unfold clearChecked at hp
  obtain ⟨q, hq, rfl⟩ := List.mem_map.mp hp
  exact key q hq

end ReplServer
